import Mathlib

/-!
rpc-client-go: event decoder, timestamps, bot dispatcher and transport.

A shallow embedding of `deltachat/event.go`, `deltachat/timestamp.go`,
`deltachat/bot.go` and `deltachat/transport/*.go`, with the properties the
specification states about them.
-/

namespace deltachat

/-! ## Identifier types (`AccountId`, `ChatId`, `MsgId`, `ContactId`)

The declarations of the identifier types are not part of the sources at hand;
they are unsigned integers issued by the core server, and the code below only
copies and compares them. -/

abbrev AccountId := Nat
abbrev ChatId := Nat
abbrev MsgId := Nat
abbrev ContactId := Nat

/-! ## event.go -/

/-- Go `type eventType string`. -/
abbrev eventType := String

def eventTypeUnknown : eventType := "UnknownEvent"
def eventTypeInfo : eventType := "Info"
def eventTypeSmtpConnected : eventType := "SmtpConnected"
def eventTypeImapConnected : eventType := "ImapConnected"
def eventTypeSmtpMessageSent : eventType := "SmtpMessageSent"
def eventTypeImapMessageDeleted : eventType := "ImapMessageDeleted"
def eventTypeImapMessageMoved : eventType := "ImapMessageMoved"
def eventTypeImapInboxIdle : eventType := "ImapInboxIdle"
def eventTypeNewBlobFile : eventType := "NewBlobFile"
def eventTypeDeletedBlobFile : eventType := "DeletedBlobFile"
def eventTypeWarning : eventType := "Warning"
def eventTypeError : eventType := "Error"
def eventTypeErrorSelfNotInGroup : eventType := "ErrorSelfNotInGroup"
def eventTypeMsgsChanged : eventType := "MsgsChanged"
def eventTypeReactionsChanged : eventType := "ReactionsChanged"
def eventTypeIncomingMsg : eventType := "IncomingMsg"
def eventTypeIncomingMsgBunch : eventType := "IncomingMsgBunch"
def eventTypeMsgsNoticed : eventType := "MsgsNoticed"
def eventTypeMsgDelivered : eventType := "MsgDelivered"
def eventTypeMsgFailed : eventType := "MsgFailed"
def eventTypeMsgRead : eventType := "MsgRead"
def eventTypeMsgDeleted : eventType := "MsgDeleted"
def eventTypeChatModified : eventType := "ChatModified"
def eventTypeChatEphemeralTimerModified : eventType := "ChatEphemeralTimerModified"
def eventTypeContactsChanged : eventType := "ContactsChanged"
def eventTypeLocationChanged : eventType := "LocationChanged"
def eventTypeConfigureProgress : eventType := "ConfigureProgress"
def eventTypeImexProgress : eventType := "ImexProgress"
def eventTypeImexFileWritten : eventType := "ImexFileWritten"
def eventTypeSecurejoinInviterProgress : eventType := "SecurejoinInviterProgress"
def eventTypeSecurejoinJoinerProgress : eventType := "SecurejoinJoinerProgress"
def eventTypeConnectivityChanged : eventType := "ConnectivityChanged"
def eventTypeSelfavatarChanged : eventType := "SelfavatarChanged"
def eventTypeConfigSynced : eventType := "ConfigSynced"
def eventTypeWebxdcStatusUpdate : eventType := "WebxdcStatusUpdate"
def eventTypeWebxdcInstanceDeleted : eventType := "WebxdcInstanceDeleted"
def eventTypeAccountsBackgroundFetchDone : eventType := "AccountsBackgroundFetchDone"

/-- Go `type _EventData struct`: the flat wire record of one event.
`Timer` is a Go `int`, `Progress` and `StatusUpdateSerial` are Go `uint`;
the decoder only copies them. -/
structure _EventData where
  Kind : eventType
  Msg : String
  File : String
  ChatId : deltachat.ChatId
  MsgId : deltachat.MsgId
  ContactId : deltachat.ContactId
  MsgIds : List deltachat.MsgId
  Timer : Int
  Progress : Nat
  Comment : String
  Path : String
  StatusUpdateSerial : Nat
  Key : String
deriving DecidableEq, Repr

/-- Go `type Event interface`, closed over the variant structs that
`event.go` declares; every constructor is one Go struct with its fields. -/
inductive Event where
  | UnknownEvent (Kind : eventType)
  | EventInfo (Msg : String)
  | EventSmtpConnected (Msg : String)
  | EventImapConnected (Msg : String)
  | EventSmtpMessageSent (Msg : String)
  | EventImapMessageDeleted (Msg : String)
  | EventImapMessageMoved (Msg : String)
  | EventImapInboxIdle
  | EventNewBlobFile (File : String)
  | EventDeletedBlobFile (File : String)
  | EventWarning (Msg : String)
  | EventError (Msg : String)
  | EventErrorSelfNotInGroup (Msg : String)
  | EventMsgsChanged (ChatId : ChatId) (MsgId : MsgId)
  | EventReactionsChanged (ChatId : ChatId) (MsgId : MsgId) (ContactId : ContactId)
  | EventIncomingMsg (ChatId : ChatId) (MsgId : MsgId)
  | EventIncomingMsgBunch
  | EventMsgsNoticed (ChatId : ChatId)
  | EventMsgDelivered (ChatId : ChatId) (MsgId : MsgId)
  | EventMsgFailed (ChatId : ChatId) (MsgId : MsgId)
  | EventMsgRead (ChatId : ChatId) (MsgId : MsgId)
  | EventMsgDeleted (ChatId : ChatId) (MsgId : MsgId)
  | EventChatModified (ChatId : ChatId)
  | EventChatEphemeralTimerModified (ChatId : ChatId) (Timer : Int)
  | EventContactsChanged (ContactId : ContactId)
  | EventLocationChanged (ContactId : ContactId)
  | EventConfigureProgress (Progress : Nat) (Comment : String)
  | EventImexProgress (Progress : Nat)
  | EventImexFileWritten (Path : String)
  | EventSecurejoinInviterProgress (ContactId : ContactId) (Progress : Nat)
  | EventSecurejoinJoinerProgress (ContactId : ContactId) (Progress : Nat)
  | EventConnectivityChanged
  | EventSelfavatarChanged
  | EventConfigSynced (Key : String)
  | EventWebxdcStatusUpdate (MsgId : MsgId) (StatusUpdateSerial : Nat)
  | EventWebxdcInstanceDeleted (MsgId : MsgId)
  | EventAccountsBackgroundFetchDone
deriving DecidableEq, Repr

/-- Go `func (eventData *_EventData) ToEvent() Event`: a `switch` on
`eventData.Kind`, the cases tried from top to bottom, `default` last. -/
def _EventData.ToEvent (eventData : _EventData) : Event :=
  if eventData.Kind = eventTypeInfo then
    .EventInfo eventData.Msg
  else if eventData.Kind = eventTypeSmtpConnected then
    .EventSmtpConnected eventData.Msg
  else if eventData.Kind = eventTypeImapConnected then
    .EventImapConnected eventData.Msg
  else if eventData.Kind = eventTypeSmtpMessageSent then
    .EventSmtpMessageSent eventData.Msg
  else if eventData.Kind = eventTypeImapMessageDeleted then
    .EventImapMessageDeleted eventData.Msg
  else if eventData.Kind = eventTypeImapMessageMoved then
    .EventImapMessageMoved eventData.Msg
  else if eventData.Kind = eventTypeImapInboxIdle then
    .EventImapInboxIdle
  else if eventData.Kind = eventTypeNewBlobFile then
    .EventNewBlobFile eventData.File
  else if eventData.Kind = eventTypeDeletedBlobFile then
    .EventDeletedBlobFile eventData.File
  else if eventData.Kind = eventTypeWarning then
    .EventWarning eventData.Msg
  else if eventData.Kind = eventTypeError then
    .EventError eventData.Msg
  else if eventData.Kind = eventTypeErrorSelfNotInGroup then
    .EventErrorSelfNotInGroup eventData.Msg
  else if eventData.Kind = eventTypeMsgsChanged then
    .EventMsgsChanged eventData.ChatId eventData.MsgId
  else if eventData.Kind = eventTypeReactionsChanged then
    .EventReactionsChanged eventData.ChatId eventData.MsgId eventData.ContactId
  else if eventData.Kind = eventTypeIncomingMsg then
    .EventIncomingMsg eventData.ChatId eventData.MsgId
  else if eventData.Kind = eventTypeIncomingMsgBunch then
    .EventIncomingMsgBunch
  else if eventData.Kind = eventTypeMsgsNoticed then
    .EventMsgsNoticed eventData.ChatId
  else if eventData.Kind = eventTypeMsgDelivered then
    .EventMsgDelivered eventData.ChatId eventData.MsgId
  else if eventData.Kind = eventTypeMsgFailed then
    .EventMsgFailed eventData.ChatId eventData.MsgId
  else if eventData.Kind = eventTypeMsgRead then
    .EventMsgRead eventData.ChatId eventData.MsgId
  else if eventData.Kind = eventTypeMsgDeleted then
    .EventMsgDeleted eventData.ChatId eventData.MsgId
  else if eventData.Kind = eventTypeChatModified then
    .EventChatModified eventData.ChatId
  else if eventData.Kind = eventTypeChatEphemeralTimerModified then
    .EventChatEphemeralTimerModified eventData.ChatId eventData.Timer
  else if eventData.Kind = eventTypeContactsChanged then
    .EventContactsChanged eventData.ContactId
  else if eventData.Kind = eventTypeLocationChanged then
    .EventLocationChanged eventData.ContactId
  else if eventData.Kind = eventTypeConfigureProgress then
    .EventConfigureProgress eventData.Progress eventData.Comment
  else if eventData.Kind = eventTypeImexProgress then
    .EventImexProgress eventData.Progress
  else if eventData.Kind = eventTypeImexFileWritten then
    .EventImexFileWritten eventData.Path
  else if eventData.Kind = eventTypeSecurejoinInviterProgress then
    .EventSecurejoinInviterProgress eventData.ContactId eventData.Progress
  else if eventData.Kind = eventTypeSecurejoinJoinerProgress then
    .EventSecurejoinJoinerProgress eventData.ContactId eventData.Progress
  else if eventData.Kind = eventTypeConnectivityChanged then
    .EventConnectivityChanged
  else if eventData.Kind = eventTypeSelfavatarChanged then
    .EventSelfavatarChanged
  else if eventData.Kind = eventTypeConfigSynced then
    .EventConfigSynced eventData.Key
  else if eventData.Kind = eventTypeWebxdcStatusUpdate then
    .EventWebxdcStatusUpdate eventData.MsgId eventData.StatusUpdateSerial
  else if eventData.Kind = eventTypeWebxdcInstanceDeleted then
    .EventWebxdcInstanceDeleted eventData.MsgId
  else if eventData.Kind = eventTypeAccountsBackgroundFetchDone then
    .EventAccountsBackgroundFetchDone
  else
    .UnknownEvent eventData.Kind

/-- Go `func (event X) eventType() eventType`, one method per variant. -/
def Event.eventType : Event → eventType
  | .UnknownEvent _ => eventTypeUnknown
  | .EventInfo _ => eventTypeInfo
  | .EventSmtpConnected _ => eventTypeSmtpConnected
  | .EventImapConnected _ => eventTypeImapConnected
  | .EventSmtpMessageSent _ => eventTypeSmtpMessageSent
  | .EventImapMessageDeleted _ => eventTypeImapMessageDeleted
  | .EventImapMessageMoved _ => eventTypeImapMessageMoved
  | .EventImapInboxIdle => eventTypeImapInboxIdle
  | .EventNewBlobFile _ => eventTypeNewBlobFile
  | .EventDeletedBlobFile _ => eventTypeDeletedBlobFile
  | .EventWarning _ => eventTypeWarning
  | .EventError _ => eventTypeError
  | .EventErrorSelfNotInGroup _ => eventTypeErrorSelfNotInGroup
  | .EventMsgsChanged _ _ => eventTypeMsgsChanged
  | .EventReactionsChanged _ _ _ => eventTypeReactionsChanged
  | .EventIncomingMsg _ _ => eventTypeIncomingMsg
  | .EventIncomingMsgBunch => eventTypeIncomingMsgBunch
  | .EventMsgsNoticed _ => eventTypeMsgsNoticed
  | .EventMsgDelivered _ _ => eventTypeMsgDelivered
  | .EventMsgFailed _ _ => eventTypeMsgFailed
  | .EventMsgRead _ _ => eventTypeMsgRead
  | .EventMsgDeleted _ _ => eventTypeMsgDeleted
  | .EventChatModified _ => eventTypeChatModified
  | .EventChatEphemeralTimerModified _ _ => eventTypeChatEphemeralTimerModified
  | .EventContactsChanged _ => eventTypeContactsChanged
  | .EventLocationChanged _ => eventTypeLocationChanged
  | .EventConfigureProgress _ _ => eventTypeConfigureProgress
  | .EventImexProgress _ => eventTypeImexProgress
  | .EventImexFileWritten _ => eventTypeImexFileWritten
  | .EventSecurejoinInviterProgress _ _ => eventTypeSecurejoinInviterProgress
  | .EventSecurejoinJoinerProgress _ _ => eventTypeSecurejoinJoinerProgress
  | .EventConnectivityChanged => eventTypeConnectivityChanged
  | .EventSelfavatarChanged => eventTypeSelfavatarChanged
  | .EventConfigSynced _ => eventTypeConfigSynced
  | .EventWebxdcStatusUpdate _ _ => eventTypeWebxdcStatusUpdate
  | .EventWebxdcInstanceDeleted _ => eventTypeWebxdcInstanceDeleted
  | .EventAccountsBackgroundFetchDone => eventTypeAccountsBackgroundFetchDone

/-! ## The event catalogue of the specification -/

/-- Names of the payload members of a wire event record. -/
inductive Field where
  | msg | file | chatId | msgId | contactId | msgIds | timer | progress
  | comment | path | statusUpdateSerial | key
deriving DecidableEq, Repr

/-- A payload value: text, an unsigned number, a signed number or a list of
message ids. -/
inductive FieldVal where
  | str (s : String)
  | uint (n : Nat)
  | int (i : Int)
  | ids (l : List MsgId)
deriving DecidableEq, Repr

/-- The member of the wire record `d` that is called `f`. -/
def _EventData.field (d : _EventData) : Field → FieldVal
  | .msg => .str d.Msg
  | .file => .str d.File
  | .chatId => .uint d.ChatId
  | .msgId => .uint d.MsgId
  | .contactId => .uint d.ContactId
  | .msgIds => .ids d.MsgIds
  | .timer => .int d.Timer
  | .progress => .uint d.Progress
  | .comment => .str d.Comment
  | .path => .str d.Path
  | .statusUpdateSerial => .uint d.StatusUpdateSerial
  | .key => .str d.Key

/-- The fields of each variant struct of `event.go`, in declaration order,
with the values they hold. -/
def Event.fields : Event → List (Field × FieldVal)
  | .UnknownEvent _ => []
  | .EventInfo m => [(.msg, .str m)]
  | .EventSmtpConnected m => [(.msg, .str m)]
  | .EventImapConnected m => [(.msg, .str m)]
  | .EventSmtpMessageSent m => [(.msg, .str m)]
  | .EventImapMessageDeleted m => [(.msg, .str m)]
  | .EventImapMessageMoved m => [(.msg, .str m)]
  | .EventImapInboxIdle => []
  | .EventNewBlobFile f => [(.file, .str f)]
  | .EventDeletedBlobFile f => [(.file, .str f)]
  | .EventWarning m => [(.msg, .str m)]
  | .EventError m => [(.msg, .str m)]
  | .EventErrorSelfNotInGroup m => [(.msg, .str m)]
  | .EventMsgsChanged c m => [(.chatId, .uint c), (.msgId, .uint m)]
  | .EventReactionsChanged c m k => [(.chatId, .uint c), (.msgId, .uint m), (.contactId, .uint k)]
  | .EventIncomingMsg c m => [(.chatId, .uint c), (.msgId, .uint m)]
  | .EventIncomingMsgBunch => []
  | .EventMsgsNoticed c => [(.chatId, .uint c)]
  | .EventMsgDelivered c m => [(.chatId, .uint c), (.msgId, .uint m)]
  | .EventMsgFailed c m => [(.chatId, .uint c), (.msgId, .uint m)]
  | .EventMsgRead c m => [(.chatId, .uint c), (.msgId, .uint m)]
  | .EventMsgDeleted c m => [(.chatId, .uint c), (.msgId, .uint m)]
  | .EventChatModified c => [(.chatId, .uint c)]
  | .EventChatEphemeralTimerModified c t => [(.chatId, .uint c), (.timer, .int t)]
  | .EventContactsChanged k => [(.contactId, .uint k)]
  | .EventLocationChanged k => [(.contactId, .uint k)]
  | .EventConfigureProgress p c => [(.progress, .uint p), (.comment, .str c)]
  | .EventImexProgress p => [(.progress, .uint p)]
  | .EventImexFileWritten p => [(.path, .str p)]
  | .EventSecurejoinInviterProgress k p => [(.contactId, .uint k), (.progress, .uint p)]
  | .EventSecurejoinJoinerProgress k p => [(.contactId, .uint k), (.progress, .uint p)]
  | .EventConnectivityChanged => []
  | .EventSelfavatarChanged => []
  | .EventConfigSynced k => [(.key, .str k)]
  | .EventWebxdcStatusUpdate m s => [(.msgId, .uint m), (.statusUpdateSerial, .uint s)]
  | .EventWebxdcInstanceDeleted m => [(.msgId, .uint m)]
  | .EventAccountsBackgroundFetchDone => []

/-- The event catalogue as the specification words it (kind, then the payload
fields declared for that kind), in the order of the specification. -/
def catalogue : List (eventType × List Field) :=
  [ ("Info", [.msg]), ("Warning", [.msg]), ("Error", [.msg]),
    ("ErrorSelfNotInGroup", [.msg]), ("SmtpConnected", [.msg]),
    ("ImapConnected", [.msg]), ("SmtpMessageSent", [.msg]),
    ("ImapMessageDeleted", [.msg]), ("ImapMessageMoved", [.msg]),
    ("NewBlobFile", [.file]), ("DeletedBlobFile", [.file]),
    ("ImapInboxIdle", []), ("IncomingMsgBunch", []), ("ConnectivityChanged", []),
    ("SelfavatarChanged", []), ("AccountsBackgroundFetchDone", []),
    ("MsgsChanged", [.chatId, .msgId]), ("IncomingMsg", [.chatId, .msgId]),
    ("MsgDelivered", [.chatId, .msgId]), ("MsgFailed", [.chatId, .msgId]),
    ("MsgRead", [.chatId, .msgId]), ("MsgDeleted", [.chatId, .msgId]),
    ("MsgsNoticed", [.chatId]), ("ChatModified", [.chatId]),
    ("ChatEphemeralTimerModified", [.chatId, .timer]),
    ("ReactionsChanged", [.chatId, .msgId, .contactId]),
    ("ContactsChanged", [.contactId]), ("LocationChanged", [.contactId]),
    ("ConfigureProgress", [.progress, .comment]),
    ("ImexProgress", [.progress]),
    ("ImexFileWritten", [.path]),
    ("SecurejoinInviterProgress", [.contactId, .progress]),
    ("SecurejoinJoinerProgress", [.contactId, .progress]),
    ("ConfigSynced", [.key]),
    ("WebxdcStatusUpdate", [.msgId, .statusUpdateSerial]),
    ("WebxdcInstanceDeleted", [.msgId]) ]

/-- The kinds of the catalogue. -/
def catalogueKinds : List eventType := catalogue.map Prod.fst

/-- The payload fields the catalogue declares for kind `k`; none for a kind
that is not in the catalogue. -/
def declaredFields (k : eventType) : List Field :=
  match catalogue.lookup k with
  | some fs => fs
  | none => []


deriving instance DecidableEq for Except

/-! ## timestamp.go -/

/-- Go `[]byte` holding ASCII text. -/
abbrev Bytes := List Char

/-- Reduction of an integer to the range of Go `int64` (two's complement
wrap-around of `int64` arithmetic). -/
def wrapInt64 (x : Int) : Int := (x + 2 ^ 63) % 2 ^ 64 - 2 ^ 63

/-- The digit loop of Go `fmt` for base 10: the digits of `u` are put in front
of `acc`, least significant first; `fuel` bounds the number of digits. -/
def fmtDigits : Nat → Nat → Bytes → Bytes
  | 0, _, acc => acc
  | fuel + 1, u, acc =>
    if u ≥ 10 then fmtDigits fuel (u / 10) (Char.ofNat (48 + u % 10) :: acc)
    else Char.ofNat (48 + u) :: acc

/-- Go `fmt.Sprintf("%d", v)` for an `int64` value `v`: a minus sign for a
negative value, then the decimal digits of its magnitude. -/
def Sprintf_d (v : Int) : Bytes :=
  if v < 0 then '-' :: fmtDigits (v.natAbs + 1) v.natAbs []
  else fmtDigits (v.natAbs + 1) v.natAbs []

/-- The digit loop of Go `strconv.ParseUint` for base 10; `none` on a byte
that is not a decimal digit. -/
def parseDigits : Bytes → Nat → Option Nat
  | [], n => some n
  | c :: cs, n =>
    if '0' ≤ c ∧ c ≤ '9' then parseDigits cs (n * 10 + (c.toNat - 48)) else none

/-- The error of Go `encoding/json` when decoding into an `int64`: the text
is not valid JSON (Go `SyntaxError`) or it is JSON that is not an integer in
the `int64` range (Go `UnmarshalTypeError`); the two are not told apart. -/
inductive JsonError where
  | notInt64
deriving DecidableEq, Repr

/-- JSON insignificant whitespace. -/
def isJsonSpace (c : Char) : Bool := c = ' ' ∨ c = '\t' ∨ c = '\r' ∨ c = '\n'

/-- Go `json.Unmarshal(b, &v)` for `v` of type `int64` holding `v₀`: around
the value whitespace is skipped; the JSON literal `null` leaves `v` as it is;
the JSON literal of an integer (an optional minus sign, then `0` or digits
that do not start with `0`) in the `int64` range is stored; every other text
is an error, be it no JSON at all or a JSON value that `strconv.ParseInt`
refuses, such as a number with a fraction or an exponent. -/
def jsonUnmarshalInt64 (b : Bytes) (v₀ : Int) : Except JsonError Int :=
  let s := ((b.dropWhile isJsonSpace).reverse.dropWhile isJsonSpace).reverse
  if s = ['n', 'u', 'l', 'l'] then .ok v₀
  else
    let neg := s.head? = some '-'
    let body := if neg then s.tail else s
    match body with
    | [] => .error .notInt64
    | c :: rest =>
      if c = '0' ∧ rest ≠ [] then .error .notInt64
      else
        match parseDigits body 0 with
        | none => .error .notInt64
        | some u =>
          if neg then (if u ≤ 2 ^ 63 then .ok (-(u : Int)) else .error .notInt64)
          else (if u < 2 ^ 63 then .ok (u : Int) else .error .notInt64)

/-- Go `time.Time` without its location: `wall` is a `uint64`, `ext` an
`int64`. -/
structure Time where
  wall : Nat
  ext : Int
deriving DecidableEq, Repr

/-- Seconds from year 1 to the Unix epoch (Go `unixToInternal`). -/
def unixToInternal : Int := (1969 * 365 + 1969 / 4 - 1969 / 100 + 1969 / 400) * 86400

/-- Go `internalToUnix`. -/
def internalToUnix : Int := -unixToInternal

/-- Seconds from year 1 to 1885 (Go `wallToInternal`). -/
def wallToInternal : Int := (1884 * 365 + 1884 / 4 - 1884 / 100 + 1884 / 400) * 86400

/-- Go `hasMonotonic = 1 << 63`, the flag bit of `wall`. -/
def hasMonotonic : Nat := 2 ^ 63

/-- Go `nsecShift`. -/
def nsecShift : Nat := 30

/-- Go `time.Unix(sec, nsec)`: an `nsec` outside `[0, 1e9)` is carried into
`sec`; the result holds `sec + unixToInternal` in `int64` arithmetic. -/
def time.Unix (sec nsec : Int) : Time :=
  if nsec < 0 ∨ nsec ≥ 1000000000 then
    let n := Int.tdiv nsec 1000000000
    let sec := wrapInt64 (sec + n)
    let nsec := wrapInt64 (nsec - wrapInt64 (n * 1000000000))
    if nsec < 0 then
      ⟨(nsec + 1000000000).toNat, wrapInt64 (wrapInt64 (sec - 1) + unixToInternal)⟩
    else
      ⟨nsec.toNat, wrapInt64 (sec + unixToInternal)⟩
  else
    ⟨nsec.toNat, wrapInt64 (sec + unixToInternal)⟩

/-- Go `func (t *Time) sec() int64`: seconds since year 1. -/
def Time.sec (t : Time) : Int :=
  if t.wall / hasMonotonic % 2 ≠ 0 then
    wrapInt64 (wallToInternal + ((t.wall * 2 % 2 ^ 64) / 2 ^ (nsecShift + 1) : Nat))
  else t.ext

/-- Go `func (t Time) Unix() int64`: seconds since the Unix epoch. -/
def Time.Unix (t : Time) : Int := wrapInt64 (t.sec + internalToUnix)

/-- Go `type Timestamp struct { time.Time }`. -/
structure Timestamp where
  Time : Time
deriving DecidableEq, Repr

/-- Go `func (timestamp *Timestamp) UnmarshalJSON(b []byte) error`: the
timestamp stored through the receiver on success, the error otherwise (the
receiver is then left as it was). -/
def Timestamp.UnmarshalJSON (b : Bytes) : Except JsonError Timestamp :=
  match jsonUnmarshalInt64 b 0 with
  | .error err => .error err
  | .ok timestampInt => .ok ⟨time.Unix timestampInt 0⟩

/-- Go `func (timestamp Timestamp) MarshalJSON() ([]byte, error)`. -/
def Timestamp.MarshalJSON (timestamp : Timestamp) : Except JsonError Bytes :=
  .ok (Sprintf_d timestamp.Time.Unix)


/-! ## bot.go -/

/-- Go `error` values of the RPC layer (transport failure, cancellation,
server error), kept as their text. -/
abbrev Error := String

/-- Go `type EventHandler func(bot *Bot, accId AccountId, event Event)`: the
callback is user code; the model keeps its identity and records its calls. -/
abbrev EventHandler := Nat

/-- Go `type NewMsgHandler func(bot *Bot, accId AccountId, msgId MsgId)`. -/
abbrev NewMsgHandler := Nat

/-- Go `type BotRunningErr struct{}`. -/
structure BotRunningErr where
deriving DecidableEq, Repr

/-- Go `func (error *BotRunningErr) Error() string`. -/
def BotRunningErr.Error (_ : BotRunningErr) : String := "bot is already running"

/-- Go `type Bot struct`. `handlerMap` is the Go map as an association list
with at most one entry per key, each entry a function (the states with a nil
func as entry are those of `HandlerSlots` below); `ctx` is a handle of a
`context.Context` (its `stop` function cancels that same context). The `Rpc`
pointer is the server the functions below take; the two mutexes make each
guarded block one step. -/
structure Bot where
  newMsgHandler : Option NewMsgHandler
  onUnhandledEvent : Option EventHandler
  handlerMap : List (eventType × EventHandler)
  ctx : Option Nat
deriving DecidableEq, Repr

/-- The remote procedures the bot calls through `bot.Rpc`. -/
inductive RpcCall where
  | start_io_for_all_accounts
  | get_all_account_ids
  | is_configured (accId : AccountId)
  | get_next_msgs (accId : AccountId)
  | set_config (accId : AccountId) (key : String) (value : Option String)
  | get_config (accId : AccountId) (key : String)
deriving DecidableEq, Repr

/-- What a bot does that its surroundings can observe: a remote procedure
call, a call of an event handler, a call of the new-message handler. -/
inductive Effect where
  | rpc (call : RpcCall)
  | event (handler : EventHandler) (accId : AccountId) (event : Event)
  | newMsg (handler : NewMsgHandler) (accId : AccountId) (msgId : MsgId)
deriving DecidableEq, Repr

/-- The core server as the bot sees it through `rpc.go`: one transition per
remote procedure, returning what the Go wrapper returns (value and `error`). -/
structure RpcServer (σ : Type) where
  StartIoForAllAccounts : σ → σ × Option Error
  GetAllAccountIds : σ → σ × List AccountId × Option Error
  IsConfigured : σ → AccountId → σ × Bool × Option Error
  GetNextMsgs : σ → AccountId → σ × List MsgId × Option Error
  SetConfig : σ → AccountId → String → Option String → σ × Option Error
  GetConfig : σ → AccountId → String → σ × Option String × Option Error

/-- A bot together with what it acts on: the server state, the contexts
created so far (`ctxs[h]` tells whether context `h` is cancelled, that is
whether its `Err()` is non-nil) and the effects so far, oldest first. -/
structure World (σ : Type) where
  bot : Bot
  server : σ
  ctxs : List Bool
  trace : List Effect

/-- Go `func NewBot(rpc *Rpc) *Bot`. -/
def NewBot : Bot := ⟨none, none, [], none⟩

/-- The condition `bot.ctx != nil && bot.ctx.Err() == nil`. -/
def ctxLive (ctx : Option Nat) (ctxs : List Bool) : Bool :=
  match ctx with
  | none => false
  | some h => ctxs[h]? == some false

/-- Go `context.WithCancel(context.Background())`: a new context, not
cancelled; its handle is returned with the extended store. -/
def WithCancel (ctxs : List Bool) : Nat × List Bool := (ctxs.length, ctxs ++ [false])

/-- The cancel function of context `h`. -/
def cancelCtx (h : Nat) (ctxs : List Bool) : List Bool := ctxs.set h true

/-- Go `func (bot *Bot) On(event Event, handler EventHandler)` for a handler
that is a function; with a nil handler it is `HandlerSlots.On` below. -/
def Bot.On (bot : Bot) (event : Event) (handler : EventHandler) : Bot :=
  { bot with handlerMap :=
      (event.eventType, handler) :: bot.handlerMap.filter (fun p => p.1 ≠ event.eventType) }

/-- Go `func (bot *Bot) OnUnhandledEvent(handler EventHandler)`; `none` is a
nil handler. -/
def Bot.OnUnhandledEvent (bot : Bot) (handler : Option EventHandler) : Bot :=
  { bot with onUnhandledEvent := handler }

/-- Go `func (bot *Bot) RemoveEventHandler(event Event)`. -/
def Bot.RemoveEventHandler (bot : Bot) (event : Event) : Bot :=
  { bot with handlerMap := bot.handlerMap.filter (fun p => p.1 ≠ event.eventType) }

/-- Go `func (bot *Bot) OnNewMsg(handler NewMsgHandler)`; `none` is a nil
handler. -/
def Bot.OnNewMsg (bot : Bot) (handler : Option NewMsgHandler) : Bot :=
  { bot with newMsgHandler := handler }

/-- Go `func (bot *Bot) SetUiConfig(accId, key, value) error`. -/
def Bot.SetUiConfig {σ : Type} (S : RpcServer σ) (w : World σ) (accId : AccountId)
    (key : String) (value : Option String) : Option Error × World σ :=
  let r := S.SetConfig w.server accId ("ui." ++ key) value
  (r.2, { w with server := r.1,
                 trace := w.trace ++ [Effect.rpc (RpcCall.set_config accId ("ui." ++ key) value)] })

/-- Go `func (bot *Bot) GetUiConfig(accId, key) (option.Option[string], error)`. -/
def Bot.GetUiConfig {σ : Type} (S : RpcServer σ) (w : World σ) (accId : AccountId)
    (key : String) : (Option String × Option Error) × World σ :=
  let r := S.GetConfig w.server accId ("ui." ++ key)
  (r.2, { w with server := r.1,
                 trace := w.trace ++ [Effect.rpc (RpcCall.get_config accId ("ui." ++ key))] })

/-- Go `func (bot *Bot) IsRunning() bool`. -/
def Bot.IsRunning {σ : Type} (w : World σ) : Bool := ctxLive w.bot.ctx w.ctxs

/-- Go `func (bot *Bot) Stop()`. -/
def Bot.Stop {σ : Type} (w : World σ) : World σ :=
  if ctxLive w.bot.ctx w.ctxs then
    match w.bot.ctx with
    | some h => { w with ctxs := cancelCtx h w.ctxs }
    | none => w
  else w

/-- Go `func (bot *Bot) onEvent(accId AccountId, event Event)` on a bot whose
map holds functions only; with a nil entry it is `HandlerSlots.onEvent`
below. -/
def Bot.onEvent {σ : Type} (w : World σ) (accId : AccountId) (event : Event) : World σ :=
  match w.bot.handlerMap.lookup event.eventType with
  | some handler => { w with trace := w.trace ++ [Effect.event handler accId event] }
  | none =>
    match w.bot.onUnhandledEvent with
    | some handler => { w with trace := w.trace ++ [Effect.event handler accId event] }
    | none => w

/-- Go `fmt.Sprintf("%v", msgId)` for a `MsgId`: its decimal text. -/
def Sprintf_v (msgId : MsgId) : String := String.mk (Sprintf_d msgId)

/-- One round of the loop of `processMessages`: the write of `last_msg_id`,
then the new-message handler if one is set. -/
def Bot.processMessage {σ : Type} (S : RpcServer σ) (accId : AccountId) (w : World σ)
    (msgId : MsgId) : World σ :=
  let r := S.SetConfig w.server accId "last_msg_id" (some (Sprintf_v msgId))
  let w := { w with server := r.1,
                    trace := w.trace ++
                      [Effect.rpc (RpcCall.set_config accId "last_msg_id" (some (Sprintf_v msgId)))] }
  match w.bot.newMsgHandler with
  | some handler => { w with trace := w.trace ++ [Effect.newMsg handler accId msgId] }
  | none => w

/-- Go `func (bot *Bot) processMessages(accId AccountId)`. -/
def Bot.processMessages {σ : Type} (S : RpcServer σ) (w : World σ) (accId : AccountId) :
    World σ :=
  let r := S.GetNextMsgs w.server accId
  let w := { w with server := r.1, trace := w.trace ++ [Effect.rpc (RpcCall.get_next_msgs accId)] }
  match r.2.2 with
  | some _ => w
  | none => r.2.1.foldl (Bot.processMessage S accId) w

/-- Go `type _Event struct`; `Event` is a pointer, `none` when nil. -/
structure _Event where
  ContextId : AccountId
  Event : Option _EventData
deriving DecidableEq, Repr

/-- How a call ends: it returns, or the goroutine panics. -/
inductive Outcome (α : Type) where
  | returned (a : α)
  | panicked
deriving DecidableEq, Repr

/-- Go `func (rpc *Rpc) GetNextEvent() (AccountId, Event, error)` on the
outcome `r` of the transport call `get_next_event`: `ToEvent` dereferences the
payload pointer. -/
def Rpc.GetNextEvent (r : Except Error _Event) : Outcome (Except Error (AccountId × Event)) :=
  match r with
  | .error err => .returned (.error err)
  | .ok event =>
    match event.Event with
    | none => .panicked
    | some eventData => .returned (.ok (event.ContextId, eventData.ToEvent))

/-- The guarded head of `Run`: `BotRunningErr` if the bot is running,
otherwise a new context is stored in the bot. -/
def Bot.runBegin {σ : Type} (w : World σ) : Except BotRunningErr (World σ) :=
  if ctxLive w.bot.ctx w.ctxs then .error {}
  else
    let c := WithCancel w.ctxs
    .ok { w with bot := { w.bot with ctx := some c.1 }, ctxs := c.2 }

/-- The start of `Run` after its head: I/O is started, then every account
the server reports as configured gets its old messages processed. -/
def Bot.runCatchUp {σ : Type} (S : RpcServer σ) (w : World σ) : World σ :=
  let r := S.StartIoForAllAccounts w.server
  let w := { w with server := r.1, trace := w.trace ++ [Effect.rpc RpcCall.start_io_for_all_accounts] }
  let r := S.GetAllAccountIds w.server
  let w := { w with server := r.1, trace := w.trace ++ [Effect.rpc RpcCall.get_all_account_ids] }
  r.2.1.foldl (fun w accId =>
    let c := S.IsConfigured w.server accId
    let w := { w with server := c.1, trace := w.trace ++ [Effect.rpc (RpcCall.is_configured accId)] }
    if c.2.1 then Bot.processMessages S w accId else w) w

/-- The two loops of `Run` joined: `events` are the results of the successful
`get_next_event` calls of the producer, in order, up to its first failing
call, which closes the channel; the consumer handles each in turn and stops
the bot when the channel is closed. -/
def Bot.runLoop {σ : Type} (S : RpcServer σ) :
    List _Event → World σ → Outcome (Option BotRunningErr) × World σ
  | [], w => (.returned none, Bot.Stop w)
  | e :: es, w =>
    match Rpc.GetNextEvent (.ok e) with
    | .panicked => (.panicked, w)
    | .returned (.error _) => (.returned none, Bot.Stop w)
    | .returned (.ok evData) =>
      let w := Bot.onEvent w evData.1 evData.2
      let w := if evData.2.eventType = eventTypeIncomingMsg
        then Bot.processMessages S w evData.1 else w
      Bot.runLoop S es w

/-- Go `func (bot *Bot) Run() error`. -/
def Bot.Run {σ : Type} (S : RpcServer σ) (events : List _Event) (w : World σ) :
    Outcome (Option BotRunningErr) × World σ :=
  match Bot.runBegin w with
  | .error err => (.returned (some err), w)
  | .ok w => Bot.runLoop S events (Bot.runCatchUp S w)

/-- A server that answers every call with no data and no error. -/
def idleServer : RpcServer Unit :=
  { StartIoForAllAccounts := fun s => (s, none)
    GetAllAccountIds := fun s => (s, [], none)
    IsConfigured := fun s _ => (s, false, none)
    GetNextMsgs := fun s _ => (s, [], none)
    SetConfig := fun s _ _ _ => (s, none)
    GetConfig := fun s _ _ => (s, none, none) }

/-- A new bot right after the head of its first `Run`. -/
def runningWorld : World Unit :=
  { bot := { NewBot with ctx := some 0 }, server := (), ctxs := [false], trace := [] }


/-- The body of the consumer loop of `Run` for one received pair: the event is
dispatched, then a catch-up pass follows if its kind is `IncomingMsg`. -/
def Bot.handleEvent {σ : Type} (S : RpcServer σ) (w : World σ) (accId : AccountId)
    (event : Event) : World σ :=
  let w := Bot.onEvent w accId event
  if event.eventType = eventTypeIncomingMsg then Bot.processMessages S w accId else w

/-! ### The two goroutines of `Run` -/

/-- Where the producer goroutine of `Run` stands: about to call
`get_next_event`, holding a pair it sends on `eventChan`, past
`close(eventChan)`, or panicked. -/
inductive Producer where
  | calling
  | sending (evData : AccountId × Event)
  | closed
  | panicked
deriving DecidableEq, Repr

/-- Where the consumer loop of `Run` stands: at `<-eventChan`, holding a
received pair it has yet to handle, or returned from `Run`. -/
inductive Consumer where
  | receiving
  | handling (evData : AccountId × Event)
  | returned
deriving DecidableEq, Repr

/-- A goroutine of `Run`. -/
inductive Thread where
  | producer
  | consumer
deriving DecidableEq, Repr

/-- The state of a `Run` past its start-up: `results` are the outcomes of the
transport calls `get_next_event` still to come, in order (when none is left
the call blocks); `dispatched` lists the pairs passed to `onEvent` so far. -/
structure RunState (σ : Type) where
  results : List (Except Error _Event)
  producer : Producer
  consumer : Consumer
  world : World σ
  dispatched : List (AccountId × Event)

/-- One step of goroutine `t`, `none` when it cannot move. The producer calls
`GetNextEvent`: on an error it closes the channel and ends, on a pair it goes
on to send it. The channel has no buffer: a pair passes from the sending
producer to the receiving consumer in one step, taken as the consumer's. The
consumer, when the channel is closed, stops the bot and returns; with a pair
in hand it runs the loop body. Nothing moves once the producer has panicked. -/
def Bot.runStep {σ : Type} (S : RpcServer σ) (t : Thread) (s : RunState σ) :
    Option (RunState σ) :=
  match t, s.producer, s.consumer with
  | _, .panicked, _ => none
  | .producer, .calling, _ =>
    match s.results with
    | [] => none
    | r :: rest =>
      match Rpc.GetNextEvent r with
      | .panicked => some { s with results := rest, producer := .panicked }
      | .returned (.error _) => some { s with results := rest, producer := .closed }
      | .returned (.ok evData) => some { s with results := rest, producer := .sending evData }
  | .producer, _, _ => none
  | .consumer, .sending evData, .receiving =>
    some { s with producer := .calling, consumer := .handling evData }
  | .consumer, .closed, .receiving =>
    some { s with consumer := .returned, world := Bot.Stop s.world }
  | .consumer, _, .handling evData =>
    some { s with consumer := .receiving,
                  world := Bot.handleEvent S s.world evData.1 evData.2,
                  dispatched := s.dispatched ++ [evData] }
  | .consumer, _, _ => none

/-- The state after the goroutines have been scheduled as `sched` says; a
goroutine that cannot move when scheduled is passed over. -/
def Bot.runSteps {σ : Type} (S : RpcServer σ) : List Thread → RunState σ → RunState σ
  | [], s => s
  | t :: ts, s =>
    match Bot.runStep S t s with
    | some s' => Bot.runSteps S ts s'
    | none => Bot.runSteps S ts s

/-- The state of `Run` when its two loops start. -/
def RunState.init {σ : Type} (results : List (Except Error _Event)) (w : World σ) :
    RunState σ :=
  ⟨results, .calling, .receiving, w, []⟩

/-- The pairs that the successive `get_next_event` calls return before the
first call that fails (or that panics on a nil payload). -/
def successes : List (Except Error _Event) → List (AccountId × Event)
  | [] => []
  | r :: rest =>
    match Rpc.GetNextEvent r with
    | .returned (.ok evData) => evData :: successes rest
    | _ => []

/-! ### A core server with a configuration store and a message cursor -/

/-- The state of a core server as far as the bot's calls go: the account
ids, which accounts are configured, the configuration values and the ids of
the messages of each account. -/
structure KvState where
  accounts : List AccountId
  configured : AccountId → Bool
  config : AccountId → String → Option String
  msgs : AccountId → List MsgId

/-- The number a configuration value holds (0 when unset or not a number). -/
def configNat (v : Option String) : Nat :=
  match v with
  | none => 0
  | some t => (parseDigits t.data 0).getD 0

/-- The cursor `last_msg_id` of account `accId`. -/
def KvState.lastMsgId (s : KvState) (accId : AccountId) : Nat :=
  configNat (s.config accId "last_msg_id")

/-- A core server whose calls all succeed: `set_config` stores the value,
`get_config` returns the stored value, and `get_next_msgs` returns exactly
the message ids of the account greater than its `last_msg_id`, in increasing
order. -/
def kvServer : RpcServer KvState :=
  { StartIoForAllAccounts := fun s => (s, none)
    GetAllAccountIds := fun s => (s, s.accounts, none)
    IsConfigured := fun s accId => (s, s.configured accId, none)
    GetNextMsgs := fun s accId =>
      (s, ((s.msgs accId).filter (fun m => s.lastMsgId accId < m)).insertionSort (· ≤ ·), none)
    SetConfig := fun s accId key value =>
      ({ s with config := fun a k => if a = accId ∧ k = key then value else s.config a k }, none)
    GetConfig := fun s accId key => (s, s.config accId key, none) }

/-- A new message with id `msgId` reaches account `accId`. -/
def KvState.arrive (s : KvState) (accId : AccountId) (msgId : MsgId) : KvState :=
  { s with msgs := fun a => if a = accId then msgId :: s.msgs a else s.msgs a }

/-- What happens to a bot and its server between and in catch-up passes: a
message arrives at the server, or the bot makes a pass on an account. -/
inductive PassStep where
  | arrive (accId : AccountId) (msgId : MsgId)
  | pass (accId : AccountId)
deriving DecidableEq, Repr

/-- A sequence of arrivals and catch-up passes against `kvServer`. -/
def runPasses : List PassStep → World KvState → World KvState
  | [], w => w
  | .arrive accId msgId :: rest, w =>
    runPasses rest { w with server := w.server.arrive accId msgId }
  | .pass accId :: rest, w => runPasses rest (Bot.processMessages kvServer w accId)

/-- The numbers the bot has written to `last_msg_id` of account `accId`,
oldest first, read off the `set_config` calls among the effects. -/
def writtenIds (accId : AccountId) : List Effect → List Nat
  | [] => []
  | .rpc (.set_config a key (some v)) :: rest =>
    if a = accId ∧ key = "last_msg_id" then configNat (some v) :: writtenIds accId rest
    else writtenIds accId rest
  | _ :: rest => writtenIds accId rest

/-- The ids handed to the new-message handler for account `accId`, oldest
first. -/
def handedIds (accId : AccountId) : List Effect → List MsgId
  | [] => []
  | .newMsg _ a msgId :: rest =>
    if a = accId then msgId :: handedIds accId rest else handedIds accId rest
  | _ :: rest => handedIds accId rest

/-- A pass of `processMessages` that is cut off in round `k` (counted from 0)
of its loop, after the write of `last_msg_id` of that round and with the
new-message handler, if one is set, called but not returned: the state in
which the bot is when it stops there. With fewer than `k + 1` ids the pass
is complete. -/
def Bot.processMessagesCut {σ : Type} (S : RpcServer σ) (w : World σ) (accId : AccountId)
    (k : Nat) : World σ :=
  let r := S.GetNextMsgs w.server accId
  let w := { w with server := r.1, trace := w.trace ++ [Effect.rpc (RpcCall.get_next_msgs accId)] }
  match r.2.2 with
  | some _ => w
  | none =>
    let w := (r.2.1.take k).foldl (Bot.processMessage S accId) w
    match r.2.1.drop k with
    | [] => w
    | msgId :: _ => Bot.processMessage S accId w msgId

/-- A server whose `get_next_msgs` returns the ids 5 and 3, in this order,
and whose other calls return nothing. -/
def unorderedServer : RpcServer Unit :=
  { idleServer with GetNextMsgs := fun s _ => (s, [5, 3], none) }

/-- The server `kvServer` with a `set_config` that fails and stores nothing. -/
def kvServerWriteFails : RpcServer KvState :=
  { kvServer with SetConfig := fun s _ _ _ => (s, some "database is locked") }

/-- A new bot that has the new-message handler 7 and the unhandled-event
handler 8, with a server of three messages 1, 2, 3 on account 1 and no cursor
yet. -/
def kvWorld : World KvState :=
  { bot := (NewBot.OnNewMsg (some 7)).OnUnhandledEvent (some 8)
    server := ⟨[1], fun _ => true, fun _ _ => none, fun a => if a = 1 then [1, 2, 3] else []⟩
    ctxs := []
    trace := [] }


/-! ### Notions the properties are stated with -/

/-- The effects one round of the loop of `processMessages` adds for `msgId`
when the new-message slot holds `nm`. -/
def roundEffects (accId : AccountId) (nm : Option NewMsgHandler) (msgId : MsgId) :
    List Effect :=
  Effect.rpc (RpcCall.set_config accId "last_msg_id" (some (Sprintf_v msgId))) ::
    (match nm with
     | some h => [Effect.newMsg h accId msgId]
     | none => [])

/-- The ids that `get_next_msgs` of `kvServer` returns for account `accId`. -/
def KvState.nextMsgs (s : KvState) (accId : AccountId) : List MsgId :=
  ((s.msgs accId).filter (fun m => s.lastMsgId accId < m)).insertionSort (· ≤ ·)

/-- What holds before and after every step of `runPasses`: the numbers
written so far for `accId` are non-decreasing and none exceeds the cursor. -/
def CursorInv (accId : AccountId) (w : World KvState) : Prop :=
  (writtenIds accId w.trace).Pairwise (· ≤ ·) ∧
  ∀ x ∈ writtenIds accId w.trace, x ≤ w.server.lastMsgId accId

/-- The pairs that have left `get_next_event` and have not reached `onEvent`:
the one the consumer holds, then the one the producer is sending. -/
def RunState.held {σ : Type} (s : RunState σ) : List (AccountId × Event) :=
  (match s.consumer with
   | .handling evData => [evData]
   | _ => []) ++
  (match s.producer with
   | .sending evData => [evData]
   | _ => [])

/-- The pairs the producer has yet to get: none once it has ended. -/
def RunState.ahead {σ : Type} (s : RunState σ) : List (AccountId × Event) :=
  match s.producer with
  | .calling => successes s.results
  | .sending _ => successes s.results
  | _ => []

/-- The loop body of the consumer applied to the pairs of `l` in turn. -/
def Bot.handleAll {σ : Type} (S : RpcServer σ) (w : World σ) (l : List (AccountId × Event)) :
    World σ :=
  l.foldl (fun w evData => Bot.handleEvent S w evData.1 evData.2) w

/-- What every reachable state of the two goroutines satisfies, for the
pairs `all` the calls return before the first failure and the world `w₀` at
the start of the loops. -/
def RunInv {σ : Type} (S : RpcServer σ) (all : List (AccountId × Event)) (w₀ : World σ)
    (s : RunState σ) : Prop :=
  s.dispatched ++ s.held ++ s.ahead = all ∧
  (s.consumer ≠ .returned → s.world = Bot.handleAll S w₀ s.dispatched) ∧
  (s.consumer = .returned →
    s.producer = .closed ∧ s.world = Bot.Stop (Bot.handleAll S w₀ s.dispatched))

/-- Two events, then a failing call, then an event that is never fetched. -/
def sampleResults : List (Except Error _Event) :=
  [.ok ⟨1, some ⟨"Info", "x", "", 0, 0, 0, [], 0, 0, "", "", 0, ""⟩⟩,
   .ok ⟨2, some ⟨"IncomingMsg", "", "", 3, 4, 0, [], 0, 0, "", "", 0, ""⟩⟩,
   .error "context canceled",
   .ok ⟨3, some ⟨"Info", "y", "", 0, 0, 0, [], 0, 0, "", "", 0, ""⟩⟩]

/-! ### More notions the properties are stated with -/

/-- The kind tags that `event.go` declares, in the order of its `const` block. -/
def eventTypes : List eventType :=
  [eventTypeUnknown, eventTypeInfo, eventTypeSmtpConnected, eventTypeImapConnected,
   eventTypeSmtpMessageSent, eventTypeImapMessageDeleted, eventTypeImapMessageMoved,
   eventTypeImapInboxIdle, eventTypeNewBlobFile, eventTypeDeletedBlobFile, eventTypeWarning,
   eventTypeError, eventTypeErrorSelfNotInGroup, eventTypeMsgsChanged,
   eventTypeReactionsChanged, eventTypeIncomingMsg, eventTypeIncomingMsgBunch,
   eventTypeMsgsNoticed, eventTypeMsgDelivered, eventTypeMsgFailed, eventTypeMsgRead,
   eventTypeMsgDeleted, eventTypeChatModified, eventTypeChatEphemeralTimerModified,
   eventTypeContactsChanged, eventTypeLocationChanged, eventTypeConfigureProgress,
   eventTypeImexProgress, eventTypeImexFileWritten, eventTypeSecurejoinInviterProgress,
   eventTypeSecurejoinJoinerProgress, eventTypeConnectivityChanged,
   eventTypeSelfavatarChanged, eventTypeConfigSynced, eventTypeWebxdcStatusUpdate,
   eventTypeWebxdcInstanceDeleted, eventTypeAccountsBackgroundFetchDone]

/-- The number of the variant struct an event is a value of, in the order in
which `event.go` declares the variants (`UnknownEvent` is 0). -/
def Event.variant : Event → Nat
  | .UnknownEvent _ => 0
  | .EventInfo _ => 1
  | .EventSmtpConnected _ => 2
  | .EventImapConnected _ => 3
  | .EventSmtpMessageSent _ => 4
  | .EventImapMessageDeleted _ => 5
  | .EventImapMessageMoved _ => 6
  | .EventImapInboxIdle => 7
  | .EventNewBlobFile _ => 8
  | .EventDeletedBlobFile _ => 9
  | .EventWarning _ => 10
  | .EventError _ => 11
  | .EventErrorSelfNotInGroup _ => 12
  | .EventMsgsChanged _ _ => 13
  | .EventReactionsChanged _ _ _ => 14
  | .EventIncomingMsg _ _ => 15
  | .EventIncomingMsgBunch => 16
  | .EventMsgsNoticed _ => 17
  | .EventMsgDelivered _ _ => 18
  | .EventMsgFailed _ _ => 19
  | .EventMsgRead _ _ => 20
  | .EventMsgDeleted _ _ => 21
  | .EventChatModified _ => 22
  | .EventChatEphemeralTimerModified _ _ => 23
  | .EventContactsChanged _ => 24
  | .EventLocationChanged _ => 25
  | .EventConfigureProgress _ _ => 26
  | .EventImexProgress _ => 27
  | .EventImexFileWritten _ => 28
  | .EventSecurejoinInviterProgress _ _ => 29
  | .EventSecurejoinJoinerProgress _ _ => 30
  | .EventConnectivityChanged => 31
  | .EventSelfavatarChanged => 32
  | .EventConfigSynced _ => 33
  | .EventWebxdcStatusUpdate _ _ => 34
  | .EventWebxdcInstanceDeleted _ => 35
  | .EventAccountsBackgroundFetchDone => 36

/-- The handler that `onEvent` calls for `event`, if any: the one in the map
for the kind of the event, else the unhandled-event handler. -/
def Bot.selected (bot : Bot) (event : Event) : Option EventHandler :=
  match bot.handlerMap.lookup event.eventType with
  | some handler => some handler
  | none => bot.onUnhandledEvent

/-- The server `kvServer` with a `get_next_msgs` that fails while it has
decoded part of the answer. -/
def failingServer : RpcServer KvState :=
  { kvServer with GetNextMsgs := fun s _ => (s, [4, 0], some "type mismatch") }

/-- The three results of `GetNextEvent` as Go returns them: the account id,
the event (nil as `none`) and the error (nil as `none`). -/
def Rpc.GetNextEventResults (r : Except Error _Event) :
    Outcome (AccountId × Option Event × Option Error) :=
  match Rpc.GetNextEvent r with
  | .panicked => .panicked
  | .returned (.error err) => .returned (0, none, some err)
  | .returned (.ok evData) => .returned (evData.1, some evData.2, none)

/-- The accounts of the catch-up passes among the effects, oldest first: a
pass makes exactly one call `get_next_msgs`, its first effect. -/
def passAccounts : List Effect → List AccountId
  | [] => []
  | .rpc (.get_next_msgs accId) :: rest => accId :: passAccounts rest
  | _ :: rest => passAccounts rest

/-- A server whose `start_io_for_all_accounts` fails, that has the accounts
1, 2, 3 and 4, reports 1 and 4 as configured and 2 as unconfigured, and fails on
`is_configured` for 3. -/
def mixedServer : RpcServer Unit :=
  { idleServer with
    StartIoForAllAccounts := fun s => (s, some "io error")
    GetAllAccountIds := fun s => (s, [1, 2, 3, 4], none)
    IsConfigured := fun s accId =>
      (s, decide (accId = 1 ∨ accId = 4), if accId = 3 then some "no such account" else none) }

/-- The outcome of a transport call `get_next_event` that `GetNextEvent`
turns into the pair `p`, for a record `p.2` of the wire. -/
def okResult (p : AccountId × _EventData) : Except Error _Event := .ok ⟨p.1, some p.2⟩

/-- Whether the successive `get_next_event` calls come to one that fails,
before any that panics and before the one that never returns. -/
def fails : List (Except Error _Event) → Bool
  | [] => false
  | r :: rest =>
    match Rpc.GetNextEvent r with
    | .returned (.ok _) => fails rest
    | .returned (.error _) => true
    | .panicked => false

/-- The producer has not panicked and, unless it has ended, will come to a
failing call. -/
def RunState.live {σ : Type} (s : RunState σ) : Bool :=
  match s.producer with
  | .calling => fails s.results
  | .sending _ => fails s.results
  | .closed => true
  | .panicked => false

/-- The number of steps the two goroutines of a live state have yet to take
before `Run` has returned. -/
def RunState.stepsLeft {σ : Type} (s : RunState σ) : Nat :=
  (match s.producer with
   | .calling => 3 * (successes s.results).length + 1
   | .sending _ => 3 * (successes s.results).length + 3
   | _ => 0) +
  (match s.consumer with
   | .returned => 0
   | .receiving => 1
   | .handling _ => 2)

/-- How many times the schedule gives a turn to the producer and, at some
point after it, a turn to the consumer; `awaitConsumer` tells that the
producer has had its turn of the current round. -/
def fairRounds : Bool → List Thread → Nat
  | _, [] => 0
  | false, .producer :: ts => fairRounds true ts
  | false, .consumer :: ts => fairRounds false ts
  | true, .producer :: ts => fairRounds true ts
  | true, .consumer :: ts => fairRounds false ts + 1

/-! ## acfactory.go -/

/-- Go `type AcFactory struct`: a Go map is a list of key and value pairs,
`none` when nil; `serial` and `startTime` are `int64`; the mutex makes the
increment and the read of `serial` one step. -/
structure AcFactory where
  DefaultCfg : Option (List (String × Option String))
  Debug : Bool
  tempDir : String
  serial : Int
  startTime : Int
  tearUp : Bool
deriving DecidableEq, Repr

/-- Go `&deltachat.AcFactory{}`, the factory that the doc comment of the type
sets up. -/
def AcFactory.new : AcFactory := ⟨none, false, "", 0, 0, false⟩

/-- Go `func (factory *AcFactory) TearUp()`; `now` is what `time.Now()`
returns and `dir` what `os.MkdirTemp("", "")` returns. The factory is changed
in place, so it is given also when the call panics. -/
def AcFactory.TearUp (factory : AcFactory) (now : Time) (dir : Except Error String) :
    AcFactory × Outcome Unit :=
  let factory :=
    if factory.DefaultCfg = none then
      { factory with DefaultCfg := (some
          [("mail_server", some "localhost"), ("send_server", some "localhost"),
           ("mail_port", some "3143"), ("send_port", some "3025"),
           ("mail_security", some "3"), ("send_security", some "3"),
           ("mvbox_move", some "0")]) }
    else factory
  let factory := { factory with startTime := now.Unix }
  match dir with
  | .error _ => (factory, .panicked)
  | .ok dir => ({ factory with tempDir := dir, tearUp := true }, .returned ())

/-- Go `fmt.Sprintf("acc%v.%v@localhost", serial, startTime)` for two `int64`
values. -/
def Sprintf_addr (serial startTime : Int) : String :=
  "acc" ++ String.mk (Sprintf_d serial) ++ "." ++ String.mk (Sprintf_d startTime) ++ "@localhost"

/-- Go `fmt.Sprintf("password%v", serial)` for an `int64`. -/
def Sprintf_password (serial : Int) : String := "password" ++ String.mk (Sprintf_d serial)

/-- What the surroundings answer in one call of `WithUnconfiguredAccount`:
the errors of `os.MkdirTemp` and of `trans.Open()`, the result of
`rpc.AddAccount()`, and the errors of the `BatchSetConfig` call with the
default settings and of the one with the address and the password. -/
structure AccountAnswers where
  mkdirErr : Option Error
  openErr : Option Error
  addAccount : Except Error AccountId
  defaultsErr : Option Error
  addrErr : Option Error
deriving DecidableEq, Repr

/-- How a call of `WithUnconfiguredAccount` goes up to its callback: the
`BatchSetConfig` calls made, in order, and the account id handed to the
callback, or a panic. -/
structure AccountSetup where
  calls : List (AccountId × List (String × Option String))
  outcome : Outcome AccountId
deriving DecidableEq, Repr

/-- Go `func (factory *AcFactory) WithUnconfiguredAccount(callback func(*Rpc, AccountId))`
up to the call of `callback`, with `WithRpc` and `ensureTearUp` unfolded. -/
def AcFactory.WithUnconfiguredAccount (factory : AcFactory) (o : AccountAnswers) :
    AcFactory × AccountSetup :=
  if !factory.tearUp then (factory, ⟨[], .panicked⟩)
  else
    match o.mkdirErr, o.openErr, o.addAccount with
    | some _, _, _ => (factory, ⟨[], .panicked⟩)
    | none, some _, _ => (factory, ⟨[], .panicked⟩)
    | none, none, .error _ => (factory, ⟨[], .panicked⟩)
    | none, none, .ok accId =>
      let factory := { factory with serial := wrapInt64 (factory.serial + 1) }
      let serial := factory.serial
      let cfg := factory.DefaultCfg.getD []
      let calls := if cfg.length ≠ 0 then [(accId, cfg)] else []
      if cfg.length ≠ 0 ∧ o.defaultsErr ≠ none then (factory, ⟨calls, .panicked⟩)
      else
        let calls := calls ++
          [(accId, [("addr", some (Sprintf_addr serial factory.startTime)),
                    ("mail_pw", some (Sprintf_password serial))])]
        match o.addrErr with
        | some _ => (factory, ⟨calls, .panicked⟩)
        | none => (factory, ⟨calls, .returned accId⟩)

/-- The address of the account that a `WithUnconfiguredAccount` hands to its
callback: the value of `addr` in its last `BatchSetConfig` call. -/
def AccountSetup.addr (r : AccountSetup) : Option String :=
  match r.outcome with
  | .panicked => none
  | .returned _ => (r.calls.getLast?.bind (fun c => c.2.lookup "addr")).join

/-- Successive calls of `WithUnconfiguredAccount` on one factory, one for
each entry of the list, nested or one after the other. -/
def AcFactory.withAccounts : AcFactory → List AccountAnswers → AcFactory × List AccountSetup
  | factory, [] => (factory, [])
  | factory, o :: os =>
    let r := factory.WithUnconfiguredAccount o
    let rs := AcFactory.withAccounts r.1 os
    (rs.1, r.2 :: rs.2)

/-- Answers with no failure and the new account `accId`. -/
def AccountAnswers.ok (accId : AccountId) : AccountAnswers := ⟨none, none, .ok accId, none, none⟩

/-- A factory set up at second 1700000000 with the temporary directory
`/tmp/t`. -/
def sampleFactory : AcFactory :=
  (AcFactory.new.TearUp (time.Unix 1700000000 0) (.ok "/tmp/t")).1

/-- How a call of `WaitForEvent` ends: it returns an event, with `rest` the
outcomes of the transport calls it has not made; it panics; or it waits for
ever in a `get_next_event` call that never returns. -/
inductive WaitResult where
  | returned (ev : Event) (rest : List (Except Error _Event))
  | panicked
  | blocked
deriving DecidableEq, Repr

/-- Go `func (factory *AcFactory) WaitForEvent(rpc *Rpc, accId AccountId, event Event) Event`
on the outcomes of the successive transport calls `get_next_event`; the lines
it prints are left out. -/
def AcFactory.WaitForEvent : List (Except Error _Event) → AccountId → Event → WaitResult
  | [], _, _ => .blocked
  | r :: rest, accId, event =>
    match Rpc.GetNextEvent r with
    | .panicked => .panicked
    | .returned (.error _) => .panicked
    | .returned (.ok (accId2, ev)) =>
      if accId ≠ accId2 then AcFactory.WaitForEvent rest accId event
      else if ev.eventType = event.eventType then .returned ev rest
      else AcFactory.WaitForEvent rest accId event

/-! ### The handler slots with nil func values, and more notions -/

/-- The handler slots for events of Go `type Bot struct` with every value Go
can hold in them: a value of type `EventHandler` is a func value, nil (`none`)
or a function, also as an entry of the map. -/
structure HandlerSlots where
  onUnhandledEvent : Option EventHandler
  handlerMap : List (eventType × Option EventHandler)
deriving DecidableEq, Repr

/-- The handler slots of a `Bot`, whose map has no nil entry. -/
def Bot.slots (bot : Bot) : HandlerSlots :=
  ⟨bot.onUnhandledEvent, bot.handlerMap.map (fun p => (p.1, some p.2))⟩

/-- Go `func (bot *Bot) On(event Event, handler EventHandler)` for every func
value `handler`, nil included: the value is stored under the kind. -/
def HandlerSlots.On (slots : HandlerSlots) (event : Event) (handler : Option EventHandler) :
    HandlerSlots :=
  { slots with handlerMap :=
      (event.eventType, handler) :: slots.handlerMap.filter (fun p => p.1 ≠ event.eventType) }

/-- Go `func (bot *Bot) OnUnhandledEvent(handler EventHandler)`. -/
def HandlerSlots.OnUnhandledEvent (slots : HandlerSlots) (handler : Option EventHandler) :
    HandlerSlots :=
  { slots with onUnhandledEvent := handler }

/-- Go `func (bot *Bot) RemoveEventHandler(event Event)`. -/
def HandlerSlots.RemoveEventHandler (slots : HandlerSlots) (event : Event) : HandlerSlots :=
  { slots with handlerMap := slots.handlerMap.filter (fun p => p.1 ≠ event.eventType) }

/-- Go `func (bot *Bot) onEvent(accId AccountId, event Event)` on any handler
slots, with the handler calls it makes as result: the entry found in the map
is called without a nil check, and the call of a nil func value panics; the
unhandled-event handler is called only if it is not nil. -/
def HandlerSlots.onEvent (slots : HandlerSlots) (accId : AccountId) (event : Event) :
    Outcome (List Effect) :=
  match slots.handlerMap.lookup event.eventType with
  | some (some handler) => .returned [Effect.event handler accId event]
  | some none => .panicked
  | none =>
    match slots.onUnhandledEvent with
    | some handler => .returned [Effect.event handler accId event]
    | none => .returned []

/-- The server `kvServer` with a `get_next_msgs` that returns the same ids,
exactly those greater than `last_msg_id`, in decreasing order. -/
def kvServerDescending : RpcServer KvState :=
  { kvServer with
    GetNextMsgs := fun s accId =>
      (s, ((s.msgs accId).filter (fun m => s.lastMsgId accId < m)).insertionSort (· ≥ ·), none) }

/-- The calls of event handlers among the effects, oldest first, each with
the handler, the account and the event it was called with. -/
def eventCalls : List Effect → List (EventHandler × AccountId × Event)
  | [] => []
  | .event handler accId event :: rest => (handler, accId, event) :: eventCalls rest
  | _ :: rest => eventCalls rest

/-- The handler call that the dispatch of the pair `p` makes on `bot`, if
any. -/
def Bot.callFor (bot : Bot) (p : AccountId × Event) : Option (EventHandler × AccountId × Event) :=
  (bot.selected p.2).map (fun handler => (handler, p.1, p.2))

end deltachat

/-! ## transport/iotransport.go and transport/processtransport.go -/

namespace transport

open deltachat (Error Outcome ctxLive WithCancel cancelCtx)

/-- What a transport does to the operating system, in the order done:
`cmd.Start()` of a command with its path, the `DC_ACCOUNTS_PATH` entry of its
environment if any and whether the start succeeded; `stdin.Close()`; the
cancel function of a context; `cmd.Process.Wait()`. -/
inductive SysEffect where
  | start (cmd : Nat) (path : String) (env : Option String) (ok : Bool)
  | closeStdin (pipe : Nat)
  | cancel (ctx : Nat)
  | wait (cmd : Nat)
deriving DecidableEq, Repr

/-- The surroundings of a transport: the contexts created so far (`ctxs[h]`
tells whether context `h` is cancelled), the stdin pipes created so far
(`pipes[p]` tells whether pipe `p` is closed), the number of `exec.Cmd`
values created so far, and the effects so far, oldest first. -/
structure OS where
  ctxs : List Bool
  pipes : List Bool
  cmds : Nat
  log : List SysEffect
deriving DecidableEq, Repr

/-- Go `type TransportStartedErr struct{}`. -/
structure TransportStartedErr where
deriving DecidableEq, Repr

/-- The `error` that `Open` returns: `TransportStartedErr` or the error of
`cmd.Start()`. -/
inductive OpenError where
  | started (e : TransportStartedErr)
  | start (err : Error)
deriving DecidableEq, Repr

/-- The `error` of a call through a `jrpc2.Client`: the channel to the child
is closed, the context of the call is cancelled, or the error the exchange
with the child ends in. -/
inductive CallError where
  | closed
  | cancelled
  | reply (err : Error)
deriving DecidableEq, Repr

/-- A `*jrpc2.Client` made by `jrpc2.NewClient(channel.Line(stdout, stdin), nil)`:
it writes its requests to the pipe `stdin`. -/
structure Client where
  stdin : Nat
deriving DecidableEq, Repr

/-- A call through the `*jrpc2.Client` pointer `client` with a context that is
live or not, where `reply` is what the exchange with the child ends in:
a nil pointer is dereferenced; a request cannot be written to a closed pipe;
a cancelled context ends the call with an error. -/
def clientCall {ρ : Type} (client : Option Client) (pipes : List Bool) (live : Bool)
    (reply : Except Error ρ) : Outcome (Except CallError ρ) :=
  match client with
  | none => .panicked
  | some c =>
    if pipes[c.stdin]? ≠ some false then .returned (.error .closed)
    else if !live then .returned (.error .cancelled)
    else
      match reply with
      | .error err => .returned (.error (.reply err))
      | .ok r => .returned (.ok r)

/-- The entry of the environment that `Open` adds for the accounts directory. -/
def accountsEnv (AccountsDir : String) : Option String :=
  if AccountsDir ≠ "" then some ("DC_ACCOUNTS_PATH=" ++ AccountsDir) else none

/-- Go `type IOTransport struct`. `cmd`, `stdin` and `ctx` are handles, `none`
when nil; `cancel` is the cancel function of `ctx`; `Stderr` is only handed to
the child; the mutex makes `Open` and `Close` one step each. -/
structure IOTransport where
  AccountsDir : String
  Cmd : String
  cmd : Option Nat
  stdin : Option Nat
  client : Option Client
  ctx : Option Nat
deriving DecidableEq, Repr

/-- Go `func NewIOTransport() *IOTransport`, for the value of the constant
`deltachatRpcServerBin`. -/
def NewIOTransport (deltachatRpcServerBin : String) : IOTransport :=
  ⟨"", deltachatRpcServerBin, none, none, none, none⟩

/-- Go `func (trans *TransportStartedErr) Error() string` of iotransport.go. -/
def IOTransport.TransportStartedErr_Error (_ : TransportStartedErr) : String :=
  "transport is already started"

/-- Go `func (trans *IOTransport) Open() error`; `startErr` is what
`trans.cmd.Start()` returns. A start that fails closes the pipes of the
command. -/
def IOTransport.Open (trans : IOTransport) (os : OS) (startErr : Option Error) :
    Option OpenError × IOTransport × OS :=
  if ctxLive trans.ctx os.ctxs then (some (.started {}), trans, os)
  else
    let c := WithCancel os.ctxs
    let cmd := os.cmds
    let stdin := os.pipes.length
    let trans := { trans with ctx := some c.1, cmd := some cmd, stdin := some stdin }
    let os : OS := { os with ctxs := c.2, cmds := os.cmds + 1 }
    match startErr with
    | some err =>
      (some (.start err), trans,
        { os with ctxs := cancelCtx c.1 os.ctxs,
                  pipes := os.pipes ++ [true],
                  log := os.log ++ [.start cmd trans.Cmd (accountsEnv trans.AccountsDir) false,
                                    .cancel c.1] })
    | none =>
      (none, { trans with client := some ⟨stdin⟩ },
        { os with pipes := os.pipes ++ [false],
                  log := os.log ++ [.start cmd trans.Cmd (accountsEnv trans.AccountsDir) true] })

/-- Go `func (trans *IOTransport) Close()`; it panics when a nil `stdin` or `cmd`
is dereferenced. -/
def IOTransport.Close (trans : IOTransport) (os : OS) : Outcome (IOTransport × OS) :=
  if !ctxLive trans.ctx os.ctxs then .returned (trans, os)
  else
    match trans.stdin, trans.ctx, trans.cmd with
    | some stdin, some ctx, some cmd =>
      .returned (trans,
        { os with pipes := os.pipes.set stdin true,
                  ctxs := cancelCtx ctx os.ctxs,
                  log := os.log ++ [.closeStdin stdin, .cancel ctx, .wait cmd] })
    | _, _, _ => .panicked

/-- Go `func (trans *IOTransport) Call(ctx, method, params...) error`; the
context of the call is the caller's. -/
def IOTransport.Call (trans : IOTransport) (os : OS) (ctx : Option Nat)
    (reply : Except Error Unit) : Outcome (Option CallError) :=
  match clientCall trans.client os.pipes (ctxLive ctx os.ctxs) reply with
  | .panicked => .panicked
  | .returned (.error err) => .returned (some err)
  | .returned (.ok _) => .returned none

/-- Go `func (trans *IOTransport) CallResult(ctx, result, method, params...) error`;
on success the decoded result is stored through `result`. -/
def IOTransport.CallResult {ρ : Type} (trans : IOTransport) (os : OS) (ctx : Option Nat)
    (reply : Except Error ρ) : Outcome (Except CallError ρ) :=
  clientCall trans.client os.pipes (ctxLive ctx os.ctxs) reply

/-- Go `type ProcessTransport struct`. `cmd`, `stdin` and `ctx` are handles, `none`
when nil; `cancel` is the cancel function of `ctx`; `Stderr` is only handed to
the child; the mutex makes `Open` and `Close` one step each. -/
structure ProcessTransport where
  AccountsDir : String
  Cmd : String
  cmd : Option Nat
  stdin : Option Nat
  client : Option Client
  ctx : Option Nat
deriving DecidableEq, Repr

/-- Go `func NewProcessTransport() *ProcessTransport`, for the value of the constant
`deltachatRpcServerBin`. -/
def NewProcessTransport (deltachatRpcServerBin : String) : ProcessTransport :=
  ⟨"", deltachatRpcServerBin, none, none, none, none⟩

/-- Go `func (self *TransportStartedErr) Error() string` of processtransport.go. -/
def ProcessTransport.TransportStartedErr_Error (_ : TransportStartedErr) : String :=
  "Transport is already started"

/-- Go `func (self *ProcessTransport) Open() error`; `startErr` is what
`trans.cmd.Start()` returns. A start that fails closes the pipes of the
command. -/
def ProcessTransport.Open (trans : ProcessTransport) (os : OS) (startErr : Option Error) :
    Option OpenError × ProcessTransport × OS :=
  if ctxLive trans.ctx os.ctxs then (some (.started {}), trans, os)
  else
    let c := WithCancel os.ctxs
    let cmd := os.cmds
    let stdin := os.pipes.length
    let trans := { trans with ctx := some c.1, cmd := some cmd, stdin := some stdin }
    let os : OS := { os with ctxs := c.2, cmds := os.cmds + 1 }
    match startErr with
    | some err =>
      (some (.start err), trans,
        { os with ctxs := cancelCtx c.1 os.ctxs,
                  pipes := os.pipes ++ [true],
                  log := os.log ++ [.start cmd trans.Cmd (accountsEnv trans.AccountsDir) false,
                                    .cancel c.1] })
    | none =>
      (none, { trans with client := some ⟨stdin⟩ },
        { os with pipes := os.pipes ++ [false],
                  log := os.log ++ [.start cmd trans.Cmd (accountsEnv trans.AccountsDir) true] })

/-- Go `func (self *ProcessTransport) Close()`; it panics when a nil `stdin` or `cmd`
is dereferenced. -/
def ProcessTransport.Close (trans : ProcessTransport) (os : OS) : Outcome (ProcessTransport × OS) :=
  if !ctxLive trans.ctx os.ctxs then .returned (trans, os)
  else
    match trans.stdin, trans.ctx, trans.cmd with
    | some stdin, some ctx, some cmd =>
      .returned (trans,
        { os with pipes := os.pipes.set stdin true,
                  ctxs := cancelCtx ctx os.ctxs,
                  log := os.log ++ [.closeStdin stdin, .cancel ctx, .wait cmd] })
    | _, _, _ => .panicked

/-- Go `func (self *ProcessTransport) Call(method, params...) error`; the
context of the call is `self.ctx`. -/
def ProcessTransport.Call (trans : ProcessTransport) (os : OS)
    (reply : Except Error Unit) : Outcome (Option CallError) :=
  match clientCall trans.client os.pipes (ctxLive trans.ctx os.ctxs) reply with
  | .panicked => .panicked
  | .returned (.error err) => .returned (some err)
  | .returned (.ok _) => .returned none

/-- Go `func (self *ProcessTransport) CallResult(result, method, params...) error`;
on success the decoded result is stored through `result`. -/
def ProcessTransport.CallResult {ρ : Type} (trans : ProcessTransport) (os : OS)
    (reply : Except Error ρ) : Outcome (Except CallError ρ) :=
  clientCall trans.client os.pipes (ctxLive trans.ctx os.ctxs) reply

/-- Surroundings in which nothing has happened yet. -/
def OS.init : OS := ⟨[], [], 0, []⟩

end transport

/-! ## Properties -/

namespace deltachat

theorem ToEvent_unknown_aux (d : _EventData) (h : d.Kind ∉ catalogueKinds) :
    d.ToEvent = .UnknownEvent d.Kind := by
  simp only [catalogueKinds, catalogue, List.map, List.mem_cons, List.mem_nil_iff,
    List.mem_singleton, or_false, not_or] at h
  simp [_EventData.ToEvent, eventTypeInfo, eventTypeSmtpConnected, eventTypeImapConnected,
    eventTypeSmtpMessageSent, eventTypeImapMessageDeleted, eventTypeImapMessageMoved,
    eventTypeImapInboxIdle, eventTypeNewBlobFile, eventTypeDeletedBlobFile, eventTypeWarning,
    eventTypeError, eventTypeErrorSelfNotInGroup, eventTypeMsgsChanged,
    eventTypeReactionsChanged, eventTypeIncomingMsg, eventTypeIncomingMsgBunch,
    eventTypeMsgsNoticed, eventTypeMsgDelivered, eventTypeMsgFailed, eventTypeMsgRead,
    eventTypeMsgDeleted, eventTypeChatModified, eventTypeChatEphemeralTimerModified,
    eventTypeContactsChanged, eventTypeLocationChanged, eventTypeConfigureProgress,
    eventTypeImexProgress, eventTypeImexFileWritten, eventTypeSecurejoinInviterProgress,
    eventTypeSecurejoinJoinerProgress, eventTypeConnectivityChanged,
    eventTypeSelfavatarChanged, eventTypeConfigSynced, eventTypeWebxdcStatusUpdate,
    eventTypeWebxdcInstanceDeleted, eventTypeAccountsBackgroundFetchDone, h]

/-- The catalogue lists 36 kinds, no kind twice. -/
theorem catalogueKinds_length_nodup : catalogueKinds.length = 36 ∧ catalogueKinds.Nodup := by
  decide

/-- C1: for every wire record whose kind is one of the 36 catalogue kinds,
`ToEvent` returns the variant of that kind (its tag is the record's kind), and
the fields of the variant are exactly the fields the catalogue declares for
the kind, each holding the record's field of the same name unchanged. -/
theorem ToEvent_catalogue (d : _EventData) (h : d.Kind ∈ catalogueKinds) :
    d.ToEvent.eventType = d.Kind ∧
    d.ToEvent.fields = (declaredFields d.Kind).map (fun f => (f, d.field f)) := by
  obtain ⟨kind, msg, file, chatId, msgId, contactId, msgIds, timer, progress, comment, path,
    sus, key⟩ := d
  simp only [catalogueKinds, catalogue, List.map, List.mem_cons, List.mem_nil_iff,
    List.mem_singleton, or_false] at h
  rcases h with h | h | h | h | h | h | h | h | h | h | h | h | h | h | h | h | h | h |
    h | h | h | h | h | h | h | h | h | h | h | h | h | h | h | h | h | h <;>
  subst h <;> refine ⟨rfl, rfl⟩

/-- C1 at a `ReactionsChanged` record with large identifiers: the variant
carries `chatId`, `msgId` and `contactId` as they are on the wire. -/
theorem ToEvent_catalogue_witness :
    (⟨"ReactionsChanged", "m", "f", 2 ^ 64 - 1, 7, 9, [1, 2], -3, 1000, "c", "p", 5, "k"⟩ :
        _EventData).ToEvent.eventType = "ReactionsChanged" ∧
    (⟨"ReactionsChanged", "m", "f", 2 ^ 64 - 1, 7, 9, [1, 2], -3, 1000, "c", "p", 5, "k"⟩ :
        _EventData).ToEvent.fields =
      [(.chatId, .uint (2 ^ 64 - 1)), (.msgId, .uint 7), (.contactId, .uint 9)] :=
  ToEvent_catalogue
    ⟨"ReactionsChanged", "m", "f", 2 ^ 64 - 1, 7, 9, [1, 2], -3, 1000, "c", "p", 5, "k"⟩
    (by decide)

/-- C2: for every wire record whose kind is not a catalogue kind, `ToEvent`
returns `UnknownEvent` carrying exactly that kind string. `ToEvent` is a total
function of the record, so no record is refused or dropped. -/
theorem ToEvent_unknown (d : _EventData) (h : d.Kind ∉ catalogueKinds) :
    d.ToEvent = .UnknownEvent d.Kind := by
  simp only [catalogueKinds, catalogue, List.map, List.mem_cons, List.mem_nil_iff,
    List.mem_singleton, or_false, not_or] at h
  simp [_EventData.ToEvent, eventTypeInfo, eventTypeSmtpConnected, eventTypeImapConnected,
    eventTypeSmtpMessageSent, eventTypeImapMessageDeleted, eventTypeImapMessageMoved,
    eventTypeImapInboxIdle, eventTypeNewBlobFile, eventTypeDeletedBlobFile, eventTypeWarning,
    eventTypeError, eventTypeErrorSelfNotInGroup, eventTypeMsgsChanged,
    eventTypeReactionsChanged, eventTypeIncomingMsg, eventTypeIncomingMsgBunch,
    eventTypeMsgsNoticed, eventTypeMsgDelivered, eventTypeMsgFailed, eventTypeMsgRead,
    eventTypeMsgDeleted, eventTypeChatModified, eventTypeChatEphemeralTimerModified,
    eventTypeContactsChanged, eventTypeLocationChanged, eventTypeConfigureProgress,
    eventTypeImexProgress, eventTypeImexFileWritten, eventTypeSecurejoinInviterProgress,
    eventTypeSecurejoinJoinerProgress, eventTypeConnectivityChanged,
    eventTypeSelfavatarChanged, eventTypeConfigSynced, eventTypeWebxdcStatusUpdate,
    eventTypeWebxdcInstanceDeleted, eventTypeAccountsBackgroundFetchDone, h]

/-- C2 at the kind `NewlyInventedEvent` and at the empty kind. -/
theorem ToEvent_unknown_witness :
    (⟨"NewlyInventedEvent", "x", "", 0, 0, 0, [], 0, 0, "", "", 0, ""⟩ : _EventData).ToEvent
      = .UnknownEvent "NewlyInventedEvent" ∧
    (⟨"", "x", "", 0, 0, 0, [], 0, 0, "", "", 0, ""⟩ : _EventData).ToEvent
      = .UnknownEvent "" :=
  ⟨ToEvent_unknown ⟨"NewlyInventedEvent", "x", "", 0, 0, 0, [], 0, 0, "", "", 0, ""⟩ (by decide),
   ToEvent_unknown ⟨"", "x", "", 0, 0, 0, [], 0, 0, "", "", 0, ""⟩ (by decide)⟩

/-- C3: two wire records of the same kind that agree on every field the
catalogue declares for that kind decode to equal events, whatever their other
fields hold. -/
theorem ToEvent_ignores_undeclared (d₁ d₂ : _EventData) (hk : d₁.Kind = d₂.Kind)
    (hf : ∀ f ∈ declaredFields d₁.Kind, d₁.field f = d₂.field f) :
    d₁.ToEvent = d₂.ToEvent := by
  by_cases h : d₁.Kind ∈ catalogueKinds
  · obtain ⟨kind, msg, file, chatId, msgId, contactId, msgIds, timer, progress, comment, path,
      sus, key⟩ := d₁
    obtain ⟨kind', msg', file', chatId', msgId', contactId', msgIds', timer', progress',
      comment', path', sus', key'⟩ := d₂
    simp only at hk
    subst hk
    simp only [catalogueKinds, catalogue, List.map, List.mem_cons, List.mem_nil_iff,
      List.mem_singleton, or_false] at h
    rcases h with h | h | h | h | h | h | h | h | h | h | h | h | h | h | h | h | h | h |
      h | h | h | h | h | h | h | h | h | h | h | h | h | h | h | h | h | h <;>
    subst h <;>
    simp [declaredFields, catalogue, List.lookup, _EventData.field] at hf <;>
    simp [_EventData.ToEvent, eventTypeInfo, eventTypeSmtpConnected, eventTypeImapConnected,
      eventTypeSmtpMessageSent, eventTypeImapMessageDeleted, eventTypeImapMessageMoved,
      eventTypeImapInboxIdle, eventTypeNewBlobFile, eventTypeDeletedBlobFile, eventTypeWarning,
      eventTypeError, eventTypeErrorSelfNotInGroup, eventTypeMsgsChanged,
      eventTypeReactionsChanged, eventTypeIncomingMsg, eventTypeIncomingMsgBunch,
      eventTypeMsgsNoticed, eventTypeMsgDelivered, eventTypeMsgFailed, eventTypeMsgRead,
      eventTypeMsgDeleted, eventTypeChatModified, eventTypeChatEphemeralTimerModified,
      eventTypeContactsChanged, eventTypeLocationChanged, eventTypeConfigureProgress,
      eventTypeImexProgress, eventTypeImexFileWritten, eventTypeSecurejoinInviterProgress,
      eventTypeSecurejoinJoinerProgress, eventTypeConnectivityChanged,
      eventTypeSelfavatarChanged, eventTypeConfigSynced, eventTypeWebxdcStatusUpdate,
      eventTypeWebxdcInstanceDeleted, eventTypeAccountsBackgroundFetchDone, hf]
  · rw [ToEvent_unknown_aux d₁ h, ToEvent_unknown_aux d₂ (hk ▸ h), hk]

/-- C3 at two `IncomingMsgBunch` records that differ in every payload field,
`msgIds` included, and at two `IncomingMsg` records that agree on `chatId` and
`msgId` only. -/
theorem ToEvent_ignores_undeclared_witness :
    (⟨"IncomingMsgBunch", "a", "b", 1, 2, 3, [4, 5], 6, 7, "c", "d", 8, "e"⟩ : _EventData).ToEvent
      = (⟨"IncomingMsgBunch", "", "", 0, 0, 0, [], 0, 0, "", "", 0, ""⟩ : _EventData).ToEvent ∧
    (⟨"IncomingMsg", "a", "b", 1, 2, 3, [4, 5], 6, 7, "c", "d", 8, "e"⟩ : _EventData).ToEvent
      = (⟨"IncomingMsg", "", "", 1, 2, 0, [], 0, 0, "", "", 0, ""⟩ : _EventData).ToEvent :=
  ⟨ToEvent_ignores_undeclared _ _ rfl (by decide),
   ToEvent_ignores_undeclared _ _ rfl (by decide)⟩

theorem digit_le (u : Nat) (h : u < 10) :
    '0' ≤ Char.ofNat (48 + u) ∧ Char.ofNat (48 + u) ≤ '9' ∧ (Char.ofNat (48 + u)).toNat - 48 = u
      ∧ (0 < u → Char.ofNat (48 + u) ≠ '0') := by
  interval_cases u <;> decide

theorem parseDigits_fmtDigits (fuel u : Nat) (acc : Bytes) (h : u < fuel) :
    parseDigits (fmtDigits fuel u acc) 0 = parseDigits acc u := by
  induction fuel generalizing u acc with
  | zero => omega
  | succ fuel ih =>
    unfold fmtDigits
    split
    · rw [ih _ _ (by omega)]
      have := digit_le (u % 10) (Nat.mod_lt _ (by decide))
      simp only [parseDigits, this.1, this.2.1, this.2.2.1, and_self, if_true]
      congr 1
      omega
    · have := digit_le u (by omega)
      simp [parseDigits, this.1, this.2.1, this.2.2.1]

theorem fmtDigits_head (fuel u : Nat) (acc : Bytes) (h : u < fuel) (hu : 0 < u) :
    ∃ c rest, fmtDigits fuel u acc = c :: rest ∧ c ≠ '0' := by
  induction fuel generalizing u acc with
  | zero => omega
  | succ fuel ih =>
    unfold fmtDigits
    split
    · exact ih _ _ (by omega) (by omega)
    · exact ⟨_, _, rfl, (digit_le u (by omega)).2.2.2 hu⟩

theorem fmtDigits_all (P : Char → Prop) (hd : ∀ u, u < 10 → P (Char.ofNat (48 + u)))
    (fuel u : Nat) (acc : Bytes) (hacc : ∀ c ∈ acc, P c) :
    ∀ c ∈ fmtDigits fuel u acc, P c := by
  induction fuel generalizing u acc with
  | zero => simpa [fmtDigits] using hacc
  | succ fuel ih =>
    unfold fmtDigits
    split
    · apply ih
      intro c hc
      rcases List.mem_cons.1 hc with rfl | hc
      · exact hd _ (Nat.mod_lt _ (by decide))
      · exact hacc c hc
    · intro c hc
      rcases List.mem_cons.1 hc with rfl | hc
      · exact hd _ (by omega)
      · exact hacc c hc

theorem digit_not_space (u : Nat) (h : u < 10) :
    isJsonSpace (Char.ofNat (48 + u)) = false ∧ Char.ofNat (48 + u) ≠ 'n'
      ∧ Char.ofNat (48 + u) ≠ '-' := by
  interval_cases u <;> decide

theorem trim_eq_self (l : Bytes) (h : ∀ c ∈ l, isJsonSpace c = false) :
    ((l.dropWhile isJsonSpace).reverse.dropWhile isJsonSpace).reverse = l := by
  have h1 : ∀ m : Bytes, (∀ c ∈ m, isJsonSpace c = false) → m.dropWhile isJsonSpace = m := by
    intro m hm
    cases m with
    | nil => rfl
    | cons a m => simp [List.dropWhile, hm a (List.mem_cons_self _ _)]
  rw [h1 l h, h1 l.reverse (by simpa using h), List.reverse_reverse]

theorem jsonUnmarshalInt64_digits (u : Nat) (v₀ : Int) (neg : Bool)
    (hr : if neg then 0 < u ∧ u ≤ 2 ^ 63 else u < 2 ^ 63) :
    jsonUnmarshalInt64 (if neg then '-' :: fmtDigits (u + 1) u [] else fmtDigits (u + 1) u []) v₀
      = .ok (if neg then -(u : Int) else (u : Int)) := by
  have hall : ∀ c ∈ fmtDigits (u + 1) u [], isJsonSpace c = false ∧ c ≠ 'n' ∧ c ≠ '-' :=
    fmtDigits_all _ digit_not_space _ _ _ (by simp)
  have hparse : parseDigits (fmtDigits (u + 1) u []) 0 = some u := by
    rw [parseDigits_fmtDigits _ _ _ (by omega)]; rfl
  have hhead : ∃ c rest, fmtDigits (u + 1) u [] = c :: rest ∧ (c = '0' → rest = []) := by
    rcases Nat.eq_zero_or_pos u with rfl | hu
    · exact ⟨'0', [], rfl, fun _ => rfl⟩
    · obtain ⟨c, rest, h1, h2⟩ := fmtDigits_head (u + 1) u [] (by omega) hu
      exact ⟨c, rest, h1, fun h => absurd h h2⟩
  obtain ⟨c, rest, hcr, hz⟩ := hhead
  have hc := hall c (by rw [hcr]; exact List.mem_cons_self _ _)
  have hsp : ∀ x ∈ c :: rest, isJsonSpace x = false := fun x hx => (hall x (hcr ▸ hx)).1
  rw [hcr] at hparse
  unfold jsonUnmarshalInt64
  cases neg with
  | true =>
    simp only [if_true] at hr ⊢
    rw [hcr, trim_eq_self _ (by
      intro x hx
      rcases List.mem_cons.1 hx with rfl | hx
      · decide
      · exact hsp x hx)]
    simp only [List.head?_cons, List.tail_cons, if_true]
    rw [if_neg (by simp)]
    rw [hparse]
    simp only
    rw [if_neg (by
      rintro ⟨h0, hne⟩
      exact hne (hz h0))]
    rw [if_pos hr.2]
  | false =>
    simp only [Bool.false_eq_true, if_false] at hr ⊢
    rw [hcr, trim_eq_self _ hsp]
    have hne : (c :: rest) ≠ ['n', 'u', 'l', 'l'] := by
      intro h
      exact hc.2.1 (List.cons.inj h).1
    have hm : ¬ ((c :: rest).head? = some '-') := by
      simp only [List.head?_cons, Option.some.injEq]
      exact hc.2.2
    rw [if_neg hne]
    simp only [hm, if_false, decide_False, Bool.false_eq_true]
    rw [hparse]
    simp only
    rw [if_neg (by
      rintro ⟨h0, hne⟩
      exact hne (hz h0))]
    rw [if_pos hr]

theorem jsonUnmarshalInt64_Sprintf_d (n v₀ : Int) (hlo : -2 ^ 63 ≤ n) (hhi : n < 2 ^ 63) :
    jsonUnmarshalInt64 (Sprintf_d n) v₀ = .ok n := by
  unfold Sprintf_d
  by_cases hn : n < 0
  · have := jsonUnmarshalInt64_digits n.natAbs v₀ true (by simp; omega)
    simp only [if_true] at this
    rw [if_pos hn, this]
    congr 1
    omega
  · have := jsonUnmarshalInt64_digits n.natAbs v₀ false (by simp; omega)
    simp only [Bool.false_eq_true, if_false] at this
    rw [if_neg hn, this]
    congr 1
    omega

theorem Time_Unix_time_Unix (n : Int) (hlo : -2 ^ 63 ≤ n) (hhi : n < 2 ^ 63) :
    (time.Unix n 0).Unix = n := by
  have h1 : unixToInternal = 62135596800 := by decide
  simp only [time.Unix, Time.Unix, Time.sec, internalToUnix, h1, wrapInt64, hasMonotonic]
  norm_num
  omega

theorem ctxLive_lt (h : Nat) (ctxs : List Bool) (hl : ctxLive (some h) ctxs = true) :
    h < ctxs.length := by
  simp only [ctxLive, beq_iff_eq] at hl
  by_contra hc
  rw [List.getElem?_eq_none (by omega)] at hl
  exact absurd hl (by simp)

theorem ctxLive_WithCancel (ctxs : List Bool) :
    ctxLive (some (WithCancel ctxs).1) (WithCancel ctxs).2 = true := by
  simp [ctxLive, WithCancel]

theorem ctxLive_cancelCtx (h : Nat) (ctxs : List Bool) :
    ctxLive (some h) (cancelCtx h ctxs) = false := by
  simp only [ctxLive, cancelCtx]
  by_cases hl : h < ctxs.length
  · simp [List.getElem?_set_self, hl]
  · have hn : (ctxs.set h true)[h]? = none := List.getElem?_eq_none (by simp; omega)
    simp [hn]

theorem runLoop_outcome {σ : Type} (S : RpcServer σ) (events : List _Event) (w : World σ) :
    (Bot.runLoop S events w).1 = .returned none ∨ (Bot.runLoop S events w).1 = .panicked := by
  induction events generalizing w with
  | nil => exact Or.inl rfl
  | cons e es ih =>
    unfold Bot.runLoop
    cases he : e.Event with
    | none => simp [Rpc.GetNextEvent, he]
    | some d => simpa [Rpc.GetNextEvent, he] using ih _

/-- C5: `Run` on a running bot returns `BotRunningErr`, whose text is
"bot is already running", and leaves everything as it was: the bot (its
context handle included), the contexts, the server and the list of effects,
so no remote procedure is called. -/
theorem Run_while_running {σ : Type} (S : RpcServer σ) (events : List _Event) (w : World σ)
    (h : Bot.IsRunning w = true) :
    Bot.Run S events w = (.returned (some {}), w) ∧
    BotRunningErr.Error {} = "bot is already running" := by
  refine ⟨?_, rfl⟩
  simp only [Bot.IsRunning] at h
  simp [Bot.Run, Bot.runBegin, h]

/-- C5 at a new bot that has entered `Run` once: a second `Run`, whatever
events the server holds, is refused. -/
theorem Run_while_running_witness :
    Bot.IsRunning runningWorld = true ∧
    Bot.Run idleServer [⟨1, some ⟨"Info", "x", "", 0, 0, 0, [], 0, 0, "", "", 0, ""⟩⟩]
        runningWorld = (.returned (some {}), runningWorld) ∧
    BotRunningErr.Error {} = "bot is already running" :=
  ⟨rfl, Run_while_running idleServer _ runningWorld rfl⟩

end deltachat

namespace transport

open deltachat (Error Outcome ctxLive WithCancel cancelCtx ctxLive_lt ctxLive_WithCancel
  ctxLive_cancelCtx)

theorem IOTransport_Open_ok (t : IOTransport) (os : OS) (e : Option Error)
    (h : (t.Open os e).1 = none) :
    ctxLive t.ctx os.ctxs = false ∧ e = none ∧
    t.Open os e =
      (none,
       { t with ctx := some os.ctxs.length, cmd := some os.cmds, stdin := some os.pipes.length,
                client := some ⟨os.pipes.length⟩ },
       { os with ctxs := os.ctxs ++ [false], cmds := os.cmds + 1, pipes := os.pipes ++ [false],
                 log := os.log ++ [.start os.cmds t.Cmd (accountsEnv t.AccountsDir) true] }) := by
  unfold IOTransport.Open at h ⊢
  cases hl : ctxLive t.ctx os.ctxs with
  | true => simp [hl] at h
  | false =>
    cases e with
    | some err => simp [hl] at h
    | none => simp [WithCancel]

theorem ProcessTransport_Open_ok (t : ProcessTransport) (os : OS) (e : Option Error)
    (h : (t.Open os e).1 = none) :
    ctxLive t.ctx os.ctxs = false ∧ e = none ∧
    t.Open os e =
      (none,
       { t with ctx := some os.ctxs.length, cmd := some os.cmds, stdin := some os.pipes.length,
                client := some ⟨os.pipes.length⟩ },
       { os with ctxs := os.ctxs ++ [false], cmds := os.cmds + 1, pipes := os.pipes ++ [false],
                 log := os.log ++ [.start os.cmds t.Cmd (accountsEnv t.AccountsDir) true] }) := by
  unfold ProcessTransport.Open at h ⊢
  cases hl : ctxLive t.ctx os.ctxs with
  | true => simp [hl] at h
  | false =>
    cases e with
    | some err => simp [hl] at h
    | none => simp [WithCancel]

theorem ctxLive_append (ctxs : List Bool) : ctxLive (some ctxs.length) (ctxs ++ [false]) = true := by
  simp [ctxLive]

/-- C7: when `Open` has succeeded, a second `Open` with no `Close` in between
returns `TransportStartedErr`, whose text says that the transport is already
started, and leaves the transport and its surroundings as they were: the same
command, client and context, and no further process start. This holds for
`IOTransport` and for `ProcessTransport`. -/
theorem Open_after_Open (t : IOTransport) (p : ProcessTransport) (os : OS)
    (e₁ e₂ : Option Error) :
    ((t.Open os e₁).1 = none →
      (t.Open os e₁).2.1.Open (t.Open os e₁).2.2 e₂
        = (some (.started {}), (t.Open os e₁).2.1, (t.Open os e₁).2.2)) ∧
    ((p.Open os e₁).1 = none →
      (p.Open os e₁).2.1.Open (p.Open os e₁).2.2 e₂
        = (some (.started {}), (p.Open os e₁).2.1, (p.Open os e₁).2.2)) ∧
    IOTransport.TransportStartedErr_Error {} = "transport is already started" ∧
    ProcessTransport.TransportStartedErr_Error {} = "Transport is already started" := by
  refine ⟨fun h => ?_, fun h => ?_, rfl, rfl⟩
  · rw [(IOTransport_Open_ok t os e₁ h).2.2]
    simp [IOTransport.Open, ctxLive_append]
  · rw [(ProcessTransport_Open_ok p os e₁ h).2.2]
    simp [ProcessTransport.Open, ctxLive_append]

/-- C7 at a new transport of either kind, opened twice: one process start
only. -/
theorem Open_after_Open_witness :
    ((NewIOTransport "deltachat-rpc-server").Open OS.init none).1 = none ∧
    ((NewIOTransport "deltachat-rpc-server").Open OS.init none).2.1.Open
        ((NewIOTransport "deltachat-rpc-server").Open OS.init none).2.2 none
      = (some (.started {}),
         ⟨"", "deltachat-rpc-server", some 0, some 0, some ⟨0⟩, some 0⟩,
         ⟨[false], [false], 1, [.start 0 "deltachat-rpc-server" none true]⟩) ∧
    ((NewProcessTransport "deltachat-rpc-server").Open OS.init none).1 = none ∧
    ((NewProcessTransport "deltachat-rpc-server").Open OS.init none).2.1.Open
        ((NewProcessTransport "deltachat-rpc-server").Open OS.init none).2.2 none
      = (some (.started {}),
         ⟨"", "deltachat-rpc-server", some 0, some 0, some ⟨0⟩, some 0⟩,
         ⟨[false], [false], 1, [.start 0 "deltachat-rpc-server" none true]⟩) :=
  ⟨rfl,
   (Open_after_Open (NewIOTransport "deltachat-rpc-server")
      (NewProcessTransport "deltachat-rpc-server") OS.init none none).1 rfl,
   rfl,
   (Open_after_Open (NewIOTransport "deltachat-rpc-server")
      (NewProcessTransport "deltachat-rpc-server") OS.init none none).2.1 rfl⟩

theorem IOTransport_Close_twice (t : IOTransport) (os : OS) (t' : IOTransport) (os' : OS)
    (h : t.Close os = .returned (t', os')) : t'.Close os' = .returned (t', os') := by
  unfold IOTransport.Close at h
  cases hl : ctxLive t.ctx os.ctxs with
  | false =>
    simp only [hl, Bool.not_false, if_true, Outcome.returned.injEq, Prod.mk.injEq] at h
    obtain ⟨rfl, rfl⟩ := h
    simp [IOTransport.Close, hl]
  | true =>
    simp only [hl, Bool.not_true, Bool.false_eq_true, if_false] at h
    cases hs : t.stdin <;> cases hx : t.ctx <;> cases hm : t.cmd <;> simp [hs, hx, hm] at h
    obtain ⟨rfl, rfl⟩ := h
    simp [IOTransport.Close, hx, ctxLive_cancelCtx]

theorem ProcessTransport_Close_twice (t : ProcessTransport) (os : OS) (t' : ProcessTransport)
    (os' : OS) (h : t.Close os = .returned (t', os')) : t'.Close os' = .returned (t', os') := by
  unfold ProcessTransport.Close at h
  cases hl : ctxLive t.ctx os.ctxs with
  | false =>
    simp only [hl, Bool.not_false, if_true, Outcome.returned.injEq, Prod.mk.injEq] at h
    obtain ⟨rfl, rfl⟩ := h
    simp [ProcessTransport.Close, hl]
  | true =>
    simp only [hl, Bool.not_true, Bool.false_eq_true, if_false] at h
    cases hs : t.stdin <;> cases hx : t.ctx <;> cases hm : t.cmd <;> simp [hs, hx, hm] at h
    obtain ⟨rfl, rfl⟩ := h
    simp [ProcessTransport.Close, hx, ctxLive_cancelCtx]

/-- C8: `Close` on a transport that is not started (its context is nil, as
on a transport never opened, or cancelled, as after `Close`) returns with the
transport and its surroundings as they were, so with no `stdin.Close()`, no
cancel and no wait; and whenever `Close` returns, a second `Close` right after
it returns with nothing changed. This holds for `IOTransport` and for
`ProcessTransport`. -/
theorem Close_idempotent (t : IOTransport) (p : ProcessTransport) (os : OS) :
    (ctxLive t.ctx os.ctxs = false → t.Close os = .returned (t, os)) ∧
    (ctxLive p.ctx os.ctxs = false → p.Close os = .returned (p, os)) ∧
    (∀ bin : String, (NewIOTransport bin).Close os = .returned (NewIOTransport bin, os)) ∧
    (∀ bin : String,
      (NewProcessTransport bin).Close os = .returned (NewProcessTransport bin, os)) ∧
    (∀ t' os', t.Close os = .returned (t', os') →
      ctxLive t'.ctx os'.ctxs = false ∧ t'.Close os' = .returned (t', os')) ∧
    (∀ p' os', p.Close os = .returned (p', os') →
      ctxLive p'.ctx os'.ctxs = false ∧ p'.Close os' = .returned (p', os')) := by
  refine ⟨fun h => by simp [IOTransport.Close, h], fun h => by simp [ProcessTransport.Close, h],
    fun bin => rfl, fun bin => rfl, fun t' os' h => ?_, fun p' os' h => ?_⟩
  · have h2 := IOTransport_Close_twice t os t' os' h
    refine ⟨?_, h2⟩
    cases hl : ctxLive t'.ctx os'.ctxs with
    | false => rfl
    | true =>
      exfalso
      unfold IOTransport.Close at h2
      simp only [hl, Bool.not_true, Bool.false_eq_true, if_false] at h2
      cases hs : t'.stdin <;> cases hx : t'.ctx <;> cases hm : t'.cmd <;> simp [hs, hx, hm] at h2
      have h3 := congrArg OS.log h2
      simp at h3
  · have h2 := ProcessTransport_Close_twice p os p' os' h
    refine ⟨?_, h2⟩
    cases hl : ctxLive p'.ctx os'.ctxs with
    | false => rfl
    | true =>
      exfalso
      unfold ProcessTransport.Close at h2
      simp only [hl, Bool.not_true, Bool.false_eq_true, if_false] at h2
      cases hs : p'.stdin <;> cases hx : p'.ctx <;> cases hm : p'.cmd <;> simp [hs, hx, hm] at h2
      have h3 := congrArg OS.log h2
      simp at h3

/-- C8 at a transport never opened, and at a transport opened and closed:
the second `Close` adds nothing to the three effects of the first. -/
theorem Close_idempotent_witness :
    (NewIOTransport "srv").Close OS.init = .returned (NewIOTransport "srv", OS.init) ∧
    (⟨"", "srv", some 0, some 0, some ⟨0⟩, some 0⟩ : IOTransport).Close
        ⟨[true], [true], 1, [.start 0 "srv" none true, .closeStdin 0, .cancel 0, .wait 0]⟩
      = .returned (⟨"", "srv", some 0, some 0, some ⟨0⟩, some 0⟩,
          ⟨[true], [true], 1, [.start 0 "srv" none true, .closeStdin 0, .cancel 0, .wait 0]⟩) :=
  ⟨(Close_idempotent (NewIOTransport "srv") (NewProcessTransport "srv") OS.init).1 rfl,
   ((Close_idempotent ⟨"", "srv", some 0, some 0, some ⟨0⟩, some 0⟩ (NewProcessTransport "srv")
      ⟨[false], [false], 1, [.start 0 "srv" none true]⟩).2.2.2.2.1 _ _ rfl).2⟩

theorem clientCall_closed {ρ : Type} (pipes : List Bool) (n : Nat) (live : Bool)
    (reply : Except Error ρ) :
    clientCall (some ⟨n⟩) (pipes.set n true) live reply = .returned (.error .closed) := by
  have hne : (pipes.set n true)[n]? ≠ some false := by
    by_cases hl : n < pipes.length
    · simp [List.getElem?_set_self, hl]
    · have hn : (pipes.set n true)[n]? = none := List.getElem?_eq_none (by simp; omega)
      simp [hn]
  simp [clientCall, hne]

theorem IOTransport_Close_live (t : IOTransport) (os : OS) (stdin ctx cmd : Nat)
    (hs : t.stdin = some stdin) (hx : t.ctx = some ctx) (hm : t.cmd = some cmd)
    (hl : ctxLive (some ctx) os.ctxs = true) :
    t.Close os = .returned (t,
      { os with pipes := os.pipes.set stdin true, ctxs := cancelCtx ctx os.ctxs,
                log := os.log ++ [.closeStdin stdin, .cancel ctx, .wait cmd] }) := by
  simp [IOTransport.Close, hs, hx, hm, hl]

theorem ProcessTransport_Close_live (t : ProcessTransport) (os : OS) (stdin ctx cmd : Nat)
    (hs : t.stdin = some stdin) (hx : t.ctx = some ctx) (hm : t.cmd = some cmd)
    (hl : ctxLive (some ctx) os.ctxs = true) :
    t.Close os = .returned (t,
      { os with pipes := os.pipes.set stdin true, ctxs := cancelCtx ctx os.ctxs,
                log := os.log ++ [.closeStdin stdin, .cancel ctx, .wait cmd] }) := by
  simp [ProcessTransport.Close, hs, hx, hm, hl]

/-- C9: on a transport that was opened successfully and then closed, `Close`
returns, and every `Call` and every `CallResult` after it returns an error
(the channel to the child is closed) and no result, whatever the context of
the call and whatever the child would have answered. This holds for
`IOTransport` and for `ProcessTransport`. -/
theorem Call_after_Close (t : IOTransport) (p : ProcessTransport) (os : OS) (e : Option Error) :
    ((t.Open os e).1 = none →
      ∃ t' os', (t.Open os e).2.1.Close (t.Open os e).2.2 = .returned (t', os') ∧
        (∀ ctx reply, t'.Call os' ctx reply = .returned (some .closed)) ∧
        (∀ (ρ : Type) ctx (reply : Except Error ρ),
          t'.CallResult os' ctx reply = .returned (.error .closed))) ∧
    ((p.Open os e).1 = none →
      ∃ p' os', (p.Open os e).2.1.Close (p.Open os e).2.2 = .returned (p', os') ∧
        (∀ reply, p'.Call os' reply = .returned (some .closed)) ∧
        (∀ (ρ : Type) (reply : Except Error ρ),
          p'.CallResult os' reply = .returned (.error .closed))) := by
  refine ⟨fun h => ?_, fun h => ?_⟩
  · rw [(IOTransport_Open_ok t os e h).2.2]
    refine ⟨_, _, IOTransport_Close_live _ _ _ _ _ rfl rfl rfl (ctxLive_append _), ?_, ?_⟩
    · intro ctx reply
      simp only [IOTransport.Call, clientCall_closed]
    · intro ρ ctx reply
      simp only [IOTransport.CallResult, clientCall_closed]
  · rw [(ProcessTransport_Open_ok p os e h).2.2]
    refine ⟨_, _, ProcessTransport_Close_live _ _ _ _ _ rfl rfl rfl (ctxLive_append _), ?_, ?_⟩
    · intro reply
      simp only [ProcessTransport.Call, clientCall_closed]
    · intro ρ reply
      simp only [ProcessTransport.CallResult, clientCall_closed]

/-- C9 at a new transport of either kind, opened and closed. -/
theorem Call_after_Close_witness :
    ((NewIOTransport "srv").Open OS.init none).1 = none ∧
    (∃ t' os', ((NewIOTransport "srv").Open OS.init none).2.1.Close
          ((NewIOTransport "srv").Open OS.init none).2.2 = .returned (t', os') ∧
        (∀ ctx reply, t'.Call os' ctx reply = .returned (some .closed)) ∧
        (∀ (ρ : Type) ctx (reply : Except Error ρ),
          t'.CallResult os' ctx reply = .returned (.error .closed))) ∧
    ((NewProcessTransport "srv").Open OS.init none).1 = none ∧
    (∃ p' os', ((NewProcessTransport "srv").Open OS.init none).2.1.Close
          ((NewProcessTransport "srv").Open OS.init none).2.2 = .returned (p', os') ∧
        (∀ reply, p'.Call os' reply = .returned (some .closed)) ∧
        (∀ (ρ : Type) (reply : Except Error ρ),
          p'.CallResult os' reply = .returned (.error .closed))) :=
  ⟨rfl,
   (Call_after_Close (NewIOTransport "srv") (NewProcessTransport "srv") OS.init none).1 rfl,
   rfl,
   (Call_after_Close (NewIOTransport "srv") (NewProcessTransport "srv") OS.init none).2 rfl⟩

/-- C10 fails on the code: on a transport never opened, and on a new transport
whose `Open` returned the error of the process start, the client pointer is
nil, and `Call` and `CallResult` dereference it: the call panics instead of
returning an error. This holds for `IOTransport` and for `ProcessTransport`. -/
theorem Call_not_started_panics (bin : String) (os : OS) (ctx : Option Nat) (err : Error)
    (ρ : Type) (reply : Except Error Unit) (replyR : Except Error ρ) :
    (NewIOTransport bin).Call os ctx reply = .panicked ∧
    (NewIOTransport bin).CallResult os ctx replyR = .panicked ∧
    ((NewIOTransport bin).Open os (some err)).1 = some (.start err) ∧
    ((NewIOTransport bin).Open os (some err)).2.1.Call
      ((NewIOTransport bin).Open os (some err)).2.2 ctx reply = .panicked ∧
    ((NewIOTransport bin).Open os (some err)).2.1.CallResult
      ((NewIOTransport bin).Open os (some err)).2.2 ctx replyR = .panicked ∧
    (NewProcessTransport bin).Call os reply = .panicked ∧
    (NewProcessTransport bin).CallResult os replyR = .panicked ∧
    ((NewProcessTransport bin).Open os (some err)).1 = some (.start err) ∧
    ((NewProcessTransport bin).Open os (some err)).2.1.Call
      ((NewProcessTransport bin).Open os (some err)).2.2 reply = .panicked ∧
    ((NewProcessTransport bin).Open os (some err)).2.1.CallResult
      ((NewProcessTransport bin).Open os (some err)).2.2 replyR = .panicked := by
  refine ⟨rfl, rfl, rfl, rfl, rfl, rfl, rfl, rfl, rfl, rfl⟩

end transport

namespace deltachat

theorem lookup_filter_ne (k : eventType) (l : List (eventType × EventHandler)) :
    (l.filter (fun p => p.1 ≠ k)).lookup k = none := by
  induction l with
  | nil => rfl
  | cons p l ih =>
    rcases p with ⟨a, b⟩
    by_cases hp : a = k
    · rw [List.filter_cons_of_neg (by simp [hp])]
      exact ih
    · rw [List.filter_cons_of_pos (by simp [hp])]
      have hb : (k == a) = false := by simpa using fun h => hp h.symm
      rw [List.lookup_cons]
      simp only [hb]
      exact ih

theorem lookup_filter_other (k k' : eventType) (hk : k' ≠ k)
    (l : List (eventType × EventHandler)) :
    (l.filter (fun p => p.1 ≠ k)).lookup k' = l.lookup k' := by
  induction l with
  | nil => rfl
  | cons p l ih =>
    rcases p with ⟨a, b⟩
    by_cases hp : a = k
    · rw [List.filter_cons_of_neg (by simp [hp])]
      have hb : (k' == a) = false := by simpa [hp] using hk
      rw [List.lookup_cons]
      simp only [hb]
      exact ih
    · rw [List.filter_cons_of_pos (by simp [hp])]
      rw [List.lookup_cons, List.lookup_cons, ih]

/-- C11: after `On(e, h₁)` and then `On(e₂, h₂)` with `e₂` of the kind of `e`,
the handler map holds one entry for that kind, the one of `h₂`, and the
dispatch of an event of that kind calls `h₂` once and calls nothing else. -/
theorem On_overrides {σ : Type} (w : World σ) (e e₂ ev : Event) (h₁ h₂ : EventHandler)
    (accId : AccountId) (hk : e₂.eventType = e.eventType) (hev : ev.eventType = e.eventType) :
    ((w.bot.On e h₁).On e₂ h₂).handlerMap.filter (fun p => p.1 = e.eventType)
      = [(e.eventType, h₂)] ∧
    ((w.bot.On e h₁).On e₂ h₂).handlerMap.lookup ev.eventType = some h₂ ∧
    Bot.onEvent { w with bot := (w.bot.On e h₁).On e₂ h₂ } accId ev
      = { w with bot := (w.bot.On e h₁).On e₂ h₂,
                 trace := w.trace ++ [Effect.event h₂ accId ev] } := by
  have hl : ((w.bot.On e h₁).On e₂ h₂).handlerMap.lookup ev.eventType = some h₂ := by
    simp [Bot.On, hk, hev, List.lookup]
  refine ⟨?_, hl, ?_⟩
  · simp [Bot.On, hk, List.filter_filter]
  · simp only [Bot.onEvent, hl]

/-- C11 at a new bot: `h₁ = 1` is registered for `Info`, then `h₂ = 2`; an
`Info` event goes to 2. -/
theorem On_overrides_witness :
    (((NewBot.On (.EventInfo "") 1).On (.EventInfo "") 2).handlerMap.filter
        (fun p => p.1 = eventTypeInfo)) = [(eventTypeInfo, 2)] ∧
    ((NewBot.On (.EventInfo "") 1).On (.EventInfo "") 2).handlerMap.lookup
        (Event.EventInfo "x").eventType = some 2 ∧
    Bot.onEvent { (⟨NewBot, (), [], []⟩ : World Unit) with
        bot := (NewBot.On (.EventInfo "") 1).On (.EventInfo "") 2 } 5 (.EventInfo "x")
      = { (⟨NewBot, (), [], []⟩ : World Unit) with
          bot := (NewBot.On (.EventInfo "") 1).On (.EventInfo "") 2,
          trace := [] ++ [Effect.event 2 5 (.EventInfo "x")] } :=
  On_overrides (⟨NewBot, (), [], []⟩ : World Unit) (.EventInfo "") (.EventInfo "")
    (.EventInfo "x") 1 2 5 rfl rfl

theorem processMessage_eq {σ : Type} (S : RpcServer σ) (accId : AccountId) (w : World σ)
    (msgId : MsgId) :
    Bot.processMessage S accId w msgId =
      { w with server := (S.SetConfig w.server accId "last_msg_id" (some (Sprintf_v msgId))).1,
               trace := w.trace ++ roundEffects accId w.bot.newMsgHandler msgId } := by
  unfold Bot.processMessage roundEffects
  cases h : w.bot.newMsgHandler <;> simp [h]

theorem foldl_processMessage {σ : Type} (S : RpcServer σ) (accId : AccountId)
    (ids : List MsgId) (w : World σ) :
    (ids.foldl (Bot.processMessage S accId) w).bot = w.bot ∧
    (ids.foldl (Bot.processMessage S accId) w).ctxs = w.ctxs ∧
    (ids.foldl (Bot.processMessage S accId) w).trace =
      w.trace ++ (ids.map (roundEffects accId w.bot.newMsgHandler)).flatten := by
  induction ids generalizing w with
  | nil => simp
  | cons a ids ih =>
    obtain ⟨h1, h2, h3⟩ := ih (Bot.processMessage S accId w a)
    rw [List.foldl_cons]
    refine ⟨?_, ?_, ?_⟩
    · rw [h1, processMessage_eq]
    · rw [h2, processMessage_eq]
    · rw [h3, processMessage_eq]
      simp

/-- C13 as stated fails: with a handler registered by an `UnknownEvent`
exemplar (here handler 1), the event decoded from a record of the kind
`NewlyInventedEvent` goes to that handler and not to the unhandled-event
handler (here handler 2). -/
theorem unknown_not_to_unhandled :
    (⟨"NewlyInventedEvent", "x", "", 0, 0, 0, [], 0, 0, "", "", 0, ""⟩ : _EventData).Kind
      ∉ catalogueKinds ∧
    (Bot.handleEvent idleServer
        (⟨(NewBot.On (.UnknownEvent "") 1).OnUnhandledEvent (some 2), (), [], []⟩ : World Unit) 5
        (⟨"NewlyInventedEvent", "x", "", 0, 0, 0, [], 0, 0, "", "", 0, ""⟩ :
          _EventData).ToEvent).trace
      = [Effect.event 1 5 (.UnknownEvent "NewlyInventedEvent")] ∧
    Effect.event 2 5 (.UnknownEvent "NewlyInventedEvent") ∉
      (Bot.handleEvent idleServer
        (⟨(NewBot.On (.UnknownEvent "") 1).OnUnhandledEvent (some 2), (), [], []⟩ : World Unit) 5
        (⟨"NewlyInventedEvent", "x", "", 0, 0, 0, [], 0, 0, "", "", 0, ""⟩ :
          _EventData).ToEvent).trace := by
  decide

/-- C13 as amended: for a wire record whose kind is not in the catalogue,
`GetNextEvent` returns the `UnknownEvent` carrying that kind, and the body of
the run loop hands it to the unhandled-event handler when one is set and no
handler is registered for the kind `UnknownEvent`; a handler registered for
that kind gets it instead. In both cases nothing else is called. -/
theorem unknown_to_unhandled {σ : Type} (S : RpcServer σ) (w : World σ) (accId : AccountId)
    (d : _EventData) (hk : d.Kind ∉ catalogueKinds) :
    Rpc.GetNextEvent (.ok ⟨accId, some d⟩) = .returned (.ok (accId, .UnknownEvent d.Kind)) ∧
    (∀ u, w.bot.handlerMap.lookup eventTypeUnknown = none → w.bot.onUnhandledEvent = some u →
      Bot.handleEvent S w accId d.ToEvent
        = { w with trace := w.trace ++ [Effect.event u accId (.UnknownEvent d.Kind)] }) ∧
    (∀ h, w.bot.handlerMap.lookup eventTypeUnknown = some h →
      Bot.handleEvent S w accId d.ToEvent
        = { w with trace := w.trace ++ [Effect.event h accId (.UnknownEvent d.Kind)] }) := by
  have hd := ToEvent_unknown_aux d hk
  have hne : ¬ (Event.UnknownEvent d.Kind).eventType = eventTypeIncomingMsg := by
    simp [Event.eventType, eventTypeUnknown, eventTypeIncomingMsg]
  refine ⟨by simp [Rpc.GetNextEvent, hd], fun u hl hu => ?_, fun h hl => ?_⟩
  · have hl' : w.bot.handlerMap.lookup (Event.UnknownEvent d.Kind).eventType = none := hl
    rw [hd]
    simp only [Bot.handleEvent, if_neg hne, Bot.onEvent, hl', hu]
  · have hl' : w.bot.handlerMap.lookup (Event.UnknownEvent d.Kind).eventType = some h := hl
    rw [hd]
    simp only [Bot.handleEvent, if_neg hne, Bot.onEvent, hl']

/-- C13 as amended, at the record of kind `NewlyInventedEvent` with msg `x`
and a new bot whose unhandled-event handler is 2. -/
theorem unknown_to_unhandled_witness :
    Bot.handleEvent idleServer (⟨NewBot.OnUnhandledEvent (some 2), (), [], []⟩ : World Unit) 5
        (⟨"NewlyInventedEvent", "x", "", 0, 0, 0, [], 0, 0, "", "", 0, ""⟩ : _EventData).ToEvent
      = ⟨NewBot.OnUnhandledEvent (some 2), (), [],
          [Effect.event 2 5 (.UnknownEvent "NewlyInventedEvent")]⟩ :=
  (unknown_to_unhandled idleServer
    (⟨NewBot.OnUnhandledEvent (some 2), (), [], []⟩ : World Unit) 5
    ⟨"NewlyInventedEvent", "x", "", 0, 0, 0, [], 0, 0, "", "", 0, ""⟩ (by decide)).2.1 2
    rfl rfl

/-- C14: after `RemoveEventHandler(e)` no handler is registered for the kind
of `e`, so an event of that kind goes to the unhandled-event handler if one is
set and to nobody otherwise; after `OnUnhandledEvent(nil)` an event whose kind
has no handler is handed to nobody; after `OnNewMsg(nil)` a catch-up pass
calls no new-message handler. -/
theorem handler_slots_removable {σ : Type} (S : RpcServer σ) (w : World σ) (e ev : Event)
    (accId : AccountId) (hev : ev.eventType = e.eventType) :
    (w.bot.RemoveEventHandler e).handlerMap.lookup ev.eventType = none ∧
    (∀ u, w.bot.onUnhandledEvent = some u →
      Bot.onEvent { w with bot := w.bot.RemoveEventHandler e } accId ev
        = { w with bot := w.bot.RemoveEventHandler e,
                   trace := w.trace ++ [Effect.event u accId ev] }) ∧
    (w.bot.onUnhandledEvent = none →
      Bot.onEvent { w with bot := w.bot.RemoveEventHandler e } accId ev
        = { w with bot := w.bot.RemoveEventHandler e }) ∧
    (∀ ev' : Event, w.bot.handlerMap.lookup ev'.eventType = none →
      Bot.onEvent { w with bot := w.bot.OnUnhandledEvent none } accId ev'
        = { w with bot := w.bot.OnUnhandledEvent none }) ∧
    (∀ h a m, Effect.newMsg h a m ∈
        (Bot.processMessages S { w with bot := w.bot.OnNewMsg none } accId).trace →
      Effect.newMsg h a m ∈ w.trace) := by
  have hl : (w.bot.RemoveEventHandler e).handlerMap.lookup ev.eventType = none := by
    rw [hev]
    exact lookup_filter_ne _ _
  have hu' : (w.bot.RemoveEventHandler e).onUnhandledEvent = w.bot.onUnhandledEvent := rfl
  refine ⟨hl, fun u hu => ?_, fun hu => ?_, fun ev' hl' => ?_, fun h a m hm => ?_⟩
  · simp only [Bot.onEvent, hl, hu', hu]
  · simp only [Bot.onEvent, hl, hu', hu]
  · simp only [Bot.onEvent, Bot.OnUnhandledEvent, hl']
  · unfold Bot.processMessages at hm
    cases hr : (S.GetNextMsgs w.server accId).2.2 with
    | some err =>
      simp only [hr] at hm
      simpa using hm
    | none =>
      simp only [hr] at hm
      rw [(foldl_processMessage S accId _ _).2.2] at hm
      simp only [Bot.OnNewMsg, roundEffects, List.mem_append, List.mem_singleton, List.mem_flatten,
        List.mem_map] at hm
      rcases hm with (hm | hm) | ⟨l, ⟨id, -, rfl⟩, hm⟩
      · exact hm
      · cases hm
      · simp at hm

/-- C14 at a bot with handler 1 for `Info`, unhandled-event handler 8 and
new-message handler 7: with the handler for `Info` removed, an `Info` event
goes to 8. -/
theorem handler_slots_removable_witness :
    Bot.onEvent
        { kvWorld with bot := ((kvWorld.bot.On (.EventInfo "") 1).RemoveEventHandler (.EventInfo "")) }
        1 (.EventInfo "x")
      = { kvWorld with
          bot := ((kvWorld.bot.On (.EventInfo "") 1).RemoveEventHandler (.EventInfo "")),
          trace := [] ++ [Effect.event 8 1 (.EventInfo "x")] } :=
  (handler_slots_removable kvServer { kvWorld with bot := kvWorld.bot.On (.EventInfo "") 1 }
    (.EventInfo "") (.EventInfo "x") 1 rfl).2.1 8 rfl

theorem digitChar_eq (u : Nat) (h : u < 10) : Nat.digitChar u = Char.ofNat (48 + u) := by
  interval_cases u <;> rfl

theorem fmtDigits_eq_toDigitsCore (fuel u : Nat) (acc : Bytes) :
    fmtDigits fuel u acc = Nat.toDigitsCore 10 fuel u acc := by
  induction fuel generalizing u acc with
  | zero => rfl
  | succ fuel ih =>
    unfold fmtDigits Nat.toDigitsCore
    by_cases hu : u ≥ 10
    · have h0 : ¬ u / 10 = 0 := by omega
      simp only [hu, if_true, h0, if_false]
      rw [ih, digitChar_eq _ (Nat.mod_lt _ (by decide))]
    · have h0 : u / 10 = 0 := by omega
      have h1 : u % 10 = u := by omega
      simp only [hu, if_false, h0, if_true, h1]
      rw [digitChar_eq _ (by omega)]

theorem Sprintf_v_eq_toString (msgId : MsgId) : Sprintf_v msgId = toString msgId := by
  show String.mk (Sprintf_d (msgId : Int)) = Nat.repr msgId
  unfold Sprintf_d Nat.repr Nat.toDigits
  have h : ¬ ((msgId : Int) < 0) := by omega
  rw [if_neg h, fmtDigits_eq_toDigitsCore]
  simp [List.asString]

theorem handedIds_append (accId : AccountId) (l₁ l₂ : List Effect) :
    handedIds accId (l₁ ++ l₂) = handedIds accId l₁ ++ handedIds accId l₂ := by
  induction l₁ with
  | nil => rfl
  | cons e l₁ ih =>
    cases e with
    | rpc c => simpa [handedIds] using ih
    | event h a ev => simpa [handedIds] using ih
    | newMsg h a m =>
      by_cases ha : a = accId <;> simp [handedIds, ha, ih]

theorem writtenIds_append (accId : AccountId) (l₁ l₂ : List Effect) :
    writtenIds accId (l₁ ++ l₂) = writtenIds accId l₁ ++ writtenIds accId l₂ := by
  induction l₁ with
  | nil => rfl
  | cons e l₁ ih =>
    cases e with
    | event h a ev => simpa [writtenIds] using ih
    | newMsg h a m => simpa [writtenIds] using ih
    | rpc c =>
      cases c with
      | set_config a key value =>
        cases value with
        | none => simpa [writtenIds] using ih
        | some v =>
          by_cases ha : a = accId ∧ key = "last_msg_id" <;> simp [writtenIds, ha, ih]
      | _ => simpa [writtenIds] using ih

theorem handedIds_rounds (accId : AccountId) (h : NewMsgHandler) (ids : List MsgId) :
    handedIds accId (Effect.rpc (RpcCall.get_next_msgs accId) ::
      (ids.map (fun msgId =>
        [Effect.rpc (RpcCall.set_config accId "last_msg_id" (some (toString msgId))),
         Effect.newMsg h accId msgId])).flatten) = ids := by
  simp only [handedIds]
  induction ids with
  | nil => rfl
  | cons a ids ih => simpa [handedIds] using ih

/-- C15: in a catch-up pass in which `get_next_msgs` returns the ids `ids`
without error and a new-message handler `h` is set, the effects of the pass
are the call `get_next_msgs` and then, for each id in the order of `ids`, the
write of the decimal text of the id to `last_msg_id` of the account followed
by one call of `h` with that id; so `h` is called once per id, in order, each
call after the write of its id and before the write of the next id. -/
theorem processMessages_trace {σ : Type} (S : RpcServer σ) (w : World σ) (accId : AccountId)
    (ids : List MsgId) (h : NewMsgHandler)
    (hr : (S.GetNextMsgs w.server accId).2 = (ids, none))
    (hh : w.bot.newMsgHandler = some h) :
    (Bot.processMessages S w accId).trace =
      w.trace ++ Effect.rpc (RpcCall.get_next_msgs accId) ::
        (ids.map (fun msgId =>
          [Effect.rpc (RpcCall.set_config accId "last_msg_id" (some (toString msgId))),
           Effect.newMsg h accId msgId])).flatten ∧
    handedIds accId (Bot.processMessages S w accId).trace = handedIds accId w.trace ++ ids := by
  have ht : (Bot.processMessages S w accId).trace =
      w.trace ++ Effect.rpc (RpcCall.get_next_msgs accId) ::
        (ids.map (fun msgId =>
          [Effect.rpc (RpcCall.set_config accId "last_msg_id" (some (toString msgId))),
           Effect.newMsg h accId msgId])).flatten := by
    unfold Bot.processMessages
    have h1 : (S.GetNextMsgs w.server accId).2.2 = none := by rw [hr]
    have h2 : (S.GetNextMsgs w.server accId).2.1 = ids := by rw [hr]
    simp only [h1, h2]
    rw [(foldl_processMessage S accId _ _).2.2]
    have hf : roundEffects accId (some h) = fun msgId =>
        [Effect.rpc (RpcCall.set_config accId "last_msg_id" (some (toString msgId))),
         Effect.newMsg h accId msgId] := by
      funext m
      simp only [roundEffects, Sprintf_v_eq_toString]
    simp only [hh, hf, List.append_assoc, List.singleton_append]
  refine ⟨ht, ?_⟩
  rw [ht, handedIds_append]
  congr 1
  exact handedIds_rounds accId h ids

/-- C15 at the server with the messages 1, 2, 3 and the new-message handler
7: three calls of the handler, each after the write of its id. -/
theorem processMessages_trace_witness :
    (Bot.processMessages kvServer kvWorld 1).trace =
      [] ++ Effect.rpc (RpcCall.get_next_msgs 1) ::
        ([1, 2, 3].map (fun msgId =>
          [Effect.rpc (RpcCall.set_config 1 "last_msg_id" (some (toString msgId))),
           Effect.newMsg 7 1 msgId])).flatten ∧
    handedIds 1 (Bot.processMessages kvServer kvWorld 1).trace = handedIds 1 [] ++ [1, 2, 3] :=
  processMessages_trace kvServer kvWorld 1 [1, 2, 3] 7 (by decide) rfl

theorem configNat_Sprintf_v (msgId : MsgId) : configNat (some (Sprintf_v msgId)) = msgId := by
  have h : ¬ ((msgId : Int) < 0) := by omega
  simp only [configNat, Sprintf_v, Sprintf_d, if_neg h, Int.natAbs_ofNat]
  rw [parseDigits_fmtDigits _ _ _ (by omega)]
  rfl

theorem writtenIds_roundEffects (accId a : AccountId) (nm : Option NewMsgHandler)
    (msgId : MsgId) :
    writtenIds a (roundEffects accId nm msgId) = if accId = a then [msgId] else [] := by
  cases nm <;> by_cases h : accId = a <;>
    simp [roundEffects, writtenIds, h, configNat_Sprintf_v]

theorem kv_processMessage (accId : AccountId) (w : World KvState) (msgId : MsgId) :
    (Bot.processMessage kvServer accId w msgId).server.msgs = w.server.msgs ∧
    (Bot.processMessage kvServer accId w msgId).server.lastMsgId accId = msgId ∧
    (∀ a, a ≠ accId → (Bot.processMessage kvServer accId w msgId).server.lastMsgId a
      = w.server.lastMsgId a) ∧
    (∀ a, writtenIds a (Bot.processMessage kvServer accId w msgId).trace
      = writtenIds a w.trace ++ if accId = a then [msgId] else []) := by
  rw [processMessage_eq]
  refine ⟨rfl, ?_, ?_, ?_⟩
  · simp [kvServer, KvState.lastMsgId, configNat_Sprintf_v]
  · intro a ha
    simp [kvServer, KvState.lastMsgId, ha]
  · intro a
    simp only [writtenIds_append, writtenIds_roundEffects]

theorem getLast?_getD_cons (m d : Nat) (ids : List Nat) :
    (m :: ids).getLast?.getD d = ids.getLast?.getD m := by
  cases ids with
  | nil => rfl
  | cons b t =>
    rw [List.getLast?_cons_cons, List.getLast?_eq_getLast _ (List.cons_ne_nil b t)]
    rfl

theorem kv_foldl (accId : AccountId) (ids : List MsgId) (w : World KvState) :
    (ids.foldl (Bot.processMessage kvServer accId) w).server.msgs = w.server.msgs ∧
    (ids.foldl (Bot.processMessage kvServer accId) w).server.lastMsgId accId
      = ids.getLast?.getD (w.server.lastMsgId accId) ∧
    (∀ a, a ≠ accId → (ids.foldl (Bot.processMessage kvServer accId) w).server.lastMsgId a
      = w.server.lastMsgId a) ∧
    (∀ a, writtenIds a (ids.foldl (Bot.processMessage kvServer accId) w).trace
      = writtenIds a w.trace ++ if accId = a then ids else []) := by
  induction ids generalizing w with
  | nil => simp
  | cons m ids ih =>
    obtain ⟨h1, h2, h3, h4⟩ := ih (Bot.processMessage kvServer accId w m)
    obtain ⟨g1, g2, g3, g4⟩ := kv_processMessage accId w m
    rw [List.foldl_cons]
    refine ⟨by rw [h1, g1], ?_, ?_, ?_⟩
    · rw [h2, g2, getLast?_getD_cons]
    · intro a ha
      rw [h3 a ha, g3 a ha]
    · intro a
      rw [h4 a, g4 a]
      by_cases h : accId = a <;> simp [h]

theorem kv_processMessages (accId : AccountId) (w : World KvState) :
    Bot.processMessages kvServer w accId =
      (w.server.nextMsgs accId).foldl (Bot.processMessage kvServer accId)
        { w with trace := w.trace ++ [Effect.rpc (RpcCall.get_next_msgs accId)] } := by
  rfl

theorem nextMsgs_sorted (s : KvState) (accId : AccountId) :
    (s.nextMsgs accId).Sorted (· ≤ ·) := List.sorted_insertionSort _ _

theorem mem_nextMsgs (s : KvState) (accId : AccountId) (m : MsgId) :
    m ∈ s.nextMsgs accId ↔ m ∈ s.msgs accId ∧ s.lastMsgId accId < m := by
  simp [KvState.nextMsgs, (List.perm_insertionSort _ _).mem_iff]

theorem sorted_le_getLast (l : List Nat) (hs : l.Sorted (· ≤ ·)) (d : Nat) :
    ∀ x ∈ l, x ≤ l.getLast?.getD d := by
  induction l with
  | nil => simp
  | cons a t ih =>
    intro x hx
    have hs' := List.sorted_cons.1 hs
    cases t with
    | nil =>
      simp at hx
      simp [hx]
    | cons b t =>
      rw [List.getLast?_cons_cons]
      rcases List.mem_cons.1 hx with rfl | hx
      · exact le_trans (hs'.1 b (List.mem_cons_self _ _)) (ih hs'.2 b (List.mem_cons_self _ _))
      · exact ih hs'.2 x hx

theorem getLast?_mem (l : List Nat) (d : Nat) (hl : l ≠ []) : l.getLast?.getD d ∈ l := by
  rw [List.getLast?_eq_getLast _ hl]
  exact List.getLast_mem hl

/-- C18 as amended: against a server that returns exactly the ids greater
than `last_msg_id`, in increasing order, and stores every write, a catch-up
pass leaves nothing behind: `get_next_msgs` called right after the pass, with no
message arrived in between, returns no id and no error. -/
theorem processMessages_drains (w : World KvState) (accId : AccountId) :
    (kvServer.GetNextMsgs (Bot.processMessages kvServer w accId).server accId).2 = ([], none) := by
  have hk := kv_foldl accId (w.server.nextMsgs accId)
    { w with trace := w.trace ++ [Effect.rpc (RpcCall.get_next_msgs accId)] }
  rw [← kv_processMessages] at hk
  obtain ⟨h1, h2, -, -⟩ := hk
  show (KvState.nextMsgs _ accId, (none : Option Error)) = ([], none)
  congr 1
  apply List.eq_nil_iff_forall_not_mem.2
  intro m hm
  rw [mem_nextMsgs, h1, h2] at hm
  obtain ⟨hm1, hm2⟩ := hm
  simp only at hm1 hm2
  by_cases hl : w.server.nextMsgs accId = []
  · rw [hl] at hm2
    have : m ∈ w.server.nextMsgs accId := (mem_nextMsgs _ _ _).2 ⟨hm1, by simpa using hm2⟩
    rw [hl] at this
    exact absurd this (List.not_mem_nil _)
  · have hlast := getLast?_mem (w.server.nextMsgs accId) (w.server.lastMsgId accId) hl
    have hgt := ((mem_nextMsgs _ _ _).1 hlast).2
    have hmem : m ∈ w.server.nextMsgs accId := (mem_nextMsgs _ _ _).2 ⟨hm1, by omega⟩
    have := sorted_le_getLast _ (nextMsgs_sorted w.server accId) (w.server.lastMsgId accId) m hmem
    omega

/-- C18 as amended, at the server with the messages 1, 2, 3 on account 1. -/
theorem processMessages_drains_witness :
    (kvServer.GetNextMsgs kvWorld.server 1).2 = ([1, 2, 3], none) ∧
    (kvServer.GetNextMsgs (Bot.processMessages kvServer kvWorld 1).server 1).2 = ([], none) :=
  ⟨by decide, processMessages_drains kvWorld 1⟩

/-- C16 as stated fails: the bot writes the ids in the order in which
`get_next_msgs` returns them, ignores the error of a write and compares
nothing. Against a server whose `set_config` fails, two passes over the
messages 1, 2, 3 write 1, 2, 3 and then 1, 2, 3 again; and in one pass against
a server that returns 5 and then 3 the bot writes 5 and then 3. -/
theorem writes_not_monotone :
    writtenIds 1 (Bot.processMessages kvServerWriteFails
        (Bot.processMessages kvServerWriteFails kvWorld 1) 1).trace = [1, 2, 3, 1, 2, 3] ∧
    ¬ (writtenIds 1 (Bot.processMessages kvServerWriteFails
        (Bot.processMessages kvServerWriteFails kvWorld 1) 1).trace).Pairwise (· ≤ ·) ∧
    writtenIds 1 (Bot.processMessages unorderedServer
        (⟨NewBot, (), [], []⟩ : World Unit) 1).trace = [5, 3] ∧
    ¬ (writtenIds 1 (Bot.processMessages unorderedServer
        (⟨NewBot, (), [], []⟩ : World Unit) 1).trace).Pairwise (· ≤ ·) := by
  decide

theorem CursorInv_pass (accId a : AccountId) (w : World KvState) (h : CursorInv accId w) :
    CursorInv accId (Bot.processMessages kvServer w a) := by
  have hk := kv_foldl a (w.server.nextMsgs a)
    { w with trace := w.trace ++ [Effect.rpc (RpcCall.get_next_msgs a)] }
  rw [← kv_processMessages] at hk
  obtain ⟨-, h2, h3, h4⟩ := hk
  have h4' := h4 accId
  simp only [writtenIds_append, writtenIds, List.append_nil] at h4'
  unfold CursorInv
  rw [h4']
  by_cases ha : a = accId
  · subst ha
    simp only [if_true]
    rw [h2]
    simp only
    have hs := nextMsgs_sorted w.server a
    have hgt : ∀ y ∈ w.server.nextMsgs a, w.server.lastMsgId a < y :=
      fun y hy => ((mem_nextMsgs _ _ _).1 hy).2
    refine ⟨List.pairwise_append.2 ⟨h.1, hs, fun x hx y hy => ?_⟩, fun x hx => ?_⟩
    · exact le_of_lt (lt_of_le_of_lt (h.2 x hx) (hgt y hy))
    · rcases List.mem_append.1 hx with hx | hx
      · by_cases hl : w.server.nextMsgs a = []
        · rw [hl]
          exact h.2 x hx
        · have hlast := getLast?_mem (w.server.nextMsgs a) (w.server.lastMsgId a) hl
          exact le_of_lt (lt_of_le_of_lt (h.2 x hx) (hgt _ hlast))
      · exact sorted_le_getLast _ hs _ x hx
  · simp only [ha, if_false, List.append_nil]
    rw [h3 accId (fun h' => ha h'.symm)]
    exact h

theorem CursorInv_runPasses (accId : AccountId) (steps : List PassStep) (w : World KvState)
    (h : CursorInv accId w) : CursorInv accId (runPasses steps w) := by
  induction steps generalizing w with
  | nil => exact h
  | cons st steps ih =>
    cases st with
    | arrive a m => exact ih _ h
    | pass a => exact ih _ (CursorInv_pass accId a w h)

/-- C16 as amended: against a server that returns exactly the ids greater
than `last_msg_id`, in increasing order, and stores every write, the numbers
the bot writes to `last_msg_id` of an account in any sequence of catch-up
passes, with any messages arriving in between, are non-decreasing. -/
theorem cursor_monotone (accId : AccountId) (steps : List PassStep) (w : World KvState)
    (h0 : w.trace = []) :
    (writtenIds accId (runPasses steps w).trace).Pairwise (· ≤ ·) := by
  refine (CursorInv_runPasses accId steps w ?_).1
  simp [CursorInv, h0, writtenIds]

/-- C16 as amended, at two passes on account 1 with the message 2 arriving
a second time and the message 9 arriving in between. -/
theorem cursor_monotone_witness :
    (writtenIds 1 (runPasses [.pass 1, .arrive 1 2, .arrive 1 9, .pass 1] kvWorld).trace).Pairwise
      (· ≤ ·) :=
  cursor_monotone 1 [.pass 1, .arrive 1 2, .arrive 1 9, .pass 1] kvWorld rfl

/-- C17 fails on the code: the write of `last_msg_id` comes before the call of
the handler. On the server with the messages 1, 2, 3, a pass that is cut off
during the handler of id 2 has already stored the cursor 2; the next pass gets
the id 3 only from `get_next_msgs` and hands 3 only to the handler, so the id
2, whose handler had not completed, is not handed again. -/
theorem interrupted_id_not_redelivered :
    (kvServer.GetNextMsgs kvWorld.server 1).2 = ([1, 2, 3], none) ∧
    handedIds 1 (Bot.processMessagesCut kvServer kvWorld 1 1).trace = [1, 2] ∧
    (Bot.processMessagesCut kvServer kvWorld 1 1).server.lastMsgId 1 = 2 ∧
    (kvServer.GetNextMsgs (Bot.processMessagesCut kvServer kvWorld 1 1).server 1).2
      = ([3], none) ∧
    handedIds 1 (Bot.processMessages kvServer
        { kvWorld with server := (Bot.processMessagesCut kvServer kvWorld 1 1).server } 1).trace
      = [3] := by
  decide

theorem RunInv_init {σ : Type} (S : RpcServer σ) (results : List (Except Error _Event))
    (w : World σ) : RunInv S (successes results) w (RunState.init results w) := by
  refine ⟨?_, fun _ => rfl, fun h => ?_⟩
  · simp [RunState.init, RunState.held, RunState.ahead]
  · simp [RunState.init] at h

theorem handleAll_append {σ : Type} (S : RpcServer σ) (w : World σ)
    (l : List (AccountId × Event)) (p : AccountId × Event) :
    Bot.handleAll S w (l ++ [p]) = Bot.handleEvent S (Bot.handleAll S w l) p.1 p.2 := by
  simp [Bot.handleAll, List.foldl_append]

theorem runStep_producer_calling {σ : Type} (S : RpcServer σ)
    (results : List (Except Error _Event)) (consumer : Consumer) (world : World σ)
    (dispatched : List (AccountId × Event)) :
    Bot.runStep S .producer ⟨results, .calling, consumer, world, dispatched⟩ =
      match results with
      | [] => none
      | r :: rest =>
        match Rpc.GetNextEvent r with
        | .panicked => some ⟨rest, .panicked, consumer, world, dispatched⟩
        | .returned (.error _) => some ⟨rest, .closed, consumer, world, dispatched⟩
        | .returned (.ok evData) => some ⟨rest, .sending evData, consumer, world, dispatched⟩ := by
  cases consumer <;> rfl

theorem RunInv_producer {σ : Type} (S : RpcServer σ) (all : List (AccountId × Event))
    (w₀ : World σ) (s s' : RunState σ) (h : RunInv S all w₀ s)
    (hs : Bot.runStep S .producer s = some s') : RunInv S all w₀ s' := by
  obtain ⟨results, producer, consumer, world, dispatched⟩ := s
  obtain ⟨h1, h2, h3⟩ := h
  have hp : producer = .calling := by
    cases producer <;> cases consumer <;> simp [Bot.runStep] at hs ⊢
  subst hp
  have hc : consumer ≠ .returned := by
    intro hc
    have := (h3 hc).1
    simp at this
  rw [runStep_producer_calling] at hs
  cases results with
  | nil => simp at hs
  | cons r rest =>
    simp only [RunState.held, RunState.ahead, successes] at h1
    simp only at hs
    cases hr : Rpc.GetNextEvent r with
    | panicked =>
      simp only [hr, Option.some.injEq] at hs h1
      subst hs
      exact ⟨by simpa [RunState.held, RunState.ahead] using h1, h2, fun h => absurd h hc⟩
    | returned x =>
      cases x with
      | error e =>
        simp only [hr, Option.some.injEq] at hs h1
        subst hs
        exact ⟨by simpa [RunState.held, RunState.ahead] using h1, h2, fun h => absurd h hc⟩
      | ok p =>
        simp only [hr, Option.some.injEq] at hs h1
        subst hs
        exact ⟨by simpa [RunState.held, RunState.ahead] using h1, h2, fun h => absurd h hc⟩

theorem RunInv_consumer {σ : Type} (S : RpcServer σ) (all : List (AccountId × Event))
    (w₀ : World σ) (s s' : RunState σ) (h : RunInv S all w₀ s)
    (hs : Bot.runStep S .consumer s = some s') : RunInv S all w₀ s' := by
  obtain ⟨results, producer, consumer, world, dispatched⟩ := s
  obtain ⟨h1, h2, h3⟩ := h
  cases producer <;> cases consumer <;> simp [Bot.runStep] at hs <;> subst hs <;>
    simp only [RunState.held, RunState.ahead] at h1 <;>
    simp only [ne_eq, not_false_eq_true, forall_true_left, reduceCtorEq] at h2 <;>
    refine ⟨?_, ?_, ?_⟩ <;>
    simp [RunState.held, RunState.ahead, handleAll_append, h2] <;>
    simpa using h1

theorem RunInv_step {σ : Type} (S : RpcServer σ) (all : List (AccountId × Event))
    (w₀ : World σ) (t : Thread) (s s' : RunState σ) (h : RunInv S all w₀ s)
    (hs : Bot.runStep S t s = some s') : RunInv S all w₀ s' := by
  cases t with
  | producer => exact RunInv_producer S all w₀ s s' h hs
  | consumer => exact RunInv_consumer S all w₀ s s' h hs

theorem RunInv_steps {σ : Type} (S : RpcServer σ) (all : List (AccountId × Event))
    (w₀ : World σ) (sched : List Thread) (s : RunState σ) (h : RunInv S all w₀ s) :
    RunInv S all w₀ (Bot.runSteps S sched s) := by
  induction sched generalizing s with
  | nil => exact h
  | cons t ts ih =>
    unfold Bot.runSteps
    cases hs : Bot.runStep S t s with
    | none => exact ih s h
    | some s' => exact ih s' (RunInv_step S all w₀ t s s' h hs)

theorem handleAll_cons {σ : Type} (S : RpcServer σ) (w : World σ)
    (p : AccountId × Event) (l : List (AccountId × Event)) :
    Bot.handleAll S w (p :: l) = Bot.handleAll S (Bot.handleEvent S w p.1 p.2) l := rfl

/-- The loop `runLoop`, which `Run` is defined with, is the two goroutines run
to the end: on events that all carry a payload it returns nil and leaves the
bot stopped after the loop body has handled the decoded events in turn. -/
theorem runLoop_eq_handleAll {σ : Type} (S : RpcServer σ) (events : List _Event) (w : World σ)
    (h : ∀ e ∈ events, e.Event ≠ none) :
    Bot.runLoop S events w
      = (.returned none, Bot.Stop (Bot.handleAll S w (successes (events.map .ok)))) := by
  induction events generalizing w with
  | nil => rfl
  | cons e es ih =>
    obtain ⟨acc, payload⟩ := e
    cases payload with
    | none => exact absurd rfl (h _ (List.mem_cons_self _ _))
    | some d =>
      have := ih (Bot.handleEvent S w acc d.ToEvent)
        (fun e he => h e (List.mem_cons_of_mem _ he))
      simpa [Bot.runLoop, Rpc.GetNextEvent, successes, handleAll_cons, Bot.handleEvent] using this

theorem ToEvent_eventType_aux (d : _EventData) (h : d.Kind ∈ catalogueKinds) :
    d.ToEvent.eventType = d.Kind := by
  obtain ⟨kind, msg, file, chatId, msgId, contactId, msgIds, timer, progress, comment, path,
    sus, key⟩ := d
  simp only [catalogueKinds, catalogue, List.map, List.mem_cons, List.mem_nil_iff,
    List.mem_singleton, or_false] at h
  rcases h with h | h | h | h | h | h | h | h | h | h | h | h | h | h | h | h | h | h |
    h | h | h | h | h | h | h | h | h | h | h | h | h | h | h | h | h | h <;>
  subst h <;> rfl

theorem ToEvent_IncomingMsg_iff (d : _EventData) :
    d.ToEvent.eventType = eventTypeIncomingMsg ↔ d.Kind = "IncomingMsg" := by
  by_cases h : d.Kind ∈ catalogueKinds
  · rw [ToEvent_eventType_aux d h]
    rfl
  · rw [ToEvent_unknown_aux d h]
    constructor
    · intro h'
      simp [Event.eventType, eventTypeUnknown, eventTypeIncomingMsg] at h'
    · intro h'
      exact absurd (h' ▸ (by decide : "IncomingMsg" ∈ catalogueKinds)) h

theorem processMessages_trace_head {σ : Type} (S : RpcServer σ) (w : World σ)
    (accId : AccountId) :
    ∃ rest, (Bot.processMessages S w accId).trace
      = w.trace ++ Effect.rpc (RpcCall.get_next_msgs accId) :: rest := by
  unfold Bot.processMessages
  cases hr : (S.GetNextMsgs w.server accId).2.2 with
  | some err => exact ⟨[], by simp only [hr]⟩
  | none =>
    simp only [hr]
    rw [(foldl_processMessage S accId _ _).2.2]
    exact ⟨_, by rw [List.append_assoc]; rfl⟩

/-- C20: the body of the run loop dispatches the event and then makes a
catch-up pass exactly when the kind of the event is `IncomingMsg` (for a
decoded wire record: exactly when its kind is the string `IncomingMsg`). The
pass is on the account of the event; its first effect, the call
`get_next_msgs` for that account, comes right after the effects of the
dispatch, which are handler calls only; and the next event is handled from
the state the body leaves. -/
theorem catchUp_iff_IncomingMsg {σ : Type} (S : RpcServer σ) (w : World σ) (accId : AccountId)
    (ev : Event) (d : _EventData) (es : List _Event) :
    (ev.eventType = eventTypeIncomingMsg ↔ ∃ c m, ev = .EventIncomingMsg c m) ∧
    (d.ToEvent.eventType = eventTypeIncomingMsg ↔ d.Kind = "IncomingMsg") ∧
    (ev.eventType = eventTypeIncomingMsg →
      Bot.handleEvent S w accId ev = Bot.processMessages S (Bot.onEvent w accId ev) accId ∧
      ∃ rest, (Bot.handleEvent S w accId ev).trace
        = (Bot.onEvent w accId ev).trace ++ Effect.rpc (RpcCall.get_next_msgs accId) :: rest) ∧
    (ev.eventType ≠ eventTypeIncomingMsg →
      Bot.handleEvent S w accId ev = Bot.onEvent w accId ev) ∧
    (∃ l, (Bot.onEvent w accId ev).trace = w.trace ++ l ∧
      ∀ x ∈ l, ∃ h, x = Effect.event h accId ev) ∧
    Bot.runLoop S (⟨accId, some d⟩ :: es) w
      = Bot.runLoop S es (Bot.handleEvent S w accId d.ToEvent) := by
  refine ⟨?_, ToEvent_IncomingMsg_iff d, fun h => ?_, fun h => ?_, ?_, rfl⟩
  · constructor
    · intro h
      cases ev <;>
        first
        | exact ⟨_, _, rfl⟩
        | (exfalso; revert h; simp only [Event.eventType]; decide)
    · rintro ⟨c, m, rfl⟩
      rfl
  · have he : Bot.handleEvent S w accId ev
        = Bot.processMessages S (Bot.onEvent w accId ev) accId := by
      simp only [Bot.handleEvent, h, if_true]
    exact ⟨he, by rw [he]; exact processMessages_trace_head S _ accId⟩
  · simp only [Bot.handleEvent, h, if_false]
  · unfold Bot.onEvent
    cases w.bot.handlerMap.lookup ev.eventType with
    | some h => exact ⟨[Effect.event h accId ev], rfl, by simp⟩
    | none =>
      cases w.bot.onUnhandledEvent with
      | some u => exact ⟨[Effect.event u accId ev], rfl, by simp⟩
      | none => exact ⟨[], by simp, by simp⟩

/-- C20 at an `IncomingMsg` event of account 2 and at an `Info` event, for a
bot whose unhandled-event handler is 8. -/
theorem catchUp_iff_IncomingMsg_witness :
    (Bot.handleEvent kvServer kvWorld 1 (.EventIncomingMsg 3 4)
      = Bot.processMessages kvServer (Bot.onEvent kvWorld 1 (.EventIncomingMsg 3 4)) 1 ∧
     ∃ rest, (Bot.handleEvent kvServer kvWorld 1 (.EventIncomingMsg 3 4)).trace
        = (Bot.onEvent kvWorld 1 (.EventIncomingMsg 3 4)).trace ++
          Effect.rpc (RpcCall.get_next_msgs 1) :: rest) ∧
    Bot.handleEvent kvServer kvWorld 1 (.EventInfo "x") = Bot.onEvent kvWorld 1 (.EventInfo "x") :=
  ⟨(catchUp_iff_IncomingMsg kvServer kvWorld 1 (.EventIncomingMsg 3 4)
      ⟨"", "", "", 0, 0, 0, [], 0, 0, "", "", 0, ""⟩ []).2.2.1 rfl,
   (catchUp_iff_IncomingMsg kvServer kvWorld 1 (.EventInfo "x")
      ⟨"", "", "", 0, 0, 0, [], 0, 0, "", "", 0, ""⟩ []).2.2.2.1 (by decide)⟩

end deltachat

namespace deltachat

theorem passAccounts_append (l₁ l₂ : List Effect) :
    passAccounts (l₁ ++ l₂) = passAccounts l₁ ++ passAccounts l₂ := by
  induction l₁ with
  | nil => rfl
  | cons e l ih =>
    cases e with
    | rpc c => cases c <;> simp [passAccounts, ih]
    | event h a ev => simp [passAccounts, ih]
    | newMsg h a m => simp [passAccounts, ih]

theorem passAccounts_rounds (accId : AccountId) (nm : Option NewMsgHandler) (ids : List MsgId) :
    passAccounts (ids.map (roundEffects accId nm)).flatten = [] ∧
    ∀ h a e, Effect.event h a e ∉ (ids.map (roundEffects accId nm)).flatten := by
  induction ids with
  | nil => simp [passAccounts]
  | cons m ids ih =>
    rw [List.map_cons, List.flatten_cons, passAccounts_append, ih.1]
    refine ⟨?_, fun h a e hm => ?_⟩
    · cases nm <;> simp [roundEffects, passAccounts]
    · rw [List.mem_append] at hm
      rcases hm with hm | hm
      · cases nm <;> simp [roundEffects] at hm
      · exact ih.2 h a e hm

theorem processMessages_pass {σ : Type} (S : RpcServer σ) (w : World σ) (accId : AccountId) :
    ∃ rest, (Bot.processMessages S w accId).trace
        = w.trace ++ Effect.rpc (RpcCall.get_next_msgs accId) :: rest ∧
      passAccounts rest = [] ∧ (∀ h a e, Effect.event h a e ∉ rest) ∧
      (Bot.processMessages S w accId).bot = w.bot ∧
      (Bot.processMessages S w accId).ctxs = w.ctxs := by
  unfold Bot.processMessages
  cases hr : (S.GetNextMsgs w.server accId).2.2 with
  | some err => exact ⟨[], by simp only [hr], rfl, by simp, by simp only [hr], by simp only [hr]⟩
  | none =>
    simp only [hr]
    obtain ⟨h1, h2, h3⟩ := foldl_processMessage S accId (S.GetNextMsgs w.server accId).2.1
      { w with server := (S.GetNextMsgs w.server accId).1,
               trace := w.trace ++ [Effect.rpc (RpcCall.get_next_msgs accId)] }
    refine ⟨((S.GetNextMsgs w.server accId).2.1.map
        (roundEffects accId w.bot.newMsgHandler)).flatten, ?_,
      (passAccounts_rounds accId w.bot.newMsgHandler _).1,
      (passAccounts_rounds accId w.bot.newMsgHandler _).2, h1, h2⟩
    rw [h3, List.append_assoc]
    rfl

theorem catchUp_step {σ : Type} (S : RpcServer σ) (w : World σ) (a : AccountId) :
    ∃ seg,
      (if (S.IsConfigured w.server a).2.1 then Bot.processMessages S
          { w with server := (S.IsConfigured w.server a).1,
                   trace := w.trace ++ [Effect.rpc (RpcCall.is_configured a)] } a
        else { w with server := (S.IsConfigured w.server a).1,
                      trace := w.trace ++ [Effect.rpc (RpcCall.is_configured a)] }).trace
        = w.trace ++ Effect.rpc (RpcCall.is_configured a) :: seg ∧
      passAccounts seg = (if (S.IsConfigured w.server a).2.1 then [a] else []) ∧
      (∀ h x e, Effect.event h x e ∉ seg) := by
  cases hc : (S.IsConfigured w.server a).2.1 with
  | false => exact ⟨[], by simp, by simp [passAccounts], by simp⟩
  | true =>
    obtain ⟨rest, p1, p2, p3, _, _⟩ := processMessages_pass S
      { w with server := (S.IsConfigured w.server a).1,
               trace := w.trace ++ [Effect.rpc (RpcCall.is_configured a)] } a
    refine ⟨Effect.rpc (RpcCall.get_next_msgs a) :: rest, ?_, ?_, ?_⟩
    · simp only [if_true]
      rw [p1, List.append_assoc]
      rfl
    · simp [passAccounts, p2]
    · intro h x e hm
      rcases List.mem_cons.1 hm with hm | hm
      · cases hm
      · exact p3 h x e hm

theorem catchUp_fold {σ : Type} (S : RpcServer σ) (conf : AccountId → Bool)
    (hconf : ∀ s a, (S.IsConfigured s a).2.1 = conf a) (ids : List AccountId) (w : World σ) :
    ∃ added,
      (ids.foldl (fun w accId =>
        let c := S.IsConfigured w.server accId
        let w := { w with server := c.1,
                          trace := w.trace ++ [Effect.rpc (RpcCall.is_configured accId)] }
        if c.2.1 then Bot.processMessages S w accId else w) w).trace = w.trace ++ added ∧
      passAccounts added = ids.filter conf ∧ (∀ h a e, Effect.event h a e ∉ added) := by
  induction ids generalizing w with
  | nil => exact ⟨[], by simp, rfl, by simp⟩
  | cons a ids ih =>
    obtain ⟨seg, s1, s2, s3⟩ := catchUp_step S w a
    obtain ⟨added, h1, h2, h3⟩ := ih
      (if (S.IsConfigured w.server a).2.1 then Bot.processMessages S
          { w with server := (S.IsConfigured w.server a).1,
                   trace := w.trace ++ [Effect.rpc (RpcCall.is_configured a)] } a
        else { w with server := (S.IsConfigured w.server a).1,
                      trace := w.trace ++ [Effect.rpc (RpcCall.is_configured a)] })
    refine ⟨Effect.rpc (RpcCall.is_configured a) :: seg ++ added, ?_, ?_, ?_⟩
    · rw [List.foldl_cons]
      refine h1.trans ?_
      rw [s1]
      simp
    · have : passAccounts (Effect.rpc (RpcCall.is_configured a) :: seg ++ added)
          = passAccounts (seg ++ added) := rfl
      rw [this, passAccounts_append, s2, h2, hconf]
      cases hc : conf a <;> simp [hc]
    · intro h x e hm
      simp only [List.cons_append, List.mem_cons, List.mem_append] at hm
      rcases hm with hm | hm | hm
      · cases hm
      · exact s3 h x e hm
      · exact h3 h x e hm

/-- C21: a `Run` of a bot that is not running goes, after its head, through
the start-up and then the two loops. The start-up calls
`start_io_for_all_accounts`, then `get_all_account_ids`, and then makes its
catch-up passes: against a server whose answer to `is_configured` is `conf`
and is false when the query fails, the accounts of the passes are the ids
that `get_all_account_ids` returned and `conf` holds for, each once per
occurrence and in the order returned; there is no pass for an account whose
query fails; no event handler is called in the start-up; and whatever
`start_io_for_all_accounts` and `get_all_account_ids` return, also an error,
`Run` returns nil once the event calls end, when every record carries an
event. -/
theorem Run_catchUp {σ : Type} (S : RpcServer σ) (conf : AccountId → Bool)
    (events : List _Event) (w w' : World σ)
    (hconf : ∀ s a, (S.IsConfigured s a).2.1 = conf a)
    (hfail : ∀ s a, (S.IsConfigured s a).2.2 ≠ none → (S.IsConfigured s a).2.1 = false)
    (hb : Bot.runBegin w = .ok w') :
    Bot.Run S events w = Bot.runLoop S events (Bot.runCatchUp S w') ∧
    (∃ added,
      (Bot.runCatchUp S w').trace
        = w.trace ++ Effect.rpc RpcCall.start_io_for_all_accounts ::
            Effect.rpc RpcCall.get_all_account_ids :: added ∧
      passAccounts added
        = (S.GetAllAccountIds (S.StartIoForAllAccounts w.server).1).2.1.filter conf ∧
      (∀ a, conf a = false → a ∉ passAccounts added) ∧
      (∀ s a, (S.IsConfigured s a).2.2 ≠ none → a ∉ passAccounts added) ∧
      (∀ h a e, Effect.event h a e ∉ added)) ∧
    ((∀ e ∈ events, e.Event ≠ none) → (Bot.Run S events w).1 = .returned none) := by
  have hw : w'.server = w.server ∧ w'.trace = w.trace := by
    unfold Bot.runBegin at hb
    split at hb
    · cases hb
    · simp only [Except.ok.injEq] at hb
      subst hb
      exact ⟨rfl, rfl⟩
  have hR : Bot.Run S events w = Bot.runLoop S events (Bot.runCatchUp S w') := by
    simp only [Bot.Run, hb]
  refine ⟨hR, ?_, fun he => ?_⟩
  · obtain ⟨added, h1, h2, h3⟩ := catchUp_fold S conf hconf
      (S.GetAllAccountIds (S.StartIoForAllAccounts w'.server).1).2.1
      { w' with server := (S.GetAllAccountIds (S.StartIoForAllAccounts w'.server).1).1,
                trace := (w'.trace ++ [Effect.rpc RpcCall.start_io_for_all_accounts]) ++
                  [Effect.rpc RpcCall.get_all_account_ids] }
    have hf : ∀ a, conf a = false → a ∉ passAccounts added := by
      intro a ha hm
      rw [h2, List.mem_filter] at hm
      rw [ha] at hm
      exact Bool.false_ne_true hm.2
    refine ⟨added, ?_, ?_, hf, fun s a hs => hf a ?_, h3⟩
    · unfold Bot.runCatchUp
      rw [h1, hw.2]
      simp
    · rw [h2, hw.1]
    · rw [← hconf s a]
      exact hfail s a hs
  · rw [hR, runLoop_eq_handleAll S events _ he]

/-- C21 at a new bot and `mixedServer`: the passes are for the accounts 1
and 4, in that order, and `Run` returns nil. -/
theorem Run_catchUp_witness :
    passAccounts (Bot.runCatchUp mixedServer
      { bot := { NewBot with ctx := some 0 }, server := (), ctxs := [false], trace := [] }).trace
      = [1, 4] ∧
    (Bot.Run mixedServer [⟨1, some ⟨"Info", "m", "", 0, 0, 0, [], 0, 0, "", "", 0, ""⟩⟩] ⟨NewBot, (), [], []⟩).1
      = .returned none := by
  have h := Run_catchUp mixedServer (fun a => decide (a = 1 ∨ a = 4))
    [⟨1, some ⟨"Info", "m", "", 0, 0, 0, [], 0, 0, "", "", 0, ""⟩⟩] ⟨NewBot, (), [], []⟩
    { bot := { NewBot with ctx := some 0 }, server := (), ctxs := [false], trace := [] }
    (fun _ _ => rfl)
    (fun _ a => by
      by_cases h3 : a = 3
      · subst h3; intro _; rfl
      · intro hne; exact absurd (if_neg h3) hne)
    rfl
  refine ⟨?_, h.2.2 (by simp)⟩
  obtain ⟨added, h1, h2, -⟩ := h.2.1
  rw [h1]
  simpa [passAccounts] using h2

theorem successes_okResult (oks : List (AccountId × _EventData)) (e : Error)
    (rest : List (Except Error _Event)) :
    successes (oks.map okResult ++ .error e :: rest) = oks.map (fun p => (p.1, p.2.ToEvent)) ∧
    fails (oks.map okResult ++ .error e :: rest) = true := by
  induction oks with
  | nil => exact ⟨rfl, rfl⟩
  | cons p oks ih =>
    simp only [List.map_cons, List.cons_append, successes, fails, okResult, Rpc.GetNextEvent]
    exact ⟨by rw [← ih.1]; rfl, ih.2⟩

theorem IsRunning_Stop {σ : Type} (w : World σ) : Bot.IsRunning (Bot.Stop w) = false := by
  unfold Bot.IsRunning Bot.Stop
  cases hl : ctxLive w.bot.ctx w.ctxs with
  | false => simpa using hl
  | true =>
    cases hc : w.bot.ctx with
    | none => simp [hc, ctxLive] at hl
    | some h => simp [hc, ctxLive_cancelCtx]

theorem runStep_live {σ : Type} (S : RpcServer σ) (t : Thread) (s s' : RunState σ)
    (hl : s.live = true) (hs : Bot.runStep S t s = some s') :
    s'.live = true ∧ s'.stepsLeft < s.stepsLeft := by
  obtain ⟨results, producer, consumer, world, dispatched⟩ := s
  cases t with
  | producer =>
    have hp : producer = .calling := by
      cases producer <;> cases consumer <;> simp [Bot.runStep] at hs ⊢
    subst hp
    rw [runStep_producer_calling] at hs
    cases results with
    | nil => simp at hs
    | cons r rest =>
      simp only [RunState.live, fails] at hl
      simp only at hs
      cases hr : Rpc.GetNextEvent r with
      | panicked => simp [hr] at hl
      | returned x =>
        cases x with
        | error e =>
          simp only [hr, Option.some.injEq] at hs
          subst hs
          simp [RunState.live, RunState.stepsLeft]
        | ok p =>
          simp only [hr, Option.some.injEq] at hs hl
          subst hs
          simp only [RunState.live, RunState.stepsLeft, successes, hr, List.length_cons]
          exact ⟨hl, by omega⟩
  | consumer =>
    cases producer <;> cases consumer <;> simp [Bot.runStep] at hs <;> subst hs <;>
      simp only [RunState.live] at hl <;>
      simp [RunState.live, RunState.stepsLeft, hl]

theorem runStep_consumer_returned {σ : Type} (S : RpcServer σ) (t : Thread) (s s' : RunState σ)
    (hc : s.consumer = .returned) (hs : Bot.runStep S t s = some s') :
    s'.consumer = .returned := by
  obtain ⟨results, producer, consumer, world, dispatched⟩ := s
  simp only at hc
  subst hc
  cases t with
  | producer =>
    cases producer <;> simp [Bot.runStep] at hs
    revert hs
    cases results with
    | nil => simp
    | cons r rest =>
      simp only
      cases Rpc.GetNextEvent r with
      | panicked => simp; rintro rfl; rfl
      | returned x => cases x <;> simp <;> rintro rfl <;> rfl
  | consumer => cases producer <;> simp [Bot.runStep] at hs

theorem runSteps_consumer_returned {σ : Type} (S : RpcServer σ) (sched : List Thread)
    (s : RunState σ) (hc : s.consumer = .returned) :
    (Bot.runSteps S sched s).consumer = .returned := by
  induction sched generalizing s with
  | nil => exact hc
  | cons t ts ih =>
    unfold Bot.runSteps
    cases hs : Bot.runStep S t s with
    | none => exact ih s hc
    | some s' => exact ih s' (runStep_consumer_returned S t s s' hc hs)

theorem runStep_stuck {σ : Type} (S : RpcServer σ) (s : RunState σ) (hl : s.live = true)
    (hp : Bot.runStep S .producer s = none) :
    s.consumer = .returned ∨ Bot.runStep S .consumer s ≠ none := by
  obtain ⟨results, producer, consumer, world, dispatched⟩ := s
  cases producer with
  | calling =>
    rw [runStep_producer_calling] at hp
    cases results with
    | nil => simp [RunState.live, fails] at hl
    | cons r rest =>
      simp only at hp
      cases hr : Rpc.GetNextEvent r with
      | panicked => simp [hr] at hp
      | returned x => cases x <;> simp [hr] at hp
  | sending p => cases consumer <;> simp [Bot.runStep]
  | closed => cases consumer <;> simp [Bot.runStep]
  | panicked => simp [RunState.live] at hl

theorem runSteps_returns {σ : Type} (S : RpcServer σ) (sched : List Thread) (s : RunState σ)
    (hl : s.live = true) :
    (s.stepsLeft ≤ fairRounds false sched → (Bot.runSteps S sched s).consumer = .returned) ∧
    (s.stepsLeft ≤ fairRounds true sched →
      (Bot.runStep S .consumer s ≠ none ∨ s.stepsLeft < fairRounds true sched) →
      (Bot.runSteps S sched s).consumer = .returned) := by
  have hz : ∀ s : RunState σ, s.stepsLeft ≤ 0 → s.consumer = .returned := by
    intro s h0
    obtain ⟨results, producer, consumer, world, dispatched⟩ := s
    cases consumer <;> simp [RunState.stepsLeft] at h0 ⊢
  induction sched generalizing s with
  | nil => exact ⟨fun h => hz s h, fun h _ => hz s h⟩
  | cons t ts ih =>
    by_cases hret : s.consumer = .returned
    · exact ⟨fun _ => runSteps_consumer_returned S _ s hret,
        fun _ _ => runSteps_consumer_returned S _ s hret⟩
    cases t with
    | producer =>
      simp only [fairRounds, Bot.runSteps]
      cases hs : Bot.runStep S .producer s with
      | none =>
        simp only
        refine ⟨fun h => (ih s hl).2 h ?_, fun h h' => (ih s hl).2 h h'⟩
        rcases runStep_stuck S s hl hs with hc | hc
        · exact absurd hc hret
        · exact Or.inl hc
      | some s' =>
        simp only
        obtain ⟨hl', hd⟩ := runStep_live S .producer s s' hl hs
        exact ⟨fun h => (ih s' hl').2 (by omega) (Or.inr (by omega)),
          fun h _ => (ih s' hl').2 (by omega) (Or.inr (by omega))⟩
    | consumer =>
      simp only [fairRounds, Bot.runSteps]
      cases hs : Bot.runStep S .consumer s with
      | none =>
        simp only
        refine ⟨fun h => (ih s hl).1 h, fun h h' => (ih s hl).1 ?_⟩
        rcases h' with h' | h'
        · exact absurd rfl h'
        · omega
      | some s' =>
        simp only
        obtain ⟨hl', hd⟩ := runStep_live S .consumer s s' hl hs
        exact ⟨fun h => (ih s' hl').1 (by omega), fun h _ => (ih s' hl').1 (by omega)⟩

theorem Run_not_running {σ : Type} (S : RpcServer σ) (events : List _Event) (w : World σ)
    (hr : Bot.IsRunning w = false) (he : ∀ e ∈ events, e.Event ≠ none) :
    (Bot.Run S events w).1 = .returned none ∧ Bot.IsRunning (Bot.Run S events w).2 = false := by
  unfold Bot.IsRunning at hr
  simp only [Bot.Run, Bot.runBegin, hr, Bool.false_eq_true, if_false]
  rw [runLoop_eq_handleAll S events _ he]
  exact ⟨rfl, IsRunning_Stop _⟩

/-- C22: let the successive `get_next_event` calls of a `Run` return the
pairs of `oks` and then fail with `e`. However the two goroutines are
scheduled, the pairs dispatched are the first of `oks`, in order, so nothing
that a call after the failing one would return is dispatched; and once the
schedule has given the producer and after it the consumer a turn
`3 * oks.length + 2` times, `Run` has returned, every pair of `oks` has been
dispatched and no other, and the bot is stopped: `IsRunning` returns false.
`Run` itself, on a bot that is not running, returns nil and not an error, and
leaves the bot stopped. -/
theorem Run_ends_on_failure {σ : Type} (S : RpcServer σ) (oks : List (AccountId × _EventData))
    (e : Error) (rest : List (Except Error _Event)) (w : World σ) (sched : List Thread) :
    (Bot.runSteps S sched (RunState.init (oks.map okResult ++ .error e :: rest) w)).dispatched
      <+: oks.map (fun p => (p.1, p.2.ToEvent)) ∧
    (3 * oks.length + 2 ≤ fairRounds false sched →
      (Bot.runSteps S sched (RunState.init (oks.map okResult ++ .error e :: rest) w)).consumer
        = .returned ∧
      (Bot.runSteps S sched (RunState.init (oks.map okResult ++ .error e :: rest) w)).dispatched
        = oks.map (fun p => (p.1, p.2.ToEvent)) ∧
      (Bot.runSteps S sched (RunState.init (oks.map okResult ++ .error e :: rest) w)).world
        = Bot.Stop (Bot.handleAll S w (oks.map (fun p => (p.1, p.2.ToEvent)))) ∧
      Bot.IsRunning
        (Bot.runSteps S sched (RunState.init (oks.map okResult ++ .error e :: rest) w)).world
        = false) ∧
    (Bot.IsRunning w = false →
      (Bot.Run S (oks.map (fun p => ⟨p.1, some p.2⟩)) w).1 = .returned none ∧
      Bot.IsRunning (Bot.Run S (oks.map (fun p => ⟨p.1, some p.2⟩)) w).2 = false) := by
  obtain ⟨hsucc, hfails⟩ := successes_okResult oks e rest
  obtain ⟨h1, h2, h3⟩ := RunInv_steps S (successes (oks.map okResult ++ .error e :: rest)) w
    sched _ (RunInv_init S (oks.map okResult ++ .error e :: rest) w)
  rw [hsucc] at h1
  refine ⟨⟨_, by rw [← List.append_assoc]; exact h1⟩, fun hf => ?_, fun hr => ?_⟩
  · have hret := (runSteps_returns S sched
      (RunState.init (oks.map okResult ++ .error e :: rest) w) hfails).1
      (by simpa [RunState.stepsLeft, RunState.init, hsucc] using hf)
    obtain ⟨hp, hw⟩ := h3 hret
    have hd : (Bot.runSteps S sched
        (RunState.init (oks.map okResult ++ .error e :: rest) w)).dispatched
        = oks.map (fun p => (p.1, p.2.ToEvent)) := by
      simpa [RunState.held, RunState.ahead, hp, hret] using h1
    rw [hd] at hw
    exact ⟨hret, hd, hw, by rw [hw]; exact IsRunning_Stop _⟩
  · refine Run_not_running S _ w hr (fun ev hev => ?_)
    obtain ⟨p, _, rfl⟩ := List.mem_map.1 hev
    exact Option.some_ne_none _

/-- C22 at two events followed by a failing call and an event never fetched,
with the goroutines taking turns eight times: `Run` has returned, the two
events are dispatched and the bot is stopped. -/
theorem Run_ends_on_failure_witness :
    (Bot.runSteps idleServer
        [.producer, .consumer, .producer, .consumer, .producer, .consumer, .producer, .consumer,
         .producer, .consumer, .producer, .consumer, .producer, .consumer, .producer, .consumer]
        (RunState.init sampleResults runningWorld)).dispatched
      = [(1, .EventInfo "x"), (2, .EventIncomingMsg 3 4)] ∧
    Bot.IsRunning (Bot.runSteps idleServer
        [.producer, .consumer, .producer, .consumer, .producer, .consumer, .producer, .consumer,
         .producer, .consumer, .producer, .consumer, .producer, .consumer, .producer, .consumer]
        (RunState.init sampleResults runningWorld)).world = false :=
  ⟨((Run_ends_on_failure idleServer
      [(1, ⟨"Info", "x", "", 0, 0, 0, [], 0, 0, "", "", 0, ""⟩),
       (2, ⟨"IncomingMsg", "", "", 3, 4, 0, [], 0, 0, "", "", 0, ""⟩)]
      "context canceled" [.ok ⟨3, some ⟨"Info", "y", "", 0, 0, 0, [], 0, 0, "", "", 0, ""⟩⟩]
      runningWorld
      [.producer, .consumer, .producer, .consumer, .producer, .consumer, .producer, .consumer,
       .producer, .consumer, .producer, .consumer, .producer, .consumer, .producer, .consumer]).2.1
      (by decide)).2.1,
   ((Run_ends_on_failure idleServer
      [(1, ⟨"Info", "x", "", 0, 0, 0, [], 0, 0, "", "", 0, ""⟩),
       (2, ⟨"IncomingMsg", "", "", 3, 4, 0, [], 0, 0, "", "", 0, ""⟩)]
      "context canceled" [.ok ⟨3, some ⟨"Info", "y", "", 0, 0, 0, [], 0, 0, "", "", 0, ""⟩⟩]
      runningWorld
      [.producer, .consumer, .producer, .consumer, .producer, .consumer, .producer, .consumer,
       .producer, .consumer, .producer, .consumer, .producer, .consumer, .producer, .consumer]).2.1
      (by decide)).2.2.2⟩

theorem WaitForEvent_skip (pre : List (AccountId × _EventData))
    (results : List (Except Error _Event)) (accId : AccountId) (exemplar : Event)
    (hpre : ∀ p ∈ pre, ¬ (p.1 = accId ∧ p.2.ToEvent.eventType = exemplar.eventType)) :
    AcFactory.WaitForEvent (pre.map okResult ++ results) accId exemplar
      = AcFactory.WaitForEvent results accId exemplar := by
  induction pre with
  | nil => rfl
  | cons p pre ih =>
    have hp := hpre p (List.mem_cons_self _ _)
    rw [List.map_cons, List.cons_append, AcFactory.WaitForEvent]
    simp only [okResult, Rpc.GetNextEvent]
    by_cases ha : accId = p.1
    · have ht : ¬ p.2.ToEvent.eventType = exemplar.eventType := fun h => hp ⟨ha.symm, h⟩
      simp only [ha, ne_eq, not_true_eq_false, if_false, ht]
      rw [← ha]
      exact ih (fun q hq => hpre q (List.mem_cons_of_mem _ hq))
    · simp only [ne_eq, ha, not_false_eq_true, if_true]
      exact ih (fun q hq => hpre q (List.mem_cons_of_mem _ hq))

theorem WaitForEvent_sound (results : List (Except Error _Event)) (accId : AccountId)
    (exemplar ev : Event) (rest : List (Except Error _Event))
    (h : AcFactory.WaitForEvent results accId exemplar = .returned ev rest) :
    ∃ pre d, results = pre ++ okResult (accId, d) :: rest ∧ ev = d.ToEvent ∧
      ev.eventType = exemplar.eventType ∧
      ∀ r ∈ pre, ∃ p : AccountId × _EventData, r = okResult p ∧
        ¬ (p.1 = accId ∧ p.2.ToEvent.eventType = exemplar.eventType) := by
  induction results with
  | nil => simp [AcFactory.WaitForEvent] at h
  | cons r results ih =>
    rw [AcFactory.WaitForEvent] at h
    cases r with
    | error e => simp [Rpc.GetNextEvent] at h
    | ok rec =>
      obtain ⟨acc, payload⟩ := rec
      cases payload with
      | none => simp [Rpc.GetNextEvent] at h
      | some d =>
        simp only [Rpc.GetNextEvent] at h
        by_cases ha : accId = acc
        · by_cases ht : d.ToEvent.eventType = exemplar.eventType
          · simp only [ha, ne_eq, not_true_eq_false, if_false, ht, if_true,
              WaitResult.returned.injEq] at h
            obtain ⟨rfl, rfl⟩ := h
            exact ⟨[], d, by simp [okResult, ha], rfl, ht, by simp⟩
          · simp only [ha, ne_eq, not_true_eq_false, if_false, ht] at h
            rw [← ha] at h
            obtain ⟨pre, d', h1, h2, h3, h4⟩ := ih h
            refine ⟨.ok ⟨acc, some d⟩ :: pre, d', by rw [h1]; rfl, h2, h3, ?_⟩
            intro r hr
            rcases List.mem_cons.1 hr with hr | hr
            · exact ⟨(acc, d), hr, fun hc => ht hc.2⟩
            · exact h4 r hr
        · simp only [ne_eq, ha, not_false_eq_true, if_true] at h
          obtain ⟨pre, d', h1, h2, h3, h4⟩ := ih h
          refine ⟨.ok ⟨acc, some d⟩ :: pre, d', by rw [h1]; rfl, h2, h3, ?_⟩
          intro r hr
          rcases List.mem_cons.1 hr with hr | hr
          · exact ⟨(acc, d), hr, fun hc => ha hc.1.symm⟩
          · exact h4 r hr

/-- C23: when the successive `get_next_event` calls return the pairs `pre`,
none of which has both the account `accId` and the kind tag of the exemplar,
and then a pair of account `accId` whose event has the kind tag of the
exemplar, `WaitForEvent` returns the event of that pair and has made no call
beyond it, so every pair of `pre` is discarded. And whatever the calls return,
an event that `WaitForEvent` returns is the event of a pair of account `accId`
with the kind tag of the exemplar, before which every call returned a pair
that did not have both: an event of another account is never returned. -/
theorem WaitForEvent_first (pre : List (AccountId × _EventData)) (accId : AccountId)
    (d : _EventData) (exemplar : Event) (rest : List (Except Error _Event))
    (hpre : ∀ p ∈ pre, ¬ (p.1 = accId ∧ p.2.ToEvent.eventType = exemplar.eventType))
    (hd : d.ToEvent.eventType = exemplar.eventType) :
    AcFactory.WaitForEvent (pre.map okResult ++ okResult (accId, d) :: rest) accId exemplar
      = .returned d.ToEvent rest ∧
    (∀ results ev rest', AcFactory.WaitForEvent results accId exemplar = .returned ev rest' →
      ∃ pre' d', results = pre' ++ okResult (accId, d') :: rest' ∧ ev = d'.ToEvent ∧
        ev.eventType = exemplar.eventType ∧
        ∀ r ∈ pre', ∃ p : AccountId × _EventData, r = okResult p ∧
          ¬ (p.1 = accId ∧ p.2.ToEvent.eventType = exemplar.eventType)) := by
  refine ⟨?_, fun results ev rest' h => WaitForEvent_sound results accId exemplar ev rest' h⟩
  rw [WaitForEvent_skip pre _ accId exemplar hpre, AcFactory.WaitForEvent]
  simp [okResult, Rpc.GetNextEvent, hd]

/-- C23 at a wait for an `IncomingMsg` event of account 1: an `Info` event of
account 1 and an `IncomingMsg` event of account 2 are passed over, the
`IncomingMsg` event of account 1 that follows is returned. -/
theorem WaitForEvent_first_witness :
    AcFactory.WaitForEvent
      [.ok ⟨1, some ⟨"Info", "x", "", 0, 0, 0, [], 0, 0, "", "", 0, ""⟩⟩,
       .ok ⟨2, some ⟨"IncomingMsg", "", "", 3, 4, 0, [], 0, 0, "", "", 0, ""⟩⟩,
       .ok ⟨1, some ⟨"IncomingMsg", "", "", 5, 6, 0, [], 0, 0, "", "", 0, ""⟩⟩,
       .error "closed"] 1 (.EventIncomingMsg 0 0)
      = .returned (.EventIncomingMsg 5 6) [.error "closed"] :=
  (WaitForEvent_first
    [(1, ⟨"Info", "x", "", 0, 0, 0, [], 0, 0, "", "", 0, ""⟩),
     (2, ⟨"IncomingMsg", "", "", 3, 4, 0, [], 0, 0, "", "", 0, ""⟩)] 1
    ⟨"IncomingMsg", "", "", 5, 6, 0, [], 0, 0, "", "", 0, ""⟩ (.EventIncomingMsg 0 0)
    [.error "closed"] (by decide) (by decide)).1

theorem Sprintf_d_inj (a b : Int) (ha : -2 ^ 63 ≤ a ∧ a < 2 ^ 63) (hb : -2 ^ 63 ≤ b ∧ b < 2 ^ 63)
    (h : Sprintf_d a = Sprintf_d b) : a = b := by
  have h1 := jsonUnmarshalInt64_Sprintf_d a 0 ha.1 ha.2
  have h2 := jsonUnmarshalInt64_Sprintf_d b 0 hb.1 hb.2
  rw [h, h2] at h1
  exact (Except.ok.inj h1).symm

theorem Sprintf_addr_inj (a b t : Int) (ha : -2 ^ 63 ≤ a ∧ a < 2 ^ 63)
    (hb : -2 ^ 63 ≤ b ∧ b < 2 ^ 63) (h : Sprintf_addr a t = Sprintf_addr b t) : a = b := by
  unfold Sprintf_addr at h
  have h1 := congrArg String.data h
  simp only [String.data_append, List.append_assoc] at h1
  have h2 := List.append_cancel_left h1
  have h3 := List.append_cancel_right h2
  exact Sprintf_d_inj a b ha hb h3

theorem WithUnconfiguredAccount_step (f : AcFactory) (o : AccountAnswers)
    (h0 : 0 ≤ f.serial) (hb : f.serial + 1 < 2 ^ 63) :
    (f.WithUnconfiguredAccount o).1.startTime = f.startTime ∧
    (f.WithUnconfiguredAccount o).1.tearUp = f.tearUp ∧
    ((f.WithUnconfiguredAccount o).1.serial = f.serial ∨
      (f.WithUnconfiguredAccount o).1.serial = f.serial + 1) ∧
    ∀ a, (f.WithUnconfiguredAccount o).2.addr = some a →
      (f.WithUnconfiguredAccount o).1.serial = f.serial + 1 ∧
      a = Sprintf_addr (f.serial + 1) f.startTime := by
  have hw : wrapInt64 (f.serial + 1) = f.serial + 1 := by
    unfold wrapInt64
    omega
  unfold AcFactory.WithUnconfiguredAccount
  cases ht : f.tearUp
  · simp [AccountSetup.addr, ht]
  · obtain ⟨m, op, ad, de, ae⟩ := o
    cases m <;> cases op <;> cases ad <;> simp [AccountSetup.addr, ht]
    rw [hw]
    split
    · simp [ht]
    · cases ae <;> simp [List.lookup, ht]

theorem WithUnconfiguredAccount_ok (f : AcFactory) (accId : AccountId)
    (ht : f.tearUp = true) (h0 : 0 ≤ f.serial) (hb : f.serial + 1 < 2 ^ 63) :
    f.WithUnconfiguredAccount (.ok accId) =
      ({ f with serial := f.serial + 1 },
       ⟨(if (f.DefaultCfg.getD []).length ≠ 0 then [(accId, f.DefaultCfg.getD [])] else []) ++
          [(accId, [("addr", some (Sprintf_addr (f.serial + 1) f.startTime)),
                    ("mail_pw", some (Sprintf_password (f.serial + 1)))])],
        .returned accId⟩) := by
  have hw : wrapInt64 (f.serial + 1) = f.serial + 1 := by
    unfold wrapInt64
    omega
  simp [AcFactory.WithUnconfiguredAccount, AccountAnswers.ok, ht, hw]

theorem withAccounts_addrs (os : List AccountAnswers) (f : AcFactory) (h0 : 0 ≤ f.serial)
    (hb : f.serial + os.length < 2 ^ 63) :
    (f.withAccounts os).1.startTime = f.startTime ∧
    f.serial ≤ (f.withAccounts os).1.serial ∧
    (∀ a ∈ (f.withAccounts os).2.filterMap AccountSetup.addr,
      ∃ k, f.serial < k ∧ k ≤ f.serial + os.length ∧ a = Sprintf_addr k f.startTime) ∧
    ((f.withAccounts os).2.filterMap AccountSetup.addr).Nodup := by
  induction os generalizing f with
  | nil => simp [AcFactory.withAccounts]
  | cons o os ih =>
    rw [List.length_cons] at hb
    push_cast at hb
    obtain ⟨s1, _, s3, s4⟩ := WithUnconfiguredAccount_step f o h0 (by omega)
    have h0' : 0 ≤ (f.WithUnconfiguredAccount o).1.serial := by rcases s3 with h | h <;> omega
    have hb' : (f.WithUnconfiguredAccount o).1.serial + os.length < 2 ^ 63 := by
      rcases s3 with h | h <;> omega
    obtain ⟨i1, i2, i3, i4⟩ := ih (f.WithUnconfiguredAccount o).1 h0' hb'
    have hrest : ∀ a ∈ ((f.WithUnconfiguredAccount o).1.withAccounts os).2.filterMap
        AccountSetup.addr,
        ∃ k, (f.WithUnconfiguredAccount o).1.serial < k ∧ k ≤ f.serial + (os.length + 1) ∧
          a = Sprintf_addr k f.startTime := by
      intro a ha
      obtain ⟨k, k1, k2, k3⟩ := i3 a ha
      exact ⟨k, k1, by rcases s3 with h | h <;> omega, by rw [k3, s1]⟩
    simp only [AcFactory.withAccounts, List.length_cons]
    push_cast
    refine ⟨by rw [i1, s1], by rcases s3 with h | h <;> omega, ?_, ?_⟩
    · intro a ha
      cases hr : (f.WithUnconfiguredAccount o).2.addr with
      | none =>
        rw [List.filterMap_cons_none hr] at ha
        obtain ⟨k, k1, k2, k3⟩ := hrest a ha
        exact ⟨k, by rcases s3 with h | h <;> omega, k2, k3⟩
      | some x =>
        rw [List.filterMap_cons_some hr, List.mem_cons] at ha
        rcases ha with ha | ha
        · exact ⟨f.serial + 1, by omega, by omega, by rw [ha]; exact (s4 x hr).2⟩
        · obtain ⟨k, k1, k2, k3⟩ := hrest a ha
          exact ⟨k, by rcases s3 with h | h <;> omega, k2, k3⟩
    · cases hr : (f.WithUnconfiguredAccount o).2.addr with
      | none =>
        rw [List.filterMap_cons_none hr]
        exact i4
      | some x =>
        rw [List.filterMap_cons_some hr, List.nodup_cons]
        refine ⟨fun hx => ?_, i4⟩
        obtain ⟨k, k1, k2, k3⟩ := hrest x hx
        obtain ⟨e1, e2⟩ := s4 x hr
        rw [e2] at k3
        have := Sprintf_addr_inj (f.serial + 1) k f.startTime ⟨by omega, by omega⟩
          ⟨by omega, by omega⟩ k3
        omega

theorem withAccounts_ok (ids : List AccountId) (f : AcFactory) (ht : f.tearUp = true)
    (h0 : 0 ≤ f.serial) (hb : f.serial + ids.length < 2 ^ 63) :
    (f.withAccounts (ids.map .ok)).1.serial = f.serial + ids.length ∧
    (f.withAccounts (ids.map .ok)).2.map AccountSetup.outcome = ids.map .returned ∧
    (f.withAccounts (ids.map .ok)).2.map AccountSetup.addr
      = (List.range ids.length).map
          (fun (i : Nat) => some (Sprintf_addr (f.serial + 1 + (i : Int)) f.startTime)) := by
  induction ids generalizing f with
  | nil => simp [AcFactory.withAccounts]
  | cons a ids ih =>
    rw [List.length_cons] at hb
    push_cast at hb
    have hs := WithUnconfiguredAccount_ok f a ht h0 (by omega)
    obtain ⟨i1, i2, i3⟩ := ih { f with serial := f.serial + 1 } ht
      (show (0 : Int) ≤ f.serial + 1 by omega) (show f.serial + 1 + ids.length < 2 ^ 63 by omega)
    simp only [List.map_cons, AcFactory.withAccounts, hs, List.length_cons, List.range_succ_eq_map]
    refine ⟨?_, ?_, ?_⟩
    · rw [i1]
      push_cast
      omega
    · rw [i2]
    · rw [i3]
      simp only [List.map_cons, List.map_map, Nat.cast_zero, add_zero]
      congr 1
      · simp [AccountSetup.addr, List.lookup]
      · apply List.map_congr_left
        intro i _
        simp only [Function.comp]
        congr 2
        push_cast
        omega

/-- C24: `TearUp` stores the Unix seconds of the current time as start time
and leaves the counter as it is. On a factory that is set up and whose
counter is not negative and stays below the end of `int64`, a
`WithUnconfiguredAccount` in which nothing fails adds one to the counter and
sends as last settings of the new account the address
`acc<serial>.<startTime>@localhost` and the password `password<serial>`, with
the counter after the increment and the start time of the factory; successive
calls in which nothing fails give the serials counter + 1, counter + 2, ... in
that order; and in successive calls of which any may fail, the addresses of
the accounts handed to the callbacks are pairwise different, the start time
stays the same and the counter never decreases. -/
theorem account_addresses (f : AcFactory) (now : Time) (dir : String) (accId : AccountId)
    (ids : List AccountId) (os : List AccountAnswers)
    (ht : f.tearUp = true) (h0 : 0 ≤ f.serial) (h1 : f.serial + 1 < 2 ^ 63)
    (hids : f.serial + ids.length < 2 ^ 63) (hos : f.serial + os.length < 2 ^ 63) :
    ((f.TearUp now (.ok dir)).2 = .returned () ∧
      (f.TearUp now (.ok dir)).1.startTime = now.Unix ∧
      (f.TearUp now (.ok dir)).1.serial = f.serial ∧
      (f.TearUp now (.ok dir)).1.tearUp = true) ∧
    ((f.WithUnconfiguredAccount (.ok accId)).1.serial = f.serial + 1 ∧
      (f.WithUnconfiguredAccount (.ok accId)).2.outcome = .returned accId ∧
      (f.WithUnconfiguredAccount (.ok accId)).2.calls.getLast?
        = some (accId, [("addr", some (Sprintf_addr (f.serial + 1) f.startTime)),
                        ("mail_pw", some (Sprintf_password (f.serial + 1)))]) ∧
      (f.WithUnconfiguredAccount (.ok accId)).2.addr
        = some ("acc" ++ String.mk (Sprintf_d (f.serial + 1)) ++ "." ++
            String.mk (Sprintf_d f.startTime) ++ "@localhost")) ∧
    ((f.withAccounts (ids.map .ok)).1.serial = f.serial + ids.length ∧
      (f.withAccounts (ids.map .ok)).2.map AccountSetup.outcome = ids.map .returned ∧
      (f.withAccounts (ids.map .ok)).2.map AccountSetup.addr
        = (List.range ids.length).map
            (fun (i : Nat) => some (Sprintf_addr (f.serial + 1 + (i : Int)) f.startTime))) ∧
    ((f.withAccounts os).1.startTime = f.startTime ∧
      f.serial ≤ (f.withAccounts os).1.serial ∧
      ((f.withAccounts os).2.filterMap AccountSetup.addr).Nodup) := by
  refine ⟨?_, ?_, withAccounts_ok ids f ht h0 hids, ?_⟩
  · unfold AcFactory.TearUp
    by_cases hc : f.DefaultCfg = none
    · rw [if_pos hc]
      exact ⟨rfl, rfl, rfl, rfl⟩
    · rw [if_neg hc]
      exact ⟨rfl, rfl, rfl, rfl⟩
  · rw [WithUnconfiguredAccount_ok f accId ht h0 h1]
    refine ⟨rfl, rfl, by simp, ?_⟩
    simp [AccountSetup.addr, List.lookup, Sprintf_addr]
  · obtain ⟨a, b, _, d⟩ := withAccounts_addrs os f h0 hos
    exact ⟨a, b, d⟩

/-- C24 at a new factory set up at second 1700000000: the first account gets
the address `acc1.1700000000@localhost`; and of three calls, the second of
which fails at `AddAccount`, the two accounts made get different addresses. -/
theorem account_addresses_witness :
    sampleFactory.startTime = 1700000000 ∧
    (sampleFactory.WithUnconfiguredAccount (.ok 5)).2.addr
      = some "acc1.1700000000@localhost" ∧
    ((sampleFactory.withAccounts
        [.ok 5, ⟨none, none, .error "add_account failed", none, none⟩, .ok 6]).2.filterMap
      AccountSetup.addr).Nodup := by
  have h := account_addresses sampleFactory (time.Unix 1700000000 0) "/tmp/t" 5 [5, 6]
    [.ok 5, ⟨none, none, .error "add_account failed", none, none⟩, .ok 6]
    rfl (by decide) (by decide) (by decide) (by decide)
  refine ⟨by decide, ?_, h.2.2.2.2.2⟩
  rw [h.2.1.2.2.2]
  decide

theorem ui_key_inj (k₁ k₂ : String) : "ui." ++ k₁ = "ui." ++ k₂ ↔ k₁ = k₂ := by
  constructor
  · intro h
    have := congrArg String.data h
    simp only [String.data_append] at this
    exact String.ext (List.append_cancel_left this)
  · rintro rfl
    rfl

/-- C25: `SetUiConfig` calls `set_config` and `GetUiConfig` calls `get_config`
with the key `ui.` followed by the given key, on any server; against the
key-value server, `GetUiConfig` after `SetUiConfig` on the same account and
key returns the value just stored with no error, a `SetUiConfig` on another
key or account leaves what `GetUiConfig` returns as it was, a key that holds
nothing reads as empty, and two UI keys have the same server key only if they
are equal. -/
theorem UiConfig_namespaced {σ : Type} (S : RpcServer σ) (w : World σ) (k : World KvState)
    (accId accId' : AccountId) (key key' : String) (value : Option String) :
    (Bot.SetUiConfig S w accId key value).2.trace
      = w.trace ++ [Effect.rpc (RpcCall.set_config accId ("ui." ++ key) value)] ∧
    (Bot.GetUiConfig S w accId key).2.trace
      = w.trace ++ [Effect.rpc (RpcCall.get_config accId ("ui." ++ key))] ∧
    (Bot.SetUiConfig kvServer k accId key value).1 = none ∧
    (Bot.GetUiConfig kvServer (Bot.SetUiConfig kvServer k accId key value).2 accId key).1
      = (value, none) ∧
    (accId' ≠ accId ∨ key' ≠ key →
      (Bot.GetUiConfig kvServer (Bot.SetUiConfig kvServer k accId key value).2 accId' key').1
        = (Bot.GetUiConfig kvServer k accId' key').1) ∧
    (k.server.config accId ("ui." ++ key) = none →
      (Bot.GetUiConfig kvServer k accId key).1 = (none, none)) ∧
    ("ui." ++ key' = "ui." ++ key ↔ key' = key) := by
  refine ⟨rfl, rfl, rfl, ?_, fun hne => ?_, fun hn => ?_, ui_key_inj key' key⟩
  · simp [Bot.GetUiConfig, Bot.SetUiConfig, kvServer]
  · have : ¬ (accId' = accId ∧ "ui." ++ key' = "ui." ++ key) := by
      rintro ⟨ha, hk⟩
      rcases hne with h | h
      · exact h ha
      · exact h ((ui_key_inj key' key).1 hk)
    simp [Bot.GetUiConfig, Bot.SetUiConfig, kvServer, this]
  · simp [Bot.GetUiConfig, kvServer, hn]

/-- C25 at the key `testkey` of account 1, read against the key-value server
after a write of `test value`, and at the key `unknown-key`, which was never
set. -/
theorem UiConfig_namespaced_witness :
    (Bot.GetUiConfig kvServer (Bot.SetUiConfig kvServer kvWorld 1 "testkey"
        (some "test value")).2 1 "unknown-key").1
      = (Bot.GetUiConfig kvServer kvWorld 1 "unknown-key").1 ∧
    (Bot.GetUiConfig kvServer kvWorld 1 "unknown-key").1 = (none, none) :=
  ⟨(UiConfig_namespaced kvServer kvWorld kvWorld 1 1 "testkey" "unknown-key"
      (some "test value")).2.2.2.2.1 (Or.inr (by decide)),
   (UiConfig_namespaced kvServer kvWorld kvWorld 1 1 "unknown-key" "unknown-key"
      none).2.2.2.2.2.1 rfl⟩

/-- C26: the tag of the decoded event is the wire kind when the kind is in
the catalogue and `UnknownEvent` otherwise. So the dispatch of the event
decoded from a record of a catalogue kind calls the handler registered with
an exemplar whose tag is that kind, and the dispatch of the event decoded
from a record of any other kind calls the handler registered with an
`UnknownEvent` exemplar, whatever kind strings the record and the exemplar
carry. -/
theorem ToEvent_eventType (bot : Bot) (d : _EventData) (e : Event) (h : EventHandler)
    (k : eventType) :
    (d.Kind ∈ catalogueKinds → d.ToEvent.eventType = d.Kind) ∧
    (d.Kind ∉ catalogueKinds → d.ToEvent.eventType = "UnknownEvent") ∧
    (d.Kind ∈ catalogueKinds → e.eventType = d.Kind →
      (bot.On e h).handlerMap.lookup d.ToEvent.eventType = some h ∧
      ∀ (σ : Type) (w : World σ) (accId : AccountId), w.bot = bot.On e h →
        Bot.onEvent w accId d.ToEvent
          = { w with trace := w.trace ++ [Effect.event h accId d.ToEvent] }) ∧
    (d.Kind ∉ catalogueKinds →
      (bot.On (.UnknownEvent k) h).handlerMap.lookup d.ToEvent.eventType = some h ∧
      ∀ (σ : Type) (w : World σ) (accId : AccountId), w.bot = bot.On (.UnknownEvent k) h →
        Bot.onEvent w accId d.ToEvent
          = { w with trace := w.trace ++ [Effect.event h accId (.UnknownEvent d.Kind)] }) := by
  have hlook : ∀ (e' ev : Event), e'.eventType = ev.eventType →
      (bot.On e' h).handlerMap.lookup ev.eventType = some h := by
    intro e' ev he
    simp [Bot.On, he, List.lookup]
  refine ⟨ToEvent_eventType_aux d, fun hk => ?_, fun hk he => ?_, fun hk => ?_⟩
  · rw [ToEvent_unknown_aux d hk]
    rfl
  · have hl := hlook e d.ToEvent (by rw [he, ToEvent_eventType_aux d hk])
    refine ⟨hl, fun σ w accId hw => ?_⟩
    simp only [Bot.onEvent, hw, hl]
  · have hd := ToEvent_unknown_aux d hk
    have hl := hlook (.UnknownEvent k) d.ToEvent (by rw [hd]; rfl)
    refine ⟨hl, fun σ w accId hw => ?_⟩
    simp only [Bot.onEvent, hw, hl]
    rw [hd]

/-- C26 at a `MsgRead` record, whose event goes to the handler registered
with the exemplar `EventMsgRead{}`, and at a record of the kind `Brand`, whose
event goes to the handler registered with `UnknownEvent{}`. -/
theorem ToEvent_eventType_witness :
    (⟨"MsgRead", "", "", 3, 4, 0, [], 0, 0, "", "", 0, ""⟩ : _EventData).ToEvent.eventType
      = "MsgRead" ∧
    (⟨"Brand", "", "", 3, 4, 0, [], 0, 0, "", "", 0, ""⟩ : _EventData).ToEvent.eventType
      = "UnknownEvent" ∧
    (NewBot.On (.EventMsgRead 0 0) 1).handlerMap.lookup
      (⟨"MsgRead", "", "", 3, 4, 0, [], 0, 0, "", "", 0, ""⟩ : _EventData).ToEvent.eventType
      = some 1 ∧
    (NewBot.On (.UnknownEvent "") 1).handlerMap.lookup
      (⟨"Brand", "", "", 3, 4, 0, [], 0, 0, "", "", 0, ""⟩ : _EventData).ToEvent.eventType
      = some 1 :=
  ⟨(ToEvent_eventType NewBot ⟨"MsgRead", "", "", 3, 4, 0, [], 0, 0, "", "", 0, ""⟩
      (.EventMsgRead 0 0) 1 "").1 (by decide),
   (ToEvent_eventType NewBot ⟨"Brand", "", "", 3, 4, 0, [], 0, 0, "", "", 0, ""⟩
      (.EventMsgRead 0 0) 1 "").2.1 (by decide),
   ((ToEvent_eventType NewBot ⟨"MsgRead", "", "", 3, 4, 0, [], 0, 0, "", "", 0, ""⟩
      (.EventMsgRead 0 0) 1 "").2.2.1 (by decide) rfl).1,
   ((ToEvent_eventType NewBot ⟨"Brand", "", "", 3, 4, 0, [], 0, 0, "", "", 0, ""⟩
      (.EventMsgRead 0 0) 1 "").2.2.2 (by decide)).1⟩

theorem eventTypes_variant (e : Event) : eventTypes[e.variant]? = some e.eventType := by
  cases e <;> rfl

theorem eventTypes_nodup : eventTypes.length = 37 ∧ eventTypes.Nodup := by decide

theorem variant_eq_of_eventType_eq (e₁ e₂ : Event) (h : e₁.eventType = e₂.eventType) :
    e₁.variant = e₂.variant := by
  have h1 := eventTypes_variant e₁
  have h2 := eventTypes_variant e₂
  rw [h] at h1
  have hl1 : e₁.variant < eventTypes.length := by
    by_contra hc
    rw [List.getElem?_eq_none (by omega)] at h1
    exact absurd h1 (by simp)
  have hl2 : e₂.variant < eventTypes.length := by
    by_contra hc
    rw [List.getElem?_eq_none (by omega)] at h2
    exact absurd h2 (by simp)
  rw [List.getElem?_eq_getElem hl1] at h1
  rw [List.getElem?_eq_getElem hl2] at h2
  have := (List.Nodup.getElem_inj_iff eventTypes_nodup.2).1
    ((Option.some.inj h1).trans (Option.some.inj h2).symm)
  exact this

theorem onEvent_selected {σ : Type} (w : World σ) (accId : AccountId) (ev : Event) :
    Bot.onEvent w accId ev =
      match w.bot.selected ev with
      | some h => { w with trace := w.trace ++ [Effect.event h accId ev] }
      | none => w := by
  unfold Bot.onEvent Bot.selected
  cases w.bot.handlerMap.lookup ev.eventType with
  | some h => rfl
  | none => cases w.bot.onUnhandledEvent <;> rfl

/-- C27: the 37 kind tags are pairwise distinct, so two events have the same
tag only if they are values of the same variant; and for an event `ev` whose
tag differs from the tag of `e`, as for every event of another variant, the
handler that dispatch selects is the same before and after `On(e, h)` and
before and after `RemoveEventHandler(e)`. -/
theorem On_Remove_frame (bot : Bot) (e ev : Event) (h : EventHandler) :
    eventTypes.length = 37 ∧ eventTypes.Nodup ∧
    eventTypes[ev.variant]? = some ev.eventType ∧
    (ev.eventType = e.eventType ↔ ev.variant = e.variant) ∧
    (ev.variant ≠ e.variant →
      (bot.On e h).selected ev = bot.selected ev ∧
      (bot.RemoveEventHandler e).selected ev = bot.selected ev ∧
      ∀ (σ : Type) (w : World σ) (accId : AccountId), w.bot = bot →
        (Bot.onEvent { w with bot := bot.On e h } accId ev).trace
          = (Bot.onEvent w accId ev).trace ∧
        (Bot.onEvent { w with bot := bot.RemoveEventHandler e } accId ev).trace
          = (Bot.onEvent w accId ev).trace) := by
  have hiff : ev.eventType = e.eventType ↔ ev.variant = e.variant := by
    constructor
    · exact variant_eq_of_eventType_eq ev e
    · intro hv
      have h1 := eventTypes_variant ev
      have h2 := eventTypes_variant e
      rw [hv, h2] at h1
      exact (Option.some.inj h1).symm
  refine ⟨eventTypes_nodup.1, eventTypes_nodup.2, eventTypes_variant ev, hiff, fun hv => ?_⟩
  have hne : ev.eventType ≠ e.eventType := fun hk => hv (hiff.1 hk)
  have hb : (ev.eventType == e.eventType) = false := by simpa using hne
  have hOn : (bot.On e h).selected ev = bot.selected ev := by
    simp only [Bot.selected, Bot.On, List.lookup_cons, hb, lookup_filter_other _ _ hne]
  have hRm : (bot.RemoveEventHandler e).selected ev = bot.selected ev := by
    simp only [Bot.selected, Bot.RemoveEventHandler, lookup_filter_other _ _ hne]
  refine ⟨hOn, hRm, fun σ w accId hw => ?_⟩
  subst hw
  rw [onEvent_selected, onEvent_selected, onEvent_selected]
  simp only [hOn, hRm]
  constructor <;> cases w.bot.selected ev <;> rfl

/-- C27 at a bot with handler 1 for `Info` and the unhandled-event handler
2: registering or removing a handler for `Warning` leaves the `Info` event
with handler 1 and the `Error` event with handler 2. -/
theorem On_Remove_frame_witness :
    ((((NewBot.On (.EventInfo "") 1).OnUnhandledEvent (some 2)).On (.EventWarning "") 3).selected
        (.EventInfo "x") = some 1 ∧
     (((NewBot.On (.EventInfo "") 1).OnUnhandledEvent (some 2)).RemoveEventHandler
        (.EventWarning "")).selected (.EventInfo "x") = some 1) ∧
    (((NewBot.On (.EventInfo "") 1).OnUnhandledEvent (some 2)).On (.EventWarning "") 3).selected
        (.EventError "x") = some 2 :=
  ⟨⟨((On_Remove_frame ((NewBot.On (.EventInfo "") 1).OnUnhandledEvent (some 2))
        (.EventWarning "") (.EventInfo "x") 3).2.2.2.2 (by decide)).1,
    ((On_Remove_frame ((NewBot.On (.EventInfo "") 1).OnUnhandledEvent (some 2))
        (.EventWarning "") (.EventInfo "x") 3).2.2.2.2 (by decide)).2.1⟩,
   ((On_Remove_frame ((NewBot.On (.EventInfo "") 1).OnUnhandledEvent (some 2))
        (.EventWarning "") (.EventError "x") 3).2.2.2.2 (by decide)).1⟩

/-- C28 as stated fails: on a record that the transport has decoded without
error and whose event member is nil, `GetNextEvent` calls `ToEvent` on the nil
pointer, which is dereferenced: the call panics. -/
theorem GetNextEvent_nil_panics :
    Rpc.GetNextEventResults (.ok ⟨1, none⟩) = .panicked ∧
    Rpc.GetNextEvent (.ok ⟨1, none⟩) = .panicked := ⟨rfl, rfl⟩

/-- C28 as amended: on a record that the transport has decoded without error
and whose event member is not nil, `GetNextEvent` returns the account id of
the record, the decoded event and no error; on an error of the transport call
it returns the account 0, no event and that error. -/
theorem GetNextEvent_total (accId : AccountId) (d : _EventData) (err : Error) :
    Rpc.GetNextEventResults (.ok ⟨accId, some d⟩) = .returned (accId, some d.ToEvent, none) ∧
    Rpc.GetNextEventResults (.error err) = .returned (0, none, some err) ∧
    Rpc.GetNextEvent (.ok ⟨accId, some d⟩) = .returned (.ok (accId, d.ToEvent)) ∧
    Rpc.GetNextEvent (.error err) = .returned (.error err) := ⟨rfl, rfl, rfl, rfl⟩

end deltachat

namespace transport

open deltachat (Error Outcome ctxLive WithCancel cancelCtx ctxLive_lt ctxLive_WithCancel
  ctxLive_cancelCtx)

theorem ctxLive_set_append (ctxs : List Bool) :
    ctxLive (some ctxs.length) (cancelCtx ctxs.length (ctxs ++ [false])) = false :=
  ctxLive_cancelCtx _ _

theorem IOTransport_Open_fail (t : IOTransport) (os : OS) (err : Error)
    (h : ctxLive t.ctx os.ctxs = false) :
    t.Open os (some err) =
      (some (.start err),
       { t with ctx := some os.ctxs.length, cmd := some os.cmds, stdin := some os.pipes.length },
       { os with ctxs := cancelCtx os.ctxs.length (os.ctxs ++ [false]), cmds := os.cmds + 1,
                 pipes := os.pipes ++ [true],
                 log := os.log ++ [.start os.cmds t.Cmd (accountsEnv t.AccountsDir) false,
                                   .cancel os.ctxs.length] }) := by
  simp [IOTransport.Open, h, WithCancel]

theorem ProcessTransport_Open_fail (t : ProcessTransport) (os : OS) (err : Error)
    (h : ctxLive t.ctx os.ctxs = false) :
    t.Open os (some err) =
      (some (.start err),
       { t with ctx := some os.ctxs.length, cmd := some os.cmds, stdin := some os.pipes.length },
       { os with ctxs := cancelCtx os.ctxs.length (os.ctxs ++ [false]), cmds := os.cmds + 1,
                 pipes := os.pipes ++ [true],
                 log := os.log ++ [.start os.cmds t.Cmd (accountsEnv t.AccountsDir) false,
                                   .cancel os.ctxs.length] }) := by
  simp [ProcessTransport.Open, h, WithCancel]

theorem IOTransport_Open_not_started (t : IOTransport) (os : OS) (e : Option Error)
    (h : ctxLive t.ctx os.ctxs = false) :
    (t.Open os e).1 = (match e with
      | some err => some (.start err)
      | none => none) := by
  cases e <;> simp [IOTransport.Open, h]

theorem ProcessTransport_Open_not_started (t : ProcessTransport) (os : OS) (e : Option Error)
    (h : ctxLive t.ctx os.ctxs = false) :
    (t.Open os e).1 = (match e with
      | some err => some (.start err)
      | none => none) := by
  cases e <;> simp [ProcessTransport.Open, h]

theorem IOTransport_Close_dead (t : IOTransport) (os : OS) (t' : IOTransport) (os' : OS)
    (h : t.Close os = .returned (t', os')) : ctxLive t'.ctx os'.ctxs = false := by
  unfold IOTransport.Close at h
  cases hl : ctxLive t.ctx os.ctxs with
  | false =>
    simp only [hl, Bool.not_false, if_true, Outcome.returned.injEq, Prod.mk.injEq] at h
    obtain ⟨rfl, rfl⟩ := h
    exact hl
  | true =>
    simp only [hl, Bool.not_true, Bool.false_eq_true, if_false] at h
    cases hs : t.stdin <;> cases hx : t.ctx <;> cases hm : t.cmd <;> simp [hs, hx, hm] at h
    obtain ⟨rfl, rfl⟩ := h
    simp [hx, ctxLive_cancelCtx]

theorem ProcessTransport_Close_dead (t : ProcessTransport) (os : OS) (t' : ProcessTransport)
    (os' : OS) (h : t.Close os = .returned (t', os')) : ctxLive t'.ctx os'.ctxs = false := by
  unfold ProcessTransport.Close at h
  cases hl : ctxLive t.ctx os.ctxs with
  | false =>
    simp only [hl, Bool.not_false, if_true, Outcome.returned.injEq, Prod.mk.injEq] at h
    obtain ⟨rfl, rfl⟩ := h
    exact hl
  | true =>
    simp only [hl, Bool.not_true, Bool.false_eq_true, if_false] at h
    cases hs : t.stdin <;> cases hx : t.ctx <;> cases hm : t.cmd <;> simp [hs, hx, hm] at h
    obtain ⟨rfl, rfl⟩ := h
    simp [hx, ctxLive_cancelCtx]

/-- C29: when the start of the child fails in an `Open` on a transport that
is not started, `Open` returns the error of the start and leaves the
transport not started: its context is cancelled, a later `Open` is not
refused with `TransportStartedErr` (it returns nil when the start then
succeeds) and a later `Close` returns with nothing changed. And after a
`Close` that has returned, `Open` is accepted in the same way. This holds for
`IOTransport` and for `ProcessTransport`. -/
theorem Open_atomic (t : IOTransport) (p : ProcessTransport) (os : OS) (err : Error)
    (e : Option Error) :
    (ctxLive t.ctx os.ctxs = false →
      (t.Open os (some err)).1 = some (.start err) ∧
      ctxLive (t.Open os (some err)).2.1.ctx (t.Open os (some err)).2.2.ctxs = false ∧
      ((t.Open os (some err)).2.1.Open (t.Open os (some err)).2.2 e).1
        ≠ some (.started {}) ∧
      ((t.Open os (some err)).2.1.Open (t.Open os (some err)).2.2 none).1 = none ∧
      (t.Open os (some err)).2.1.Close (t.Open os (some err)).2.2
        = .returned ((t.Open os (some err)).2.1, (t.Open os (some err)).2.2)) ∧
    (∀ t' os', t.Close os = .returned (t', os') →
      (t'.Open os' e).1 ≠ some (.started {}) ∧ (t'.Open os' none).1 = none) ∧
    (ctxLive p.ctx os.ctxs = false →
      (p.Open os (some err)).1 = some (.start err) ∧
      ctxLive (p.Open os (some err)).2.1.ctx (p.Open os (some err)).2.2.ctxs = false ∧
      ((p.Open os (some err)).2.1.Open (p.Open os (some err)).2.2 e).1
        ≠ some (.started {}) ∧
      ((p.Open os (some err)).2.1.Open (p.Open os (some err)).2.2 none).1 = none ∧
      (p.Open os (some err)).2.1.Close (p.Open os (some err)).2.2
        = .returned ((p.Open os (some err)).2.1, (p.Open os (some err)).2.2)) ∧
    (∀ p' os', p.Close os = .returned (p', os') →
      (p'.Open os' e).1 ≠ some (.started {}) ∧ (p'.Open os' none).1 = none) := by
  refine ⟨fun h => ?_, fun t' os' hc => ?_, fun h => ?_, fun p' os' hc => ?_⟩
  · have hd : ctxLive (t.Open os (some err)).2.1.ctx (t.Open os (some err)).2.2.ctxs = false := by
      rw [IOTransport_Open_fail t os err h]
      exact ctxLive_set_append os.ctxs
    refine ⟨by rw [IOTransport_Open_fail t os err h], hd, ?_, ?_, ?_⟩
    · rw [IOTransport_Open_not_started _ _ e hd]
      cases e <;> simp
    · rw [IOTransport_Open_not_started _ _ none hd]
    · simp [IOTransport.Close, hd]
  · have hd := IOTransport_Close_dead t os t' os' hc
    refine ⟨?_, ?_⟩
    · rw [IOTransport_Open_not_started _ _ e hd]
      cases e <;> simp
    · rw [IOTransport_Open_not_started _ _ none hd]
  · have hd : ctxLive (p.Open os (some err)).2.1.ctx (p.Open os (some err)).2.2.ctxs = false := by
      rw [ProcessTransport_Open_fail p os err h]
      exact ctxLive_set_append os.ctxs
    refine ⟨by rw [ProcessTransport_Open_fail p os err h], hd, ?_, ?_, ?_⟩
    · rw [ProcessTransport_Open_not_started _ _ e hd]
      cases e <;> simp
    · rw [ProcessTransport_Open_not_started _ _ none hd]
    · simp [ProcessTransport.Close, hd]
  · have hd := ProcessTransport_Close_dead p os p' os' hc
    refine ⟨?_, ?_⟩
    · rw [ProcessTransport_Open_not_started _ _ e hd]
      cases e <;> simp
    · rw [ProcessTransport_Open_not_started _ _ none hd]

/-- C29 at a transport never opened whose child fails to start with the error
`no such file`: the `Open` returns that error, the next `Open` succeeds, and
after the `Close` of that one a third `Open` succeeds. -/
theorem Open_atomic_witness :
    ((NewIOTransport "srv").Open OS.init (some "no such file")).1
      = some (.start "no such file") ∧
    (((NewIOTransport "srv").Open OS.init (some "no such file")).2.1.Open
      ((NewIOTransport "srv").Open OS.init (some "no such file")).2.2 none).1 = none ∧
    ((⟨"", "srv", some 0, some 0, some ⟨0⟩, some 0⟩ : ProcessTransport).Open
        ⟨[true], [true], 1, [.start 0 "srv" none true, .closeStdin 0, .cancel 0, .wait 0]⟩
        none).1 = none :=
  ⟨((Open_atomic (NewIOTransport "srv") (NewProcessTransport "srv") OS.init "no such file"
      none).1 rfl).1,
   ((Open_atomic (NewIOTransport "srv") (NewProcessTransport "srv") OS.init "no such file"
      none).1 rfl).2.2.2.1,
   ((Open_atomic (NewIOTransport "srv") ⟨"", "srv", some 0, some 0, some ⟨0⟩, some 0⟩
      ⟨[false], [false], 1, [.start 0 "srv" none true]⟩ "no such file"
      none).2.2.2 _ _ rfl).2⟩

end transport

namespace deltachat

theorem writtenIds_rounds (accId : AccountId) (nm : Option NewMsgHandler) (ids : List MsgId) :
    writtenIds accId ((ids.map (roundEffects accId nm)).flatten) = ids := by
  induction ids with
  | nil => rfl
  | cons a ids ih =>
    rw [List.map_cons, List.flatten_cons, writtenIds_append, ih, writtenIds_roundEffects]
    simp

theorem handedIds_roundEffects_none (accId a : AccountId) (ids : List MsgId) :
    handedIds a ((ids.map (roundEffects accId none)).flatten) = [] := by
  induction ids with
  | nil => rfl
  | cons m ids ih =>
    rw [List.map_cons, List.flatten_cons, handedIds_append, ih]
    rfl

theorem rounds_none (accId : AccountId) (ids : List MsgId) :
    (ids.map (roundEffects accId none)).flatten
      = ids.map (fun msgId =>
          Effect.rpc (RpcCall.set_config accId "last_msg_id" (some (toString msgId)))) := by
  induction ids with
  | nil => rfl
  | cons a ids ih =>
    rw [List.map_cons, List.flatten_cons, ih]
    simp [roundEffects, Sprintf_v_eq_toString]

/-- C30: a catch-up pass in which `get_next_msgs` returns `ids` without error
writes every id of `ids` to `last_msg_id`, in order, whatever the server
answers to the writes and whether a new-message handler is set or not (with
none set the writes are all it does); a pass in which `get_next_msgs` fails
makes that one call and nothing else: no write and no handler call, whatever
ids came with the error. -/
theorem processMessages_writes {σ : Type} (S : RpcServer σ) (w : World σ) (accId : AccountId) :
    (∀ ids, (S.GetNextMsgs w.server accId).2 = (ids, none) →
      (Bot.processMessages S w accId).trace
        = w.trace ++ Effect.rpc (RpcCall.get_next_msgs accId) ::
            (ids.map (roundEffects accId w.bot.newMsgHandler)).flatten ∧
      writtenIds accId (Bot.processMessages S w accId).trace = writtenIds accId w.trace ++ ids ∧
      (w.bot.newMsgHandler = none →
        (Bot.processMessages S w accId).trace
          = w.trace ++ Effect.rpc (RpcCall.get_next_msgs accId) ::
              ids.map (fun msgId =>
                Effect.rpc (RpcCall.set_config accId "last_msg_id" (some (toString msgId)))))) ∧
    (∀ ids err, (S.GetNextMsgs w.server accId).2 = (ids, some err) →
      (Bot.processMessages S w accId).trace
        = w.trace ++ [Effect.rpc (RpcCall.get_next_msgs accId)]) := by
  constructor
  · intro ids hr
    have h1 : (S.GetNextMsgs w.server accId).2.2 = none := by rw [hr]
    have h2 : (S.GetNextMsgs w.server accId).2.1 = ids := by rw [hr]
    have ht : (Bot.processMessages S w accId).trace
        = w.trace ++ Effect.rpc (RpcCall.get_next_msgs accId) ::
            (ids.map (roundEffects accId w.bot.newMsgHandler)).flatten := by
      unfold Bot.processMessages
      simp only [h1, h2]
      rw [(foldl_processMessage S accId _ _).2.2]
      simp
    refine ⟨ht, ?_, fun hn => ?_⟩
    · rw [ht, writtenIds_append]
      congr 1
      simp only [writtenIds]
      exact writtenIds_rounds accId _ ids
    · rw [ht, hn, rounds_none]
  · intro ids err hr
    have h1 : (S.GetNextMsgs w.server accId).2.2 = some err := by rw [hr]
    unfold Bot.processMessages
    simp only [h1]

/-- C30 at a bot without a new-message handler against the server whose
writes fail, with the messages 1, 2, 3: the three writes are made; and at a
server whose `get_next_msgs` fails: that call only. -/
theorem processMessages_writes_witness :
    (Bot.processMessages kvServerWriteFails { kvWorld with bot := NewBot } 1).trace
      = [] ++ Effect.rpc (RpcCall.get_next_msgs 1) ::
          [1, 2, 3].map (fun msgId =>
            Effect.rpc (RpcCall.set_config 1 "last_msg_id" (some (toString msgId)))) ∧
    (Bot.processMessages failingServer kvWorld 1).trace
      = [] ++ [Effect.rpc (RpcCall.get_next_msgs 1)] :=
  ⟨((processMessages_writes kvServerWriteFails { kvWorld with bot := NewBot } 1).1 [1, 2, 3]
      (by decide)).2.2 rfl,
   (processMessages_writes failingServer kvWorld 1).2 [4, 0] "type mismatch" (by decide)⟩

end deltachat

namespace deltachat

theorem Sprintf_d_eq_toString (n : Int) : Sprintf_d n = (toString n).data := by
  cases n with
  | ofNat m =>
    show Sprintf_d (m : Int) = (Nat.repr m).data
    unfold Sprintf_d Nat.repr Nat.toDigits
    have h : ¬ ((m : Int) < 0) := by omega
    rw [if_neg h, fmtDigits_eq_toDigitsCore]
    simp [List.asString]
  | negSucc m =>
    show Sprintf_d (Int.negSucc m) = ("-" ++ Nat.repr (m + 1)).data
    unfold Sprintf_d Nat.repr Nat.toDigits
    have h : Int.negSucc m < 0 := Int.negSucc_lt_zero m
    rw [if_pos h, fmtDigits_eq_toDigitsCore]
    simp [List.asString, Int.natAbs]

/-- C4: for every `int64` number `n` of seconds, written in decimal as
`toString n` writes it (a minus sign for a negative number, then the digits
with no leading zero), `UnmarshalJSON` of that text succeeds and yields the
timestamp `time.Unix(n, 0)`, whose Unix seconds are `n`; `MarshalJSON` of that
timestamp returns the same decimal text of `n`, with no error; so emitting
what was parsed yields the text again. -/
theorem Timestamp_decimal_roundtrip (n : Int) (hlo : -2 ^ 63 ≤ n) (hhi : n < 2 ^ 63) :
    Timestamp.UnmarshalJSON (toString n).data = .ok ⟨time.Unix n 0⟩ ∧
    (time.Unix n 0).Unix = n ∧
    Timestamp.MarshalJSON ⟨time.Unix n 0⟩ = .ok (toString n).data ∧
    (Timestamp.UnmarshalJSON (toString n).data).bind Timestamp.MarshalJSON
      = .ok (toString n).data := by
  have hu : Timestamp.UnmarshalJSON (toString n).data = .ok ⟨time.Unix n 0⟩ := by
    rw [← Sprintf_d_eq_toString]
    simp only [Timestamp.UnmarshalJSON, jsonUnmarshalInt64_Sprintf_d n 0 hlo hhi]
  have hm : Timestamp.MarshalJSON ⟨time.Unix n 0⟩ = .ok (toString n).data := by
    simp only [Timestamp.MarshalJSON, Time_Unix_time_Unix n hlo hhi, Sprintf_d_eq_toString]
  refine ⟨hu, Time_Unix_time_Unix n hlo hhi, hm, ?_⟩
  rw [hu]
  exact hm

/-- C4 at the smallest and the largest `int64` value, where
`sec + unixToInternal` wraps around, and at 0 and -1, with the texts written
out. -/
theorem Timestamp_decimal_roundtrip_witness :
    ((Timestamp.UnmarshalJSON "-9223372036854775808".data).bind Timestamp.MarshalJSON
      = .ok "-9223372036854775808".data ∧
     (Timestamp.UnmarshalJSON "9223372036854775807".data).bind Timestamp.MarshalJSON
      = .ok "9223372036854775807".data) ∧
    (Timestamp.MarshalJSON ⟨time.Unix 0 0⟩ = .ok ['0'] ∧
     Timestamp.MarshalJSON ⟨time.Unix (-1) 0⟩ = .ok ['-', '1'] ∧
     Timestamp.MarshalJSON ⟨time.Unix 1700000000 0⟩
       = .ok ['1', '7', '0', '0', '0', '0', '0', '0', '0', '0']) :=
  ⟨⟨(Timestamp_decimal_roundtrip (-9223372036854775808) (by decide) (by decide)).2.2.2,
    (Timestamp_decimal_roundtrip 9223372036854775807 (by decide) (by decide)).2.2.2⟩,
   (Timestamp_decimal_roundtrip 0 (by decide) (by decide)).2.2.1,
   (Timestamp_decimal_roundtrip (-1) (by decide) (by decide)).2.2.1,
   (Timestamp_decimal_roundtrip 1700000000 (by decide) (by decide)).2.2.1⟩

theorem runCatchUp_bot_ctxs {σ : Type} (S : RpcServer σ) (w : World σ) :
    (Bot.runCatchUp S w).bot = w.bot ∧ (Bot.runCatchUp S w).ctxs = w.ctxs := by
  have hfold : ∀ (ids : List AccountId) (w : World σ),
      (ids.foldl (fun w accId =>
        let c := S.IsConfigured w.server accId
        let w := { w with server := c.1,
                          trace := w.trace ++ [Effect.rpc (RpcCall.is_configured accId)] }
        if c.2.1 then Bot.processMessages S w accId else w) w).bot = w.bot ∧
      (ids.foldl (fun w accId =>
        let c := S.IsConfigured w.server accId
        let w := { w with server := c.1,
                          trace := w.trace ++ [Effect.rpc (RpcCall.is_configured accId)] }
        if c.2.1 then Bot.processMessages S w accId else w) w).ctxs = w.ctxs := by
    intro ids
    induction ids with
    | nil => intro w; exact ⟨rfl, rfl⟩
    | cons a ids ih =>
      intro w
      rw [List.foldl_cons]
      obtain ⟨i1, i2⟩ := ih
        (if (S.IsConfigured w.server a).2.1 then Bot.processMessages S
            { w with server := (S.IsConfigured w.server a).1,
                     trace := w.trace ++ [Effect.rpc (RpcCall.is_configured a)] } a
          else { w with server := (S.IsConfigured w.server a).1,
                        trace := w.trace ++ [Effect.rpc (RpcCall.is_configured a)] })
      obtain ⟨_, _, _, _, p4, p5⟩ := processMessages_pass S
        { w with server := (S.IsConfigured w.server a).1,
                 trace := w.trace ++ [Effect.rpc (RpcCall.is_configured a)] } a
      refine ⟨i1.trans ?_, i2.trans ?_⟩
      · split
        · exact p4
        · rfl
      · split
        · exact p5
        · rfl
  unfold Bot.runCatchUp
  exact hfold _ _

theorem Stop_bot_length {σ : Type} (w : World σ) :
    (Bot.Stop w).bot = w.bot ∧ (Bot.Stop w).ctxs.length = w.ctxs.length := by
  unfold Bot.Stop
  split
  · split
    · exact ⟨rfl, by simp [cancelCtx]⟩
    · exact ⟨rfl, rfl⟩
  · exact ⟨rfl, rfl⟩

theorem runBegin_stopped {σ : Type} (w : World σ) (h : Bot.IsRunning w = false) :
    Bot.runBegin w
      = .ok { w with bot := { w.bot with ctx := some w.ctxs.length }, ctxs := w.ctxs ++ [false] } ∧
    Bot.IsRunning
      { w with bot := { w.bot with ctx := some w.ctxs.length }, ctxs := w.ctxs ++ [false] }
      = true := by
  unfold Bot.IsRunning at h
  refine ⟨by simp [Bot.runBegin, h, WithCancel], ?_⟩
  simpa [Bot.IsRunning, WithCancel] using ctxLive_WithCancel w.ctxs

/-- C6 fails on the code: a `Run` that is in flight ends through a path that
calls `bot.Stop()`, and `Stop` cancels the context that the bot holds at that
moment. Let a first `Run` be in flight on a bot, waiting in `get_next_event`
(`w₁` after its head, and its start-up done); let `Stop` be called, which
leaves `IsRunning` false, and then `Run` a second time, which is not refused:
its head stores a new context `w₂.bot.ctx` and `IsRunning` is true. The call
of the first `Run` that was waiting now fails, its producer closes the
channel and its loop calls `Stop`: this cancels the context of the second
`Run`. `IsRunning` is false again although `Stop` was not called since the
second `Run` began, and the second `Run`, whose calls fail from now on for
the cancelled context, returns nil by itself. The two loops of the first
`Run` are in their first state, `RunState.init`, and act on the bot and the
contexts as the second `Run` has left them, since both are calls on the one
bot. -/
theorem Run_after_Stop_is_stopped {σ : Type} (S : RpcServer σ) (w₀ : World σ) (e : Error)
    (rest : List (Except Error _Event)) :
    ∃ w₁ w₂,
      Bot.runBegin (Bot.Stop w₀) = .ok w₁ ∧
      Bot.IsRunning (Bot.runCatchUp S w₁) = true ∧
      Bot.IsRunning (Bot.Stop (Bot.runCatchUp S w₁)) = false ∧
      Bot.runBegin (Bot.Stop (Bot.runCatchUp S w₁)) = .ok w₂ ∧
      w₂.bot.ctx ≠ w₁.bot.ctx ∧
      Bot.IsRunning (Bot.runCatchUp S w₂) = true ∧
      (Bot.runSteps S [.producer, .consumer]
        (RunState.init (.error e :: rest) (Bot.runCatchUp S w₂))).consumer = .returned ∧
      (Bot.runSteps S [.producer, .consumer]
        (RunState.init (.error e :: rest) (Bot.runCatchUp S w₂))).world
        = Bot.Stop (Bot.runCatchUp S w₂) ∧
      (Bot.Stop (Bot.runCatchUp S w₂)).bot.ctx = w₂.bot.ctx ∧
      Bot.IsRunning (Bot.Stop (Bot.runCatchUp S w₂)) = false ∧
      (Bot.runLoop S [] (Bot.Stop (Bot.runCatchUp S w₂))).1 = .returned none := by
  obtain ⟨b1, r1⟩ := runBegin_stopped (Bot.Stop w₀) (IsRunning_Stop w₀)
  have hc1 := runCatchUp_bot_ctxs S
    { Bot.Stop w₀ with bot := { (Bot.Stop w₀).bot with ctx := some (Bot.Stop w₀).ctxs.length },
                       ctxs := (Bot.Stop w₀).ctxs ++ [false] }
  have hr1 : Bot.IsRunning (Bot.runCatchUp S
      { Bot.Stop w₀ with bot := { (Bot.Stop w₀).bot with ctx := some (Bot.Stop w₀).ctxs.length },
                         ctxs := (Bot.Stop w₀).ctxs ++ [false] }) = true := by
    unfold Bot.IsRunning at r1 ⊢
    rw [hc1.1, hc1.2]
    exact r1
  obtain ⟨b2, r2⟩ := runBegin_stopped _ (IsRunning_Stop (Bot.runCatchUp S
      { Bot.Stop w₀ with bot := { (Bot.Stop w₀).bot with ctx := some (Bot.Stop w₀).ctxs.length },
                         ctxs := (Bot.Stop w₀).ctxs ++ [false] }))
  refine ⟨_, _, b1, hr1, IsRunning_Stop _, b2, ?_, ?_, rfl, rfl, ?_, IsRunning_Stop _, rfl⟩
  · have hlen := (Stop_bot_length (Bot.runCatchUp S
        { Bot.Stop w₀ with bot := { (Bot.Stop w₀).bot with ctx := some (Bot.Stop w₀).ctxs.length },
                           ctxs := (Bot.Stop w₀).ctxs ++ [false] })).2
    rw [hc1.2, List.length_append, List.length_singleton] at hlen
    intro hne
    have hne2 := Option.some.inj hne
    rw [hlen] at hne2
    omega
  · have hc2 := runCatchUp_bot_ctxs S
      { Bot.Stop (Bot.runCatchUp S
          { Bot.Stop w₀ with
            bot := { (Bot.Stop w₀).bot with ctx := some (Bot.Stop w₀).ctxs.length },
            ctxs := (Bot.Stop w₀).ctxs ++ [false] }) with
        bot := { (Bot.Stop (Bot.runCatchUp S
          { Bot.Stop w₀ with
            bot := { (Bot.Stop w₀).bot with ctx := some (Bot.Stop w₀).ctxs.length },
            ctxs := (Bot.Stop w₀).ctxs ++ [false] })).bot with
          ctx := some (Bot.Stop (Bot.runCatchUp S
            { Bot.Stop w₀ with
              bot := { (Bot.Stop w₀).bot with ctx := some (Bot.Stop w₀).ctxs.length },
              ctxs := (Bot.Stop w₀).ctxs ++ [false] })).ctxs.length },
        ctxs := (Bot.Stop (Bot.runCatchUp S
          { Bot.Stop w₀ with
            bot := { (Bot.Stop w₀).bot with ctx := some (Bot.Stop w₀).ctxs.length },
            ctxs := (Bot.Stop w₀).ctxs ++ [false] })).ctxs ++ [false] }
    unfold Bot.IsRunning at r2 ⊢
    rw [hc2.1, hc2.2]
    exact r2
  · rw [(Stop_bot_length _).1, (runCatchUp_bot_ctxs S _).1]

theorem lookup_slots (l : List (eventType × EventHandler)) (k : eventType) :
    (l.map (fun p => (p.1, some p.2))).lookup k = (l.lookup k).map some := by
  induction l with
  | nil => rfl
  | cons p l ih =>
    obtain ⟨k', h⟩ := p
    simp only [List.map_cons, List.lookup_cons]
    cases hk : k == k' <;> simp [ih]

/-- C12 fails on the code: `On(event, nil)` stores the nil func under the
kind of the event, and `onEvent` calls the entry it finds in the map without
the nil check it makes for the unhandled-event handler. So for handler slots
of any state, after `On(event, nil)` the dispatch of `event` panics, whatever
unhandled-event handler is set: it calls neither the unhandled-event handler
nor nothing. On slots without a nil entry, which are those of a `Bot`,
`HandlerSlots.onEvent` returns and makes the calls that `Bot.onEvent` adds to
the effects, and `On`, `OnUnhandledEvent` and `RemoveEventHandler` agree with
those of `Bot`. -/
theorem onEvent_nil_handler_panics {σ : Type} (slots : HandlerSlots) (w : World σ)
    (event : Event) (accId : AccountId) (u : Option EventHandler) (h : EventHandler) :
    ((slots.On event none).OnUnhandledEvent u).onEvent accId event = .panicked ∧
    ((slots.OnUnhandledEvent u).On event none).onEvent accId event = .panicked ∧
    ((NewBot.slots.On (.EventInfo "") none).OnUnhandledEvent (some 2)).onEvent 5 (.EventInfo "x")
      = .panicked ∧
    (∃ calls, w.bot.slots.onEvent accId event = .returned calls ∧
      Bot.onEvent w accId event = { w with trace := w.trace ++ calls } ∧
      calls = (match w.bot.selected event with
        | some handler => [Effect.event handler accId event]
        | none => [])) ∧
    (w.bot.On event h).slots = w.bot.slots.On event (some h) ∧
    (w.bot.OnUnhandledEvent u).slots = w.bot.slots.OnUnhandledEvent u ∧
    (w.bot.RemoveEventHandler event).slots = w.bot.slots.RemoveEventHandler event := by
  refine ⟨?_, ?_, by decide, ?_, ?_, rfl, ?_⟩
  · simp [HandlerSlots.onEvent, HandlerSlots.On, HandlerSlots.OnUnhandledEvent, List.lookup]
  · simp [HandlerSlots.onEvent, HandlerSlots.On, HandlerSlots.OnUnhandledEvent, List.lookup]
  · simp only [HandlerSlots.onEvent, Bot.slots, lookup_slots, Bot.onEvent, Bot.selected]
    cases w.bot.handlerMap.lookup event.eventType with
    | some handler => exact ⟨_, rfl, rfl, rfl⟩
    | none =>
      cases w.bot.onUnhandledEvent with
      | some handler => exact ⟨_, rfl, rfl, rfl⟩
      | none => exact ⟨[], rfl, by simp, rfl⟩
  · simp [Bot.slots, Bot.On, HandlerSlots.On, List.filter_map, Function.comp_def]
  · simp [Bot.slots, Bot.RemoveEventHandler, HandlerSlots.RemoveEventHandler, List.filter_map,
      Function.comp_def]

/-- C18 as stated fails: a server may return exactly the ids greater than
`last_msg_id` in any order, and the pass leaves the cursor at the id written
last. With the messages 1, 2, 3 and the ids returned in decreasing order the
pass writes 3, 2, 1, the cursor ends at 1, and `get_next_msgs` right after
the pass returns 3 and 2 again. -/
theorem drains_fails_descending :
    (∀ (s : KvState) (accId : AccountId) (m : MsgId),
      m ∈ (kvServerDescending.GetNextMsgs s accId).2.1 ↔
        m ∈ s.msgs accId ∧ s.lastMsgId accId < m) ∧
    (kvServerDescending.GetNextMsgs kvWorld.server 1).2 = ([3, 2, 1], none) ∧
    writtenIds 1 (Bot.processMessages kvServerDescending kvWorld 1).trace = [3, 2, 1] ∧
    (Bot.processMessages kvServerDescending kvWorld 1).server.lastMsgId 1 = 1 ∧
    (kvServerDescending.GetNextMsgs (Bot.processMessages kvServerDescending kvWorld 1).server 1).2
      = ([3, 2], none) := by
  refine ⟨fun s accId m => ?_, by decide, by decide, by decide, by decide⟩
  show m ∈ ((s.msgs accId).filter (fun m => s.lastMsgId accId < m)).insertionSort (· ≥ ·) ↔ _
  rw [(List.perm_insertionSort _ _).mem_iff, List.mem_filter]
  simp

theorem eventCalls_append (l₁ l₂ : List Effect) :
    eventCalls (l₁ ++ l₂) = eventCalls l₁ ++ eventCalls l₂ := by
  induction l₁ with
  | nil => rfl
  | cons e l ih =>
    cases e with
    | rpc c => simpa [eventCalls] using ih
    | event h a ev => simp [eventCalls, ih]
    | newMsg h a m => simpa [eventCalls] using ih

theorem eventCalls_none (l : List Effect) (h : ∀ f a e, Effect.event f a e ∉ l) :
    eventCalls l = [] := by
  induction l with
  | nil => rfl
  | cons x l ih =>
    cases x with
    | rpc c => simpa [eventCalls] using ih (fun f a e hm => h f a e (List.mem_cons_of_mem _ hm))
    | event f a ev => exact absurd (List.mem_cons_self _ _) (h f a ev)
    | newMsg f a m =>
      simpa [eventCalls] using ih (fun f a e hm => h f a e (List.mem_cons_of_mem _ hm))

theorem handleEvent_eventCalls {σ : Type} (S : RpcServer σ) (w : World σ) (accId : AccountId)
    (ev : Event) :
    (Bot.handleEvent S w accId ev).bot = w.bot ∧
    eventCalls (Bot.handleEvent S w accId ev).trace
      = eventCalls w.trace ++ (w.bot.callFor (accId, ev)).toList := by
  have h1 : (Bot.onEvent w accId ev).bot = w.bot ∧
      eventCalls (Bot.onEvent w accId ev).trace
        = eventCalls w.trace ++ (w.bot.callFor (accId, ev)).toList := by
    rw [onEvent_selected]
    unfold Bot.callFor
    cases w.bot.selected ev with
    | none => simp
    | some h => simp [eventCalls_append, eventCalls]
  unfold Bot.handleEvent
  split
  · obtain ⟨rest, p1, _, p3, p4, _⟩ := processMessages_pass S (Bot.onEvent w accId ev) accId
    refine ⟨by rw [p4, h1.1], ?_⟩
    rw [p1, eventCalls_append, h1.2]
    have : eventCalls (Effect.rpc (RpcCall.get_next_msgs accId) :: rest) = [] :=
      eventCalls_none _ (fun f a e hm => by
        rcases List.mem_cons.1 hm with hm | hm
        · cases hm
        · exact p3 f a e hm)
    rw [this, List.append_nil]
  · exact h1

theorem handleAll_eventCalls {σ : Type} (S : RpcServer σ) (l : List (AccountId × Event))
    (w : World σ) :
    (Bot.handleAll S w l).bot = w.bot ∧
    eventCalls (Bot.handleAll S w l).trace = eventCalls w.trace ++ l.filterMap w.bot.callFor := by
  induction l generalizing w with
  | nil => simp [Bot.handleAll]
  | cons p l ih =>
    rw [handleAll_cons]
    obtain ⟨h1, h2⟩ := handleEvent_eventCalls S w p.1 p.2
    obtain ⟨i1, i2⟩ := ih (Bot.handleEvent S w p.1 p.2)
    refine ⟨by rw [i1, h1], ?_⟩
    rw [i2, h2, h1, List.append_assoc]
    congr 1
    cases hc : w.bot.callFor p with
    | none => simp [List.filterMap_cons, hc]
    | some c => simp [List.filterMap_cons, hc]

theorem Stop_trace {σ : Type} (w : World σ) :
    (Bot.Stop w).trace = w.trace ∧ (Bot.Stop w).bot = w.bot := by
  unfold Bot.Stop
  split
  · split <;> exact ⟨rfl, rfl⟩
  · exact ⟨rfl, rfl⟩

theorem filterMap_callFor (bot : Bot) (u : EventHandler) (hu : bot.onUnhandledEvent = some u)
    (l : List (AccountId × Event)) :
    (l.filterMap bot.callFor).map (fun c => (c.2.1, c.2.2)) = l := by
  induction l with
  | nil => rfl
  | cons p l ih =>
    have : ∃ h, bot.callFor p = some (h, p.1, p.2) := by
      unfold Bot.callFor Bot.selected
      cases bot.handlerMap.lookup p.2.eventType with
      | some h => exact ⟨h, rfl⟩
      | none => exact ⟨u, by simp [hu]⟩
    obtain ⟨h, hh⟩ := this
    simp [List.filterMap_cons, hh, ih]

/-- C19: however the two goroutines of a `Run` are scheduled, the pairs that
have reached `onEvent` are the first of the pairs that the successful
`get_next_event` calls return before the first failing call, in the same
order; the handler calls that `Run` has added to the effects are the calls
that the dispatch of just these pairs makes, one after the other: for every
pair the call of the handler selected for its event, with the account and the
event of the pair, and nothing for a pair with no handler selected. With an
unhandled-event handler set every pair is thus seen in a handler call, so the
accounts and events of the handler calls made during `Run` are these pairs,
in order, none lost and none twice; and when `Run` has returned they are all
the pairs up to the first failing call. -/
theorem Run_dispatch_calls {σ : Type} (S : RpcServer σ)
    (results : List (Except Error _Event)) (w : World σ) (sched : List Thread) :
    (Bot.runSteps S sched (RunState.init results w)).dispatched <+: successes results ∧
    ((Bot.runSteps S sched (RunState.init results w)).consumer ≠ .returned →
      (Bot.runSteps S sched (RunState.init results w)).world
        = Bot.handleAll S w (Bot.runSteps S sched (RunState.init results w)).dispatched) ∧
    ((Bot.runSteps S sched (RunState.init results w)).consumer = .returned →
      (Bot.runSteps S sched (RunState.init results w)).dispatched = successes results ∧
      (Bot.runSteps S sched (RunState.init results w)).world
        = Bot.Stop (Bot.handleAll S w (successes results))) ∧
    eventCalls (Bot.runSteps S sched (RunState.init results w)).world.trace
      = eventCalls w.trace ++
          (Bot.runSteps S sched (RunState.init results w)).dispatched.filterMap w.bot.callFor ∧
    (∀ u, w.bot.onUnhandledEvent = some u →
      (eventCalls (Bot.runSteps S sched (RunState.init results w)).world.trace).map
          (fun c => (c.2.1, c.2.2))
        = (eventCalls w.trace).map (fun c => (c.2.1, c.2.2)) ++
            (Bot.runSteps S sched (RunState.init results w)).dispatched ∧
      ((Bot.runSteps S sched (RunState.init results w)).consumer = .returned →
        (eventCalls (Bot.runSteps S sched (RunState.init results w)).world.trace).map
            (fun c => (c.2.1, c.2.2))
          = (eventCalls w.trace).map (fun c => (c.2.1, c.2.2)) ++ successes results)) := by
  obtain ⟨h1, h2, h3⟩ :=
    RunInv_steps S (successes results) w sched _ (RunInv_init S results w)
  have hret : (Bot.runSteps S sched (RunState.init results w)).consumer = .returned →
      (Bot.runSteps S sched (RunState.init results w)).dispatched = successes results := by
    intro hr
    obtain ⟨hp, -⟩ := h3 hr
    simpa [RunState.held, RunState.ahead, hp, hr] using h1
  have hcalls : eventCalls (Bot.runSteps S sched (RunState.init results w)).world.trace
      = eventCalls w.trace ++
          (Bot.runSteps S sched (RunState.init results w)).dispatched.filterMap w.bot.callFor := by
    by_cases hr : (Bot.runSteps S sched (RunState.init results w)).consumer = .returned
    · rw [(h3 hr).2, (Stop_trace _).1]
      exact (handleAll_eventCalls S _ w).2
    · rw [h2 hr]
      exact (handleAll_eventCalls S _ w).2
  refine ⟨⟨_, by rw [← List.append_assoc]; exact h1⟩, h2, fun hr => ⟨hret hr, ?_⟩, hcalls,
    fun u hu => ?_⟩
  · rw [(h3 hr).2, hret hr]
  · have hall : (eventCalls (Bot.runSteps S sched (RunState.init results w)).world.trace).map
          (fun c => (c.2.1, c.2.2))
        = (eventCalls w.trace).map (fun c => (c.2.1, c.2.2)) ++
            (Bot.runSteps S sched (RunState.init results w)).dispatched := by
      rw [hcalls, List.map_append, filterMap_callFor w.bot u hu]
    exact ⟨hall, fun hr => by rw [hall, hret hr]⟩

/-- C19 at two events followed by a failing call and an event never fetched,
on a bot with the handler 1 for `Info` events and the unhandled-event handler
2: when `Run` has returned, the handler calls made are those of the two
events, in order. -/
theorem Run_dispatch_calls_witness :
    eventCalls (Bot.runSteps idleServer
        [.producer, .consumer, .producer, .consumer, .consumer, .producer, .consumer, .consumer]
        (RunState.init sampleResults
          { runningWorld with
            bot := ((runningWorld.bot.On (.EventInfo "") 1).OnUnhandledEvent (some 2)) })).world.trace
      = [(1, 1, .EventInfo "x"), (2, 2, .EventIncomingMsg 3 4)] ∧
    (eventCalls (Bot.runSteps idleServer
        [.producer, .consumer, .producer, .consumer, .consumer, .producer, .consumer, .consumer]
        (RunState.init sampleResults
          { runningWorld with
            bot := ((runningWorld.bot.On (.EventInfo "") 1).OnUnhandledEvent (some 2)) })).world.trace).map
        (fun c => (c.2.1, c.2.2))
      = [] ++ successes sampleResults :=
  ⟨by decide,
   ((Run_dispatch_calls idleServer sampleResults
      { runningWorld with
        bot := ((runningWorld.bot.On (.EventInfo "") 1).OnUnhandledEvent (some 2)) }
      [.producer, .consumer, .producer, .consumer, .consumer, .producer, .consumer,
       .consumer]).2.2.2.2 2 rfl).2 (by decide)⟩

end deltachat
